import Mathlib

/-!
# csvsqldb: the typed value model of `libcsvsqldb/values.h`

A shallow embedding of the `Value` class hierarchy (`ValInt`, `ValDouble`,
`ValBool`, `ValDate`, `ValTime`, `ValTimestamp`, `ValString`) and of the
`ValueCreator` factories, followed by the properties proved about them.

Conventions of the embedding

* a virtual call on a `const Value&` is a function on the sum type `Value`
  that dispatches on the constructor;
* `dynamic_cast<const ValX&>(rhs)` returns in `Except Exn`, raising
  `Exn.bad_cast` on a value of another class, as the reference cast does;
* what the C and C++ runtime supplies (collation, `std::hash`, `sizeof`,
  number and date formatting) and the helpers of the repository that
  `values.h` only includes are the fields of `Env`;
* a `const char*` is either `none` (the null pointer) or a buffer: an
  address together with the bytes stored from that address on.
-/

namespace csvsqldb

/-! ## Types used by `values.h` -/

/-- The type tags `getType` returns (enumeration `eType` of `types.h`). -/
inductive eType where
  | INT
  | REAL
  | BOOLEAN
  | DATE
  | TIME
  | TIMESTAMP
  | STRING
deriving DecidableEq, Repr

/-- The exception a failed `dynamic_cast` to a reference type raises. -/
inductive Exn where
  | bad_cast
deriving DecidableEq, Repr

/-- Modelled from the spec: `csvsqldb::Date`, declared in a header that
`values.h` includes; a calendar day backed by its Julian day number, which is
what `asJulianDay` returns and what `==` and `<` compare. -/
structure Date where
  asJulianDay : Int
deriving DecidableEq, Repr

/-- Modelled from the spec: `csvsqldb::Time`, a time of day backed by one
integer, which is what `asInteger` returns and what `==` and `<` compare. -/
structure Time where
  asInteger : Int
deriving DecidableEq, Repr

/-- Modelled from the spec: `csvsqldb::Timestamp`, an instant backed by one
integer, which is what `asInteger` returns and what `==` and `<` compare. -/
structure Timestamp where
  asInteger : Int
deriving DecidableEq, Repr

/-- An IEEE-754 binary64 number, kept as its 64-bit pattern. -/
structure Double where
  bits : Nat
deriving DecidableEq, Repr

/-- The biased exponent field of a binary64 pattern. -/
def Double.expo (d : Double) : Nat := d.bits / 2 ^ 52 % 2 ^ 11

/-- The fraction field of a binary64 pattern. -/
def Double.frac (d : Double) : Nat := d.bits % 2 ^ 52

/-- The sign bit of a binary64 pattern. -/
def Double.sign (d : Double) : Nat := d.bits / 2 ^ 63 % 2

/-- A pattern is a NaN when the exponent is all ones and the fraction is not zero. -/
def Double.isNaN (d : Double) : Bool := d.expo == 2047 && d.frac != 0

/-- The sign-magnitude key of a pattern that is not a NaN: the order of the
keys is the order of the numbers, and both zeros have key 0. -/
def Double.key (d : Double) : Int :=
  if d.sign = 1 then -((d.bits % 2 ^ 63 : Nat) : Int) else ((d.bits % 2 ^ 63 : Nat) : Int)

/-- The built-in `<` of `double`: false as soon as one side is a NaN. -/
def Double.lt (a b : Double) : Bool :=
  !a.isNaN && !b.isNaN && decide (a.key < b.key)

/-- The value of `std::numeric_limits<int64_t>::max()`. -/
def INT64_MAX : Int := 2 ^ 63 - 1

/-- The largest `size_t`, `SIZE_MAX`, where `size_t` has 64 bits: sums of
`size_t` values are taken modulo `SIZE_MAX + 1`. -/
def SIZE_MAX : Nat := 2 ^ 64 - 1

/-- The value of `std::numeric_limits<double>::max()`, pattern `0x7FEFFFFFFFFFFFFF`. -/
def DBL_MAX : Double := ⟨0x7FEFFFFFFFFFFFFF⟩

/-- A character buffer in memory: where it starts and the bytes stored from
there on (one `Char` per byte). -/
structure Buffer where
  addr : Nat
  bytes : List Char
deriving DecidableEq, Repr

/-- A `const char*`: `none` is `nullptr`. -/
abbrev CharPtr := Option Buffer

/-- The C string a buffer holds: its bytes up to the first NUL byte. -/
def Buffer.cstr (b : Buffer) : List Char := b.bytes.takeWhile (fun c => c != '\x00')

/-- The result of `::strlen` on a buffer. -/
def strlen (b : Buffer) : Nat := b.cstr.length

/-- The C string a non-null pointer points to; the null pointer, which the
callers below never dereference, is given the empty string. -/
def CharPtr.cstr : CharPtr → List Char
  | none => []
  | some b => b.cstr

/-- The pointer as a number, `nullptr` being 0. -/
def CharPtr.address : CharPtr → Nat
  | none => 0
  | some b => b.addr

/-- A `std::ostream` in its default formatting state, as the characters
written to it so far. -/
abbrev ostream := List Char

/-- What `values.h` takes from outside itself: the C and C++ runtime and the
helpers of headers it includes. -/
structure Env where
  /-- The function `::strcoll` of the C library, under the locale in effect. -/
  strcoll : List Char → List Char → Int
  /-- The tolerance comparator `csvsqldb::compare` of `base/float_helper.h`. -/
  compare : Double → Double → Bool
  /-- The functor `std::hash<int64_t>`. -/
  hash_int64 : Int → Nat
  /-- The functor `std::hash<int32_t>`. -/
  hash_int32 : Int → Nat
  /-- The functor `std::hash<bool>`. -/
  hash_bool : Bool → Nat
  /-- The functor `std::hash<double>`. -/
  hash_double : Double → Nat
  /-- The functor `std::hash<const char*>`, a function of the address. -/
  hash_ptr : Nat → Nat
  /-- The value of `sizeof(ValInt)`. -/
  sizeof_ValInt : Nat
  /-- The value of `sizeof(ValDouble)`. -/
  sizeof_ValDouble : Nat
  /-- The value of `sizeof(ValBool)`. -/
  sizeof_ValBool : Nat
  /-- The value of `sizeof(ValDate)`. -/
  sizeof_ValDate : Nat
  /-- The value of `sizeof(ValTime)`. -/
  sizeof_ValTime : Nat
  /-- The value of `sizeof(ValTimestamp)`. -/
  sizeof_ValTimestamp : Nat
  /-- The value of `sizeof(ValString)`. -/
  sizeof_ValString : Nat
  /-- The date a default-constructed `csvsqldb::Date` holds. -/
  Date_default : Date
  /-- The time a default-constructed `csvsqldb::Time` holds. -/
  Time_default : Time
  /-- The instant a default-constructed `csvsqldb::Timestamp` holds. -/
  Timestamp_default : Timestamp
  /-- Output of a `double` under `std::fixed`, `std::showpoint`, `std::setprecision(6)`. -/
  put_double : Double → List Char
  /-- The method `Date::format`. -/
  Date_format : String → Date → List Char
  /-- The method `Time::format`. -/
  Time_format : String → Time → List Char
  /-- The method `Timestamp::format`. -/
  Timestamp_format : String → Timestamp → List Char

/-! ## The value classes -/

/-- Class `ValInt`: an `int64_t` and the null flag. -/
structure ValInt where
  _val : Int
  _isNull : Bool
deriving DecidableEq, Repr

/-- Class `ValDouble`: a `double` and the null flag. -/
structure ValDouble where
  _val : Double
  _isNull : Bool
deriving DecidableEq, Repr

/-- Class `ValBool`: a `bool` and the null flag. -/
structure ValBool where
  _val : Bool
  _isNull : Bool
deriving DecidableEq, Repr

/-- Class `ValDate`: a `Date` and the null flag. -/
structure ValDate where
  _val : Date
  _isNull : Bool
deriving DecidableEq, Repr

/-- Class `ValTime`: a `Time` and the null flag. -/
structure ValTime where
  _val : Time
  _isNull : Bool
deriving DecidableEq, Repr

/-- Class `ValTimestamp`: a `Timestamp` and the null flag. -/
structure ValTimestamp where
  _val : Timestamp
  _isNull : Bool
deriving DecidableEq, Repr

/-- Class `ValString`: the recorded length and the character pointer; there is
no null flag, the null pointer is the null value. -/
structure ValString where
  _length : Nat
  _val : CharPtr
deriving DecidableEq, Repr

/-- A `Value` object: one of the seven concrete classes. -/
inductive Value where
  | ofInt (v : ValInt)
  | ofDouble (v : ValDouble)
  | ofBool (v : ValBool)
  | ofDate (v : ValDate)
  | ofTime (v : ValTime)
  | ofTimestamp (v : ValTimestamp)
  | ofString (v : ValString)
deriving DecidableEq, Repr

/-! ## Constructors -/

/-- Constructor `ValInt()`: the null Int, with the largest `int64_t` as payload. -/
def ValInt.null : ValInt := ⟨INT64_MAX, true⟩

/-- Constructor `ValInt(int64_t val)`. -/
def ValInt.new (val : Int) : ValInt := ⟨val, false⟩

/-- Constructor `ValDouble()`: the null Real, with the largest `double` as payload. -/
def ValDouble.null : ValDouble := ⟨DBL_MAX, true⟩

/-- Constructor `ValDouble(double val)`. -/
def ValDouble.new (val : Double) : ValDouble := ⟨val, false⟩

/-- Constructor `ValBool()`: the null Bool, with `false` as payload. -/
def ValBool.null : ValBool := ⟨false, true⟩

/-- Constructor `ValBool(bool val)`. -/
def ValBool.new (val : Bool) : ValBool := ⟨val, false⟩

/-- Constructor `ValDate()`: the payload is default-constructed. -/
def ValDate.null (E : Env) : ValDate := ⟨E.Date_default, true⟩

/-- Constructor `ValDate(const csvsqldb::Date& val)`. -/
def ValDate.new (val : Date) : ValDate := ⟨val, false⟩

/-- Constructor `ValTime()`: the payload is default-constructed. -/
def ValTime.null (E : Env) : ValTime := ⟨E.Time_default, true⟩

/-- Constructor `ValTime(const csvsqldb::Time& val)`. -/
def ValTime.new (val : Time) : ValTime := ⟨val, false⟩

/-- Constructor `ValTimestamp()`: the payload is default-constructed. -/
def ValTimestamp.null (E : Env) : ValTimestamp := ⟨E.Timestamp_default, true⟩

/-- Constructor `ValTimestamp(const csvsqldb::Timestamp& val)`. -/
def ValTimestamp.new (val : Timestamp) : ValTimestamp := ⟨val, false⟩

/-- Constructor `ValString()`: length 0 and the null pointer. -/
def ValString.null : ValString := ⟨0, none⟩

/-- Constructor `ValString(const char* val)` on a pointer to a buffer: the
length is what `::strlen` finds there. -/
def ValString.new (val : Buffer) : ValString := ⟨strlen val, some val⟩

/-- Constructor `ValString(const char* val, size_t len)`: both stored as given. -/
def ValString.newLen (val : CharPtr) (len : Nat) : ValString := ⟨len, val⟩

/-- The default-constructed value of each class, the null of that kind. -/
def null_of_kind (E : Env) : eType → Value
  | .INT => .ofInt ValInt.null
  | .REAL => .ofDouble ValDouble.null
  | .BOOLEAN => .ofBool ValBool.null
  | .DATE => .ofDate (ValDate.null E)
  | .TIME => .ofTime (ValTime.null E)
  | .TIMESTAMP => .ofTimestamp (ValTimestamp.null E)
  | .STRING => .ofString ValString.null

/-! ## `isNull`, `getType`, `baseSize`, `size`, `length` -/

/-- Method `ValInt::isNull`. -/
def ValInt.isNull (self : ValInt) : Bool := self._isNull

/-- Method `ValDouble::isNull`. -/
def ValDouble.isNull (self : ValDouble) : Bool := self._isNull

/-- Method `ValBool::isNull`. -/
def ValBool.isNull (self : ValBool) : Bool := self._isNull

/-- Method `ValDate::isNull`. -/
def ValDate.isNull (self : ValDate) : Bool := self._isNull

/-- Method `ValTime::isNull`. -/
def ValTime.isNull (self : ValTime) : Bool := self._isNull

/-- Method `ValTimestamp::isNull`. -/
def ValTimestamp.isNull (self : ValTimestamp) : Bool := self._isNull

/-- Method `ValString::isNull`: `_val == nullptr`. -/
def ValString.isNull (self : ValString) : Bool := self._val.isNone

/-- Method `ValString::length`. -/
def ValString.length (self : ValString) : Nat := self._length

/-- Method `ValString::asString`. -/
def ValString.asString (self : ValString) : CharPtr := self._val

/-- Method `ValInt::baseSize`. -/
def ValInt.baseSize (E : Env) : Nat := E.sizeof_ValInt

/-- Method `ValInt::size`. -/
def ValInt.size (E : Env) (_self : ValInt) : Nat := E.sizeof_ValInt

/-- Method `ValDouble::baseSize`. -/
def ValDouble.baseSize (E : Env) : Nat := E.sizeof_ValDouble

/-- Method `ValDouble::size`. -/
def ValDouble.size (E : Env) (_self : ValDouble) : Nat := E.sizeof_ValDouble

/-- Method `ValBool::baseSize`. -/
def ValBool.baseSize (E : Env) : Nat := E.sizeof_ValBool

/-- Method `ValBool::size`. -/
def ValBool.size (E : Env) (_self : ValBool) : Nat := E.sizeof_ValBool

/-- Method `ValDate::baseSize`. -/
def ValDate.baseSize (E : Env) : Nat := E.sizeof_ValDate

/-- Method `ValDate::size`. -/
def ValDate.size (E : Env) (_self : ValDate) : Nat := E.sizeof_ValDate

/-- Method `ValTime::baseSize`. -/
def ValTime.baseSize (E : Env) : Nat := E.sizeof_ValTime

/-- Method `ValTime::size`. -/
def ValTime.size (E : Env) (_self : ValTime) : Nat := E.sizeof_ValTime

/-- Method `ValTimestamp::baseSize`. -/
def ValTimestamp.baseSize (E : Env) : Nat := E.sizeof_ValTimestamp

/-- Method `ValTimestamp::size`. -/
def ValTimestamp.size (E : Env) (_self : ValTimestamp) : Nat := E.sizeof_ValTimestamp

/-- Method `ValString::baseSize`. -/
def ValString.baseSize (E : Env) : Nat := E.sizeof_ValString

/-- Method `ValString::size`: `sizeof(ValString) + _length + 1`, a sum of
`size_t` values, which wraps past `SIZE_MAX`. -/
def ValString.size (E : Env) (self : ValString) : Nat :=
  (E.sizeof_ValString + self._length + 1) % (SIZE_MAX + 1)

/-- The virtual `isNull`. -/
def Value.isNull : Value → Bool
  | .ofInt v => v.isNull
  | .ofDouble v => v.isNull
  | .ofBool v => v.isNull
  | .ofDate v => v.isNull
  | .ofTime v => v.isNull
  | .ofTimestamp v => v.isNull
  | .ofString v => v.isNull

/-- The virtual `getType`. -/
def Value.getType : Value → eType
  | .ofInt _ => .INT
  | .ofDouble _ => .REAL
  | .ofBool _ => .BOOLEAN
  | .ofDate _ => .DATE
  | .ofTime _ => .TIME
  | .ofTimestamp _ => .TIMESTAMP
  | .ofString _ => .STRING

/-- The static `baseSize` of the class that carries the given tag. -/
def baseSize (E : Env) : eType → Nat
  | .INT => ValInt.baseSize E
  | .REAL => ValDouble.baseSize E
  | .BOOLEAN => ValBool.baseSize E
  | .DATE => ValDate.baseSize E
  | .TIME => ValTime.baseSize E
  | .TIMESTAMP => ValTimestamp.baseSize E
  | .STRING => ValString.baseSize E

/-- The virtual `size`. -/
def Value.size (E : Env) : Value → Nat
  | .ofInt v => v.size E
  | .ofDouble v => v.size E
  | .ofBool v => v.size E
  | .ofDate v => v.size E
  | .ofTime v => v.size E
  | .ofTimestamp v => v.size E
  | .ofString v => v.size E

/-! ## `dynamic_cast` to a reference -/

/-- The cast `dynamic_cast<const ValInt&>`. -/
def dynamic_cast_ValInt : Value → Except Exn ValInt
  | .ofInt v => .ok v
  | _ => .error .bad_cast

/-- The cast `dynamic_cast<const ValDouble&>`. -/
def dynamic_cast_ValDouble : Value → Except Exn ValDouble
  | .ofDouble v => .ok v
  | _ => .error .bad_cast

/-- The cast `dynamic_cast<const ValBool&>`. -/
def dynamic_cast_ValBool : Value → Except Exn ValBool
  | .ofBool v => .ok v
  | _ => .error .bad_cast

/-- The cast `dynamic_cast<const ValDate&>`. -/
def dynamic_cast_ValDate : Value → Except Exn ValDate
  | .ofDate v => .ok v
  | _ => .error .bad_cast

/-- The cast `dynamic_cast<const ValTime&>`. -/
def dynamic_cast_ValTime : Value → Except Exn ValTime
  | .ofTime v => .ok v
  | _ => .error .bad_cast

/-- The cast `dynamic_cast<const ValTimestamp&>`. -/
def dynamic_cast_ValTimestamp : Value → Except Exn ValTimestamp
  | .ofTimestamp v => .ok v
  | _ => .error .bad_cast

/-- The cast `dynamic_cast<const ValString&>`. -/
def dynamic_cast_ValString : Value → Except Exn ValString
  | .ofString v => .ok v
  | _ => .error .bad_cast

/-! ## `operator<` and `operator==`

Every class has the same shape: the null guard on both operands first, then
the downcast of the right operand, then the comparison of the payloads. -/

/-- Method `ValInt::operator<`. -/
def ValInt.operator_lt (self : ValInt) (rhs : Value) : Except Exn Bool :=
  if self.isNull || rhs.isNull then .ok false
  else (dynamic_cast_ValInt rhs).map (fun r => decide (self._val < r._val))

/-- Method `ValInt::operator==`. -/
def ValInt.operator_eq (self : ValInt) (rhs : Value) : Except Exn Bool :=
  if self.isNull || rhs.isNull then .ok false
  else (dynamic_cast_ValInt rhs).map (fun r => decide (self._val = r._val))

/-- Method `ValDouble::operator<`. -/
def ValDouble.operator_lt (self : ValDouble) (rhs : Value) : Except Exn Bool :=
  if self.isNull || rhs.isNull then .ok false
  else (dynamic_cast_ValDouble rhs).map (fun r => Double.lt self._val r._val)

/-- Method `ValDouble::operator==`: the payloads go through `csvsqldb::compare`. -/
def ValDouble.operator_eq (E : Env) (self : ValDouble) (rhs : Value) : Except Exn Bool :=
  if self.isNull || rhs.isNull then .ok false
  else (dynamic_cast_ValDouble rhs).map (fun r => E.compare self._val r._val)

/-- Method `ValBool::operator<`: on `bool`, `false < true` only. -/
def ValBool.operator_lt (self : ValBool) (rhs : Value) : Except Exn Bool :=
  if self.isNull || rhs.isNull then .ok false
  else (dynamic_cast_ValBool rhs).map (fun r => decide (self._val < r._val))

/-- Method `ValBool::operator==`. -/
def ValBool.operator_eq (self : ValBool) (rhs : Value) : Except Exn Bool :=
  if self.isNull || rhs.isNull then .ok false
  else (dynamic_cast_ValBool rhs).map (fun r => decide (self._val = r._val))

/-- Method `ValDate::operator<`. -/
def ValDate.operator_lt (self : ValDate) (rhs : Value) : Except Exn Bool :=
  if self.isNull || rhs.isNull then .ok false
  else (dynamic_cast_ValDate rhs).map
    (fun r => decide (self._val.asJulianDay < r._val.asJulianDay))

/-- Method `ValDate::operator==`. -/
def ValDate.operator_eq (self : ValDate) (rhs : Value) : Except Exn Bool :=
  if self.isNull || rhs.isNull then .ok false
  else (dynamic_cast_ValDate rhs).map
    (fun r => decide (self._val.asJulianDay = r._val.asJulianDay))

/-- Method `ValTime::operator<`. -/
def ValTime.operator_lt (self : ValTime) (rhs : Value) : Except Exn Bool :=
  if self.isNull || rhs.isNull then .ok false
  else (dynamic_cast_ValTime rhs).map
    (fun r => decide (self._val.asInteger < r._val.asInteger))

/-- Method `ValTime::operator==`. -/
def ValTime.operator_eq (self : ValTime) (rhs : Value) : Except Exn Bool :=
  if self.isNull || rhs.isNull then .ok false
  else (dynamic_cast_ValTime rhs).map
    (fun r => decide (self._val.asInteger = r._val.asInteger))

/-- Method `ValTimestamp::operator<`. -/
def ValTimestamp.operator_lt (self : ValTimestamp) (rhs : Value) : Except Exn Bool :=
  if self.isNull || rhs.isNull then .ok false
  else (dynamic_cast_ValTimestamp rhs).map
    (fun r => decide (self._val.asInteger < r._val.asInteger))

/-- Method `ValTimestamp::operator==`. -/
def ValTimestamp.operator_eq (self : ValTimestamp) (rhs : Value) : Except Exn Bool :=
  if self.isNull || rhs.isNull then .ok false
  else (dynamic_cast_ValTimestamp rhs).map
    (fun r => decide (self._val.asInteger = r._val.asInteger))

/-- Method `ValString::operator<`: `::strcoll` of the two C strings is negative. -/
def ValString.operator_lt (E : Env) (self : ValString) (rhs : Value) : Except Exn Bool :=
  if self.isNull || rhs.isNull then .ok false
  else (dynamic_cast_ValString rhs).map
    (fun r => decide (E.strcoll self._val.cstr r._val.cstr < 0))

/-- Method `ValString::operator==`: `::strcoll` of the two C strings is zero. -/
def ValString.operator_eq (E : Env) (self : ValString) (rhs : Value) : Except Exn Bool :=
  if self.isNull || rhs.isNull then .ok false
  else (dynamic_cast_ValString rhs).map
    (fun r => decide (E.strcoll self._val.cstr r._val.cstr = 0))

/-- The virtual `operator<`, dispatched on the class of the left operand. -/
def Value.operator_lt (E : Env) (lhs rhs : Value) : Except Exn Bool :=
  match lhs with
  | .ofInt v => v.operator_lt rhs
  | .ofDouble v => v.operator_lt rhs
  | .ofBool v => v.operator_lt rhs
  | .ofDate v => v.operator_lt rhs
  | .ofTime v => v.operator_lt rhs
  | .ofTimestamp v => v.operator_lt rhs
  | .ofString v => v.operator_lt E rhs

/-- The virtual `operator==`, dispatched on the class of the left operand. -/
def Value.operator_eq (E : Env) (lhs rhs : Value) : Except Exn Bool :=
  match lhs with
  | .ofInt v => v.operator_eq rhs
  | .ofDouble v => v.operator_eq E rhs
  | .ofBool v => v.operator_eq rhs
  | .ofDate v => v.operator_eq rhs
  | .ofTime v => v.operator_eq rhs
  | .ofTimestamp v => v.operator_eq rhs
  | .ofString v => v.operator_eq E rhs

/-! ## `getHash` -/

/-- Method `ValInt::getHash`. -/
def ValInt.getHash (E : Env) (self : ValInt) : Nat := E.hash_int64 self._val

/-- Method `ValDouble::getHash`. -/
def ValDouble.getHash (E : Env) (self : ValDouble) : Nat := E.hash_double self._val

/-- Method `ValBool::getHash`. -/
def ValBool.getHash (E : Env) (self : ValBool) : Nat := E.hash_bool self._val

/-- Method `ValDate::getHash`. -/
def ValDate.getHash (E : Env) (self : ValDate) : Nat := E.hash_int64 self._val.asJulianDay

/-- Method `ValTime::getHash`. -/
def ValTime.getHash (E : Env) (self : ValTime) : Nat := E.hash_int32 self._val.asInteger

/-- Method `ValTimestamp::getHash`. -/
def ValTimestamp.getHash (E : Env) (self : ValTimestamp) : Nat :=
  E.hash_int64 self._val.asInteger

/-- Method `ValString::getHash`: `std::hash<const char*>` receives the
pointer, not the characters. -/
def ValString.getHash (E : Env) (self : ValString) : Nat := E.hash_ptr self._val.address

/-- The virtual `getHash`, which is also what `std::hash<csvsqldb::Value>` returns. -/
def Value.getHash (E : Env) : Value → Nat
  | .ofInt v => v.getHash E
  | .ofDouble v => v.getHash E
  | .ofBool v => v.getHash E
  | .ofDate v => v.getHash E
  | .ofTime v => v.getHash E
  | .ofTimestamp v => v.getHash E
  | .ofString v => v.getHash E

/-! ## `toStream` -/

/-- Method `ValInt::toStream`: the decimal digits, or `NULL`. -/
def ValInt.toStream (self : ValInt) (stream : ostream) : ostream :=
  if !self._isNull then stream ++ (toString self._val).toList
  else stream ++ "NULL".toList

/-- Method `ValDouble::toStream`. -/
def ValDouble.toStream (E : Env) (self : ValDouble) (stream : ostream) : ostream :=
  if !self._isNull then stream ++ E.put_double self._val
  else stream ++ "NULL".toList

/-- Method `ValBool::toStream`: a `bool` is written as `1` or `0`. -/
def ValBool.toStream (self : ValBool) (stream : ostream) : ostream :=
  if !self._isNull then stream ++ (if self._val then ['1'] else ['0'])
  else stream ++ "NULL".toList

/-- Method `ValDate::toStream`. -/
def ValDate.toStream (E : Env) (self : ValDate) (stream : ostream) : ostream :=
  if !self._isNull then stream ++ E.Date_format "%F" self._val
  else stream ++ "NULL".toList

/-- Method `ValTime::toStream`. -/
def ValTime.toStream (E : Env) (self : ValTime) (stream : ostream) : ostream :=
  if !self._isNull then stream ++ E.Time_format "%H:%M:%S" self._val
  else stream ++ "NULL".toList

/-- Method `ValTimestamp::toStream`. -/
def ValTimestamp.toStream (E : Env) (self : ValTimestamp) (stream : ostream) : ostream :=
  if !self._isNull then stream ++ E.Timestamp_format "%Y-%m-%dT%H:%M:%S" self._val
  else stream ++ "NULL".toList

/-- Method `ValString::toStream`: the C string behind a non-null pointer, or `NULL`. -/
def ValString.toStream (self : ValString) (stream : ostream) : ostream :=
  match self._val with
  | some b => stream ++ b.cstr
  | none => stream ++ "NULL".toList

/-- The virtual `toStream`. -/
def Value.toStream (E : Env) (self : Value) (stream : ostream) : ostream :=
  match self with
  | .ofInt v => v.toStream stream
  | .ofDouble v => v.toStream E stream
  | .ofBool v => v.toStream stream
  | .ofDate v => v.toStream E stream
  | .ofTime v => v.toStream E stream
  | .ofTimestamp v => v.toStream E stream
  | .ofString v => v.toStream stream

/-! ## `ValueCreator` -/

/-- The factory `ValueCreator<std::string>::createValue`: `new char[]` hands
out the address `c`; the `val.length()` bytes of `val` are copied there, a NUL
byte is stored behind them, and the one-argument constructor is called. -/
def ValueCreator_string_createValue (c : Nat) (val : List Char) : ValString :=
  ValString.new ⟨c, val ++ ['\x00']⟩

/-- The factory `ValueCreator<bool>::createValue`. -/
def ValueCreator_bool_createValue (val : Bool) : Value := .ofBool (ValBool.new val)

/-- The factory `ValueCreator<int64_t>::createValue`. -/
def ValueCreator_int64_createValue (val : Int) : Value := .ofInt (ValInt.new val)

/-- The factory `ValueCreator<double>::createValue`. -/
def ValueCreator_double_createValue (val : Double) : Value := .ofDouble (ValDouble.new val)

/-- The factory `ValueCreator<csvsqldb::Date>::createValue`. -/
def ValueCreator_Date_createValue (val : Date) : Value := .ofDate (ValDate.new val)

/-- The factory `ValueCreator<csvsqldb::Time>::createValue`. -/
def ValueCreator_Time_createValue (val : Time) : Value := .ofTime (ValTime.new val)

/-- The factory `ValueCreator<csvsqldb::Timestamp>::createValue`. -/
def ValueCreator_Timestamp_createValue (val : Timestamp) : Value :=
  .ofTimestamp (ValTimestamp.new val)

/-- The factory `ValueCreator<StringType>::createValue`, `StringType` being the
character pointer type of `types.h`: the one-argument constructor on the
pointer given. -/
def ValueCreator_StringType_createValue (val : Buffer) : Value := .ofString (ValString.new val)

/-! ## Typed accessors

None of them reads the null flag: each returns the stored payload. -/

/-- Method `ValInt::asInt`. -/
def ValInt.asInt (self : ValInt) : Int := self._val

/-- Method `ValDouble::asDouble`. -/
def ValDouble.asDouble (self : ValDouble) : Double := self._val

/-- Method `ValBool::asBool`. -/
def ValBool.asBool (self : ValBool) : Bool := self._val

/-- Method `ValDate::asDate`. -/
def ValDate.asDate (self : ValDate) : Date := self._val

/-- Method `ValTime::asTime`. -/
def ValTime.asTime (self : ValTime) : Time := self._val

/-- Method `ValTimestamp::asTimestamp`. -/
def ValTimestamp.asTimestamp (self : ValTimestamp) : Timestamp := self._val

/-! ## Copy constructors

Written out for `ValInt`, `ValDouble` and `ValBool`, generated member by
member for the other four classes. -/

/-- Constructor `ValInt(const ValInt& rhs)`. -/
def ValInt.copy (rhs : ValInt) : ValInt := ⟨rhs._val, rhs._isNull⟩

/-- Constructor `ValDouble(const ValDouble& rhs)`. -/
def ValDouble.copy (rhs : ValDouble) : ValDouble := ⟨rhs._val, rhs._isNull⟩

/-- Constructor `ValBool(const ValBool& rhs)`. -/
def ValBool.copy (rhs : ValBool) : ValBool := ⟨rhs._val, rhs._isNull⟩

/-- The generated copy constructor of `ValDate`. -/
def ValDate.copy (rhs : ValDate) : ValDate := ⟨rhs._val, rhs._isNull⟩

/-- The generated copy constructor of `ValTime`. -/
def ValTime.copy (rhs : ValTime) : ValTime := ⟨rhs._val, rhs._isNull⟩

/-- The generated copy constructor of `ValTimestamp`. -/
def ValTimestamp.copy (rhs : ValTimestamp) : ValTimestamp := ⟨rhs._val, rhs._isNull⟩

/-- The generated copy constructor of `ValString`: the length and the pointer. -/
def ValString.copy (rhs : ValString) : ValString := ⟨rhs._length, rhs._val⟩

/-- Copy construction of a value of any class. -/
def Value.copy : Value → Value
  | .ofInt v => .ofInt v.copy
  | .ofDouble v => .ofDouble v.copy
  | .ofBool v => .ofBool v.copy
  | .ofDate v => .ofDate v.copy
  | .ofTime v => .ofTime v.copy
  | .ofTimestamp v => .ofTimestamp v.copy
  | .ofString v => .ofString v.copy

/-! ## `toString`

No class tests the null flag here. A `std::string` built from a null
`const char*` is undefined behaviour, which is the result `none`. -/

/-- Method `ValInt::toString`: `std::to_string` of the payload. -/
def ValInt.toString (self : ValInt) : List Char := (ToString.toString self._val).toList

/-- Method `ValDouble::toString`: `std::to_string` of a `double` is its `%f`
form, six fractional digits, the text the stream writes under `std::fixed`
with precision 6. -/
def ValDouble.toString (E : Env) (self : ValDouble) : List Char := E.put_double self._val

/-- Method `ValBool::toString`: `std::to_string` takes the `bool` as an `int`. -/
def ValBool.toString (self : ValBool) : List Char := if self._val then ['1'] else ['0']

/-- Method `ValDate::toString`. -/
def ValDate.toString (E : Env) (self : ValDate) : List Char := E.Date_format "%F" self._val

/-- Method `ValTime::toString`. -/
def ValTime.toString (E : Env) (self : ValTime) : List Char :=
  E.Time_format "%H:%M:%S" self._val

/-- Method `ValTimestamp::toString`. -/
def ValTimestamp.toString (E : Env) (self : ValTimestamp) : List Char :=
  E.Timestamp_format "%Y-%m-%dT%H:%M:%S" self._val

/-- Method `ValString::toString`: `return _val;` converts the pointer to a
`std::string`. -/
def ValString.toString (self : ValString) : Option (List Char) :=
  match self._val with
  | some b => some b.cstr
  | none => none

/-- The virtual `toString`. -/
def Value.toString (E : Env) : Value → Option (List Char)
  | .ofInt v => some v.toString
  | .ofDouble v => some (v.toString E)
  | .ofBool v => some v.toString
  | .ofDate v => some (v.toString E)
  | .ofTime v => some (v.toString E)
  | .ofTimestamp v => some (v.toString E)
  | .ofString v => v.toString

/-! ## What the properties ask of the collation -/

/-- The contract of a collation function: swapping the arguments swaps the
sign, and "not after" is transitive. -/
def IsCollation (coll : List Char → List Char → Int) : Prop :=
  (∀ a b, coll a b < 0 ↔ 0 < coll b a) ∧
  (∀ a b c, coll a b ≤ 0 → coll b c ≤ 0 → coll a c ≤ 0)

/-! ## A sample environment

One runtime the code can run under: the "C" locale, in which `::strcoll` is
`::strcmp`, the identity hashes of GNU libstdc++ for integers and pointers,
and an LP64 object layout. It instantiates the hypotheses of the theorems
below. -/

/-- The function `::strcmp`: the sign of the first difference, byte by byte,
the end of a string being smaller than any byte. -/
def strcmp : List Char → List Char → Int
  | [], [] => 0
  | [], _ :: _ => -1
  | _ :: _, [] => 1
  | a :: as, b :: bs => if a < b then -1 else if b < a then 1 else strcmp as bs

/-- The `==` of `double`: false on a NaN, and the two zeros are equal. -/
def Double.eq (a b : Double) : Bool :=
  !a.isNaN && !b.isNaN && decide (a.key = b.key)

/-- Left-pads a run of digits with zeros to the given width. -/
def padZero (width : Nat) (digits : List Char) : List Char :=
  List.replicate (width - digits.length) '0' ++ digits

/-- A `double` written with six fractional digits, rounded to nearest, ties to even. -/
def putFixed6 (d : Double) : List Char :=
  let sgn : List Char := if d.sign = 1 then ['-'] else []
  if d.isNaN then sgn ++ "nan".toList
  else if d.expo = 2047 then sgn ++ "inf".toList
  else
    let m := if d.expo = 0 then d.frac else d.frac + 2 ^ 52
    let e := if d.expo = 0 then 1 else d.expo
    let num := m * 10 ^ 6 * 2 ^ (e - 1075)
    let den := 2 ^ (1075 - e)
    let q := num / den
    let r := num % den
    let q := if den < 2 * r ∨ (2 * r = den ∧ q % 2 = 1) then q + 1 else q
    sgn ++ (toString (q / 10 ^ 6)).toList ++ ['.'] ++ padZero 6 (toString (q % 10 ^ 6)).toList

/-- Year, month and day of a Julian day number in the Gregorian calendar. -/
def civilOfJulianDay (j : Int) : Int × Int × Int :=
  let f := j + 1401 + (((4 * j + 274277) / 146097) * 3) / 4 - 38
  let e := 4 * f + 3
  let g := (e % 1461) / 4
  let h := 5 * g + 2
  let day := (h % 153) / 5 + 1
  let month := (h / 153 + 2) % 12 + 1
  let year := e / 1461 - 4716 + (12 + 2 - month) / 12
  (year, month, day)

/-- A number written in at least the given count of decimal digits. -/
def putPadded (width : Nat) (n : Int) : List Char :=
  padZero width (toString n.toNat).toList

/-- The form `YYYY-MM-DD` of a Julian day number. -/
def putDate (j : Int) : List Char :=
  let c := civilOfJulianDay j
  putPadded 4 c.1 ++ ['-'] ++ putPadded 2 c.2.1 ++ ['-'] ++ putPadded 2 c.2.2

/-- The form `HH:MM:SS` of a count of seconds since midnight. -/
def putTime (s : Int) : List Char :=
  putPadded 2 (s / 3600) ++ [':'] ++ putPadded 2 (s / 60 % 60) ++ [':'] ++ putPadded 2 (s % 60)

/-- The sample environment. The parts of the repository that are not among
the sources are filled in as follows: the comparator `compare` at tolerance
zero, a date as its Julian day number, a time as seconds since midnight, an
instant as seconds since 1970-01-01T00:00:00, and default-constructed
payloads as zero; the format string is not interpreted, each class passes
the one format shown in its documentation. -/
def sampleEnv : Env where
  strcoll := strcmp
  compare := Double.eq
  hash_int64 := fun v => (v % 2 ^ 64).toNat
  hash_int32 := fun v => (v % 2 ^ 64).toNat
  hash_bool := fun b => if b then 1 else 0
  hash_double := fun d => d.bits
  hash_ptr := fun p => p
  sizeof_ValInt := 17
  sizeof_ValDouble := 17
  sizeof_ValBool := 10
  sizeof_ValDate := 17
  sizeof_ValTime := 13
  sizeof_ValTimestamp := 17
  sizeof_ValString := 24
  Date_default := ⟨0⟩
  Time_default := ⟨0⟩
  Timestamp_default := ⟨0⟩
  put_double := putFixed6
  Date_format := fun _ d => putDate d.asJulianDay
  Time_format := fun _ t => putTime t.asInteger
  Timestamp_format := fun _ t =>
    putDate (t.asInteger / 86400 + 2440588) ++ ['T'] ++ putTime (t.asInteger % 86400)

/-! ## Definitions the statements use -/

deriving instance DecidableEq for Except

/-- The payload equality in the words of the specification: exact equality
for Int, Bool, Date, Time and Timestamp, the tolerance comparator for Real,
collation result zero for String; values of two classes have no common
payload to compare. -/
def payload_equal (E : Env) : Value → Value → Bool
  | .ofInt a, .ofInt b => decide (a._val = b._val)
  | .ofDouble a, .ofDouble b => E.compare a._val b._val
  | .ofBool a, .ofBool b => decide (a._val = b._val)
  | .ofDate a, .ofDate b => decide (a._val = b._val)
  | .ofTime a, .ofTime b => decide (a._val = b._val)
  | .ofTimestamp a, .ofTimestamp b => decide (a._val = b._val)
  | .ofString a, .ofString b => decide (E.strcoll a._val.cstr b._val.cstr = 0)
  | _, _ => false

/-- The payload order: the comparison each class's `operator<` makes on two
payloads of its own class; values of two classes have no common payload to
compare. -/
def payload_less (E : Env) : Value → Value → Bool
  | .ofInt a, .ofInt b => decide (a._val < b._val)
  | .ofDouble a, .ofDouble b => Double.lt a._val b._val
  | .ofBool a, .ofBool b => decide (a._val < b._val)
  | .ofDate a, .ofDate b => decide (a._val.asJulianDay < b._val.asJulianDay)
  | .ofTime a, .ofTime b => decide (a._val.asInteger < b._val.asInteger)
  | .ofTimestamp a, .ofTimestamp b => decide (a._val.asInteger < b._val.asInteger)
  | .ofString a, .ofString b => decide (E.strcoll a._val.cstr b._val.cstr < 0)
  | _, _ => false

/-- A Real whose payload is a NaN. -/
def Value.isNaN : Value → Bool
  | .ofDouble v => v._val.isNaN
  | _ => false

/-- Reads a run of decimal digits onto the number read so far. -/
def parseNatDigits : List Char → Nat → Option Nat
  | [], acc => some acc
  | c :: cs, acc => if c.isDigit then parseNatDigits cs (acc * 10 + (c.toNat - 48)) else none

/-- Reads a text as a decimal integer: an optional minus sign, then one digit
or more. -/
def parseDecimal (cs : List Char) : Option Int :=
  match cs with
  | [] => none
  | c :: ds =>
    if c = '-' then
      (if ds = [] then none else (parseNatDigits ds 0).map (fun n => -(n : Int)))
    else (parseNatDigits (c :: ds) 0).map (fun n => (n : Int))

/-! ## The JSON parser

The sources of the parser are not among the files; the tests of it are. The
parser is modelled from the specification: a tokenizer over bytes, a grammar
driver over tokens, a reader that runs both byte by byte, and the DOM builder.
The documents are those of `test/json_test.cpp`. -/

/-- The document `json` of the test. -/
def json : List Char :=
  ("                        " ++ "\x7b" ++ "    \"Image\": \x7b " ++ "       \"Width\":  800, " ++
    "       \"Height\": 600, " ++ "       \"Title\":  \"View from \t15th Floor\", " ++
    "       \"Thumbnail\": \x7b " ++
    "            \"Url\":    \"http://www.example.com/image/481989943\", " ++
    "            \"Height\": 125, " ++ "            \"Width\":  \"100\" " ++ "        \x7d, " ++
    "        \"IDs\": [116.47, 943, 234, -38793, null, false], " ++ "        \"Cool\": true " ++
    "    \x7d " ++ "\x7d ").toList

/-- The document `json2` of the test. -/
def json2 : List Char :=
  ("[" ++ " \x7b" ++ " \"precision\": \"zip\"," ++ " \"Latitude\":  37.7668," ++
    " \"Longitude\": -122.3959," ++ " \"Address\":   \"\"," ++
    " \"City\":      \"SAN FRANCISCO\"," ++ " \"State\":     \"CA\"," ++
    " \"Zip\":       \"94107\"," ++ " \"Country\":   \"US\"" ++ " \x7d," ++ " \x7b" ++
    " \"precision\": \"zip\"," ++ " \"Latitude\":  37.371991," ++
    " \"Longitude\": -122.026020," ++ " \"Address\":   \"\"," ++
    " \"City\":      \"SUNNYVALE\"," ++ " \"State\":     \"CA\"," ++
    " \"Zip\":       \"94085\"," ++ " \"Country\":   \"US\"" ++ " \x7d" ++ " ]").toList

/-- The document `jsonBad` of the test: the key of one member is missing. -/
def jsonBad : List Char :=
  ("                        " ++ "\x7b" ++ "    \"Image\": \x7b " ++ "       \"Width\":  800, " ++
    "       \"Height\": 600, " ++ "       \"Title\":  \"View from \t15th Floor\", " ++
    "       \"Thumbnail\": \x7b " ++
    "            \"Url\":    \"http://www.example.com/image/481989943\", " ++
    "            \"Height\": 125, " ++ "            \"100\" " ++ "        \x7d, " ++
    "        \"IDs\": [116.47, 943, 234, -38793, null, false], " ++ "        \"Cool\": true " ++
    "    \x7d " ++ "\x7d ").toList

/-- The transcript `result` the test expects for `json`. -/
def result : List Char :=
  ("\x7b\n" ++ "\"Image\" : \x7b\n" ++ "\"Width\" : 800\n" ++ "\"Height\" : 600\n" ++
    "\"Title\" : \"View from \t15th Floor\"\n" ++ "\"Thumbnail\" : \x7b\n" ++
    "\"Url\" : \"http://www.example.com/image/481989943\"\n" ++ "\"Height\" : 125\n" ++
    "\"Width\" : \"100\"\n" ++ "\x7d\n" ++ "\"IDs\" : [\n" ++ "116.47\n" ++ "943\n" ++ "234\n" ++
    "-38793\n" ++ "null\n" ++ "false\n" ++ "]\n" ++ "\"Cool\" : true\n\x7d\n" ++ "\x7d\n").toList

/-- The transcript `result2` the test expects for `json2`. -/
def result2 : List Char :=
  ("[\n" ++ "\x7b\n" ++ "\"precision\" : \"zip\"\n" ++ "\"Latitude\" : 37.7668\n" ++
    "\"Longitude\" : -122.396\n" ++ "\"Address\" : \"\"\n" ++ "\"City\" : \"SAN FRANCISCO\"\n" ++
    "\"State\" : \"CA\"\n" ++ "\"Zip\" : \"94107\"\n" ++ "\"Country\" : \"US\"\n" ++ "\x7d\n" ++
    "\x7b\n" ++ "\"precision\" : \"zip\"\n" ++ "\"Latitude\" : 37.372\n" ++
    "\"Longitude\" : -122.026\n" ++ "\"Address\" : \"\"\n" ++ "\"City\" : \"SUNNYVALE\"\n" ++
    "\"State\" : \"CA\"\n" ++ "\"Zip\" : \"94085\"\n" ++ "\"Country\" : \"US\"\n" ++ "\x7d\n" ++
    "]\n").toList

/-- The document `badJson1` of the test. -/
def badJson1 : List Char := "\x7b \"Test\" : 0123 \x7d".toList

/-- The document `badJson2` of the test. -/
def badJson2 : List Char := "\x7b \"Te\x0bst\" : 0123 \x7d".toList

/-- The document `badJson3` of the test. -/
def badJson3 : List Char := "\x7b \"Test : 123 \x7d".toList

/-- The document `badJson4` of the test. -/
def badJson4 : List Char := "\x7b \"Test : 12  ".toList

/-- The document `badJson5` of the test. -/
def badJson5 : List Char := "\x7b \"Test\" : 123 \"Test2\" : 236 \x7d".toList

/-- The document `badJson6` of the test. -/
def badJson6 : List Char := "\x7b \"Test\" : 123, \"Test2\" : [ 127, 27  \x7d".toList

/-- The document `badJson7` of the test. -/
def badJson7 : List Char := "\x7b \"Test\" : 123, \"Test2\" : [ 127, 27 23 ] \x7d".toList

/-- The document `badJson8` of the test. -/
def badJson8 : List Char := "\x7b \"Test\" : 123. \x7d".toList

/-- The document `badJson9` of the test. -/
def badJson9 : List Char := "\x7b \"Test\" \x7d".toList

/-- The document `badJson10` of the test. -/
def badJson10 : List Char := "\x7b \"Test\" : [ \"Test\" : 123 ] \x7d".toList

/-- The document `goodJson1` of the test. -/
def goodJson1 : List Char := "\x7b \"Test\" : [  ] \x7d".toList

/-- The document `goodJson2` of the test. -/
def goodJson2 : List Char := "\x7b  \x7d".toList

/-- The document `goodJson3` of the test. -/
def goodJson3 : List Char := "[ 123.12e-34 ]".toList

/-- The document `goodJson4` of the test. -/
def goodJson4 : List Char := "\x7b \"length\" : 0 \x7d".toList

namespace json

/-! ## Numbers -/

/-- The quotient of two naturals rounded to nearest, ties to even. -/
def divRoundEven (n d : Nat) : Nat :=
  if d < 2 * (n % d) ∨ (2 * (n % d) = d ∧ n / d % 2 = 1) then n / d + 1 else n / d

/-- The count of binary digits of a natural number. -/
def bitLen (n : Nat) : Nat := (Nat.toDigits 2 n).length

/-- The factor `2 ^ k` for a positive `k`, 1 otherwise. -/
def pow2 (k : Int) : Nat := 2 ^ k.toNat

/-- The binary64 number nearest to `m * 10 ^ e`, ties to even, with the sign
given: the conversion `strtod` makes. -/
def Double.ofDecimal (neg : Bool) (m : Nat) (e : Int) : Double :=
  let s : Nat := if neg then 2 ^ 63 else 0
  if m = 0 then ⟨s⟩
  else
    let num := m * 10 ^ e.toNat
    let den := 10 ^ (-e).toNat
    let k0 : Int := (bitLen num : Int) - (bitLen den : Int) - 52
    let k1 : Int := if num * pow2 (-k0) < 2 ^ 52 * (den * pow2 k0) then k0 - 1 else k0
    let k2 : Int := if k1 < -1074 then -1074 else k1
    let q := divRoundEven (num * pow2 (-k2)) (den * pow2 k2)
    let k3 : Int := if q = 2 ^ 53 then k2 + 1 else k2
    let q3 : Nat := if q = 2 ^ 53 then 2 ^ 52 else q
    if 2 ^ 52 ≤ q3 then
      (if 2047 ≤ k3 + 1075 then ⟨s + 2047 * 2 ^ 52⟩
       else ⟨s + (k3 + 1075).toNat * 2 ^ 52 + (q3 - 2 ^ 52)⟩)
    else ⟨s + q3⟩

/-- The value of a run of decimal digits read onto `acc`. -/
def digitsValue (acc : Nat) : List Char → Nat
  | [] => acc
  | c :: cs => digitsValue (acc * 10 + (c.toNat - 48)) cs

/-- The `double` a number lexeme stands for: sign, the digits of the integer
and fraction parts as one mantissa, and the exponent less the count of
fraction digits. -/
def numberOfLexeme (lexeme : List Char) : Double :=
  let neg := lexeme.head? = some '-'
  let body := if neg then lexeme.tail else lexeme
  let ip := body.span Char.isDigit
  let fp := (match ip.2 with
    | '.' :: r => r.span Char.isDigit
    | r => ([], r))
  let ex : Int := (match fp.2 with
    | _ :: '-' :: r => -(digitsValue 0 r : Int)
    | _ :: '+' :: r => (digitsValue 0 r : Int)
    | _ :: r => (digitsValue 0 r : Int)
    | [] => 0)
  Double.ofDecimal neg (digitsValue 0 (ip.1 ++ fp.1)) (ex - fp.1.length)

/-- The count of decimal digits of a natural number. -/
def decLen (n : Nat) : Nat := (Nat.toDigits 10 n).length

/-- Drops the zeros at the end of a run of digits. -/
def stripZeros (ds : List Char) : List Char :=
  (ds.reverse.dropWhile (fun c => c == '0')).reverse

/-- A `double` as `operator<<` writes it to a stream in its default state:
the `%g` conversion with six significant digits. -/
def putGeneral6 (d : Double) : List Char :=
  let sgn : List Char := if d.sign = 1 then ['-'] else []
  if d.isNaN then sgn ++ "nan".toList
  else if d.expo = 2047 then sgn ++ "inf".toList
  else
    let m := if d.expo = 0 then d.frac else d.frac + 2 ^ 52
    let e := if d.expo = 0 then 1 else d.expo
    if m = 0 then sgn ++ ['0']
    else
      let num := m * 2 ^ (e - 1075)
      let den := 2 ^ (1075 - e)
      let x0 : Int := (decLen num : Int) - (decLen den : Int)
      let x1 : Int := if num * 10 ^ (-x0).toNat < den * 10 ^ x0.toNat then x0 - 1 else x0
      let q := divRoundEven (num * 10 ^ (5 - x1).toNat) (den * 10 ^ (x1 - 5).toNat)
      let x : Int := if q = 10 ^ 6 then x1 + 1 else x1
      let ds := Nat.toDigits 10 (if q = 10 ^ 6 then 10 ^ 5 else q)
      if x < -4 ∨ 6 ≤ x then
        let frac := stripZeros (ds.drop 1)
        let ex := Nat.toDigits 10 x.natAbs
        sgn ++ ds.take 1 ++ (if frac = [] then [] else '.' :: frac) ++ ['e'] ++
          [if x < 0 then '-' else '+'] ++ (if ex.length < 2 then '0' :: ex else ex)
      else if x < 0 then
        sgn ++ ['0', '.'] ++ List.replicate (-x - 1).toNat '0' ++ stripZeros ds
      else
        let frac := stripZeros (ds.drop (x.toNat + 1))
        sgn ++ ds.take (x.toNat + 1) ++ (if frac = [] then [] else '.' :: frac)

/-! ## Tokens, events, errors -/

/-- Modelled from the spec: the tokens of the tokenizer; the end of the input
is the end of the token sequence. -/
inductive Token where
  | LBRACE
  | RBRACE
  | LBRACKET
  | RBRACKET
  | COLON
  | COMMA
  | STRING (s : List Char)
  | NUMBER (d : Double)
  | TRUE
  | FALSE
  | NULL
deriving DecidableEq, Repr

/-- The events of the callback interface `csvsqldb::json::Callback`, one per
method, as `JsonCallback` of the test overrides them. -/
inductive Event where
  | startObject
  | key (key : List Char)
  | endObject
  | startArray
  | endArray
  | numberValue (val : Double)
  | stringValue (val : List Char)
  | booleanValue (val : Bool)
  | nullValue
deriving DecidableEq, Repr

/-- Modelled from the spec: the kinds of a JSON error. -/
inductive ErrorKind where
  | LexError
  | UnterminatedString
  | UnexpectedToken
  | UnexpectedEof
  | DuplicateColon
  | MissingColon
  | MissingComma
  | TrailingGarbage
deriving DecidableEq, Repr

/-- Modelled from the spec: the exception `csvsqldb::JsonException`, an error
kind with the 1-based line and column it is reported at. -/
structure JsonException where
  kind : ErrorKind
  line : Nat
  column : Nat
deriving DecidableEq, Repr

/-! ## The tokenizer -/

/-- Whitespace between tokens: space, tab, carriage return, line feed. -/
def isWhitespace (c : Char) : Bool := c == ' ' || c == '\t' || c == '\r' || c == '\n'

/-- A control byte that is not whitespace. -/
def isControl (c : Char) : Bool := decide (c.toNat < 32) && !isWhitespace c

/-- Where the tokenizer stands inside a number. -/
inductive NumState where
  | minus
  | zero
  | int
  | dot
  | frac
  | e
  | esign
  | exp
deriving DecidableEq, Repr

/-- The places at which a number may end. -/
def NumState.accepting : NumState → Bool
  | .zero => true
  | .int => true
  | .frac => true
  | .exp => true
  | _ => false

/-- One more byte of a number, when the byte continues it. -/
def NumState.step (st : NumState) (c : Char) : Option NumState :=
  match st with
  | .minus => if c = '0' then some .zero else if c.isDigit then some .int else none
  | .zero => if c = '.' then some .dot else if c = 'e' ∨ c = 'E' then some .e else none
  | .int =>
    if c.isDigit then some .int else if c = '.' then some .dot
    else if c = 'e' ∨ c = 'E' then some .e else none
  | .dot => if c.isDigit then some .frac else none
  | .frac => if c.isDigit then some .frac else if c = 'e' ∨ c = 'E' then some .e else none
  | .e => if c = '+' ∨ c = '-' then some .esign else if c.isDigit then some .exp else none
  | .esign => if c.isDigit then some .exp else none
  | .exp => if c.isDigit then some .exp else none

/-- Modelled from the spec: the state of the tokenizer between two bytes. -/
inductive LexMode where
  | start
  | str (acc : List Char)
  | esc (acc : List Char)
  | uni (acc : List Char) (hex : List Char)
  | num (st : NumState) (lexeme : List Char)
  | kw (rest : List Char) (tok : Token)
deriving DecidableEq, Repr

/-- The value of a hexadecimal digit. -/
def hexDigit (c : Char) : Option Nat :=
  if c.isDigit then some (c.toNat - 48)
  else if 'a' ≤ c ∧ c ≤ 'f' then some (c.toNat - 87)
  else if 'A' ≤ c ∧ c ≤ 'F' then some (c.toNat - 55)
  else none

/-- The value of a run of hexadecimal digits read onto `acc`. -/
def hexValue (acc : Nat) : List Char → Nat
  | [] => acc
  | c :: cs => hexValue (acc * 16 + (hexDigit c).getD 0) cs

/-- The UTF-8 bytes of a code unit below `0x10000`. -/
def utf8 (n : Nat) : List Char :=
  if n < 0x80 then [Char.ofNat n]
  else if n < 0x800 then [Char.ofNat (0xC0 + n / 64), Char.ofNat (0x80 + n % 64)]
  else [Char.ofNat (0xE0 + n / 4096), Char.ofNat (0x80 + n / 64 % 64), Char.ofNat (0x80 + n % 64)]

/-- A byte met between tokens: whitespace is skipped, a structural byte is a
token, a quote, a minus sign, a digit or one of `t`, `f`, `n` opens a longer
token, and any other byte is a lex error. -/
def startStep (c : Char) : Except ErrorKind (LexMode × List Token) :=
  if isWhitespace c then .ok (.start, [])
  else if c = '\x7b' then .ok (.start, [.LBRACE])
  else if c = '\x7d' then .ok (.start, [.RBRACE])
  else if c = '[' then .ok (.start, [.LBRACKET])
  else if c = ']' then .ok (.start, [.RBRACKET])
  else if c = ':' then .ok (.start, [.COLON])
  else if c = ',' then .ok (.start, [.COMMA])
  else if c = '"' then .ok (.str [], [])
  else if c = '-' then .ok (.num .minus [c], [])
  else if c = '0' then .ok (.num .zero [c], [])
  else if c.isDigit then .ok (.num .int [c], [])
  else if c = 't' then .ok (.kw "rue".toList .TRUE, [])
  else if c = 'f' then .ok (.kw "alse".toList .FALSE, [])
  else if c = 'n' then .ok (.kw "ull".toList .NULL, [])
  else .error .LexError

/-- The byte an escape letter stands for. -/
def escapeByte (c : Char) : Option Char :=
  if c = '"' ∨ c = '\\' ∨ c = '/' then some c
  else if c = 'b' then some '\x08'
  else if c = 'f' then some '\x0c'
  else if c = 'n' then some '\n'
  else if c = 'r' then some '\r'
  else if c = 't' then some '\t'
  else none

/-- Modelled from the spec: the tokenizer takes one byte. It returns the new
state and the tokens that byte completes: none, one, or two when the byte
both ends a number and is a token itself. -/
def LexMode.step (m : LexMode) (c : Char) : Except ErrorKind (LexMode × List Token) :=
  match m with
  | .start => startStep c
  | .str acc =>
    if c = '"' then .ok (.start, [.STRING acc])
    else if c = '\\' then .ok (.esc acc, [])
    else if isControl c then .error .LexError
    else .ok (.str (acc ++ [c]), [])
  | .esc acc =>
    if c = 'u' then .ok (.uni acc [], [])
    else match escapeByte c with
      | some b => .ok (.str (acc ++ [b]), [])
      | none => .error .LexError
  | .uni acc hex =>
    if (hexDigit c).isSome then
      (if hex.length = 3 then .ok (.str (acc ++ utf8 (hexValue 0 (hex ++ [c]))), [])
       else .ok (.uni acc (hex ++ [c]), []))
    else .error .LexError
  | .num st lexeme =>
    match st.step c with
    | some st' => .ok (.num st' (lexeme ++ [c]), [])
    | none =>
      if st.accepting && !c.isDigit then
        match startStep c with
        | .ok (m', ts) => .ok (m', .NUMBER (numberOfLexeme lexeme) :: ts)
        | .error k => .error k
      else .error .LexError
  | .kw rest tok =>
    match rest with
    | [] => .error .LexError
    | r :: rs =>
      if c = r then (if rs = [] then .ok (.start, [tok]) else .ok (.kw rs tok, []))
      else .error .LexError

/-- Modelled from the spec: the tokenizer at the end of the input. -/
def LexMode.finish (m : LexMode) : Except ErrorKind (List Token) :=
  match m with
  | .start => .ok []
  | .str _ => .error .UnterminatedString
  | .esc _ => .error .UnterminatedString
  | .uni _ _ => .error .UnterminatedString
  | .num st lexeme =>
    if st.accepting then .ok [.NUMBER (numberOfLexeme lexeme)] else .error .LexError
  | .kw _ _ => .error .LexError

/-- The tokens read up to the first lex error, and that error. -/
structure LexResult where
  tokens : List Token
  error : Option ErrorKind
deriving DecidableEq, Repr

/-- The tokenizer run from a state over the rest of the input. -/
def lexFrom (m : LexMode) : List Char → LexResult
  | [] =>
    match m.finish with
    | .ok ts => ⟨ts, none⟩
    | .error k => ⟨[], some k⟩
  | c :: cs =>
    match m.step c with
    | .error k => ⟨[], some k⟩
    | .ok (m', ts) => ⟨ts ++ (lexFrom m' cs).tokens, (lexFrom m' cs).error⟩

/-- The tokens of a text. -/
def tokenize (text : List Char) : LexResult := lexFrom .start text

/-! ## The grammar driver -/

/-- An open container on the stack of the driver. -/
inductive Frame where
  | obj
  | arr
deriving DecidableEq, Repr

/-- What the driver expects next. -/
inductive Expect where
  | value
  | firstMember
  | key
  | colon
  | firstElement
  | after
deriving DecidableEq, Repr

/-- Modelled from the spec: the state of the grammar driver between two
tokens: the open containers, innermost first, and what is expected next. -/
structure Driver where
  stack : List Frame
  expect : Expect
deriving DecidableEq, Repr

/-- The driver before the first token. -/
def Driver.init : Driver := ⟨[], .value⟩

/-- The driver has read one complete value and nothing is open. -/
def Driver.accepting (d : Driver) : Bool := d.stack.isEmpty && d.expect == .after

/-- A token where a value is expected. -/
def Driver.startValue (stack : List Frame) (t : Token) :
    Except ErrorKind (Driver × List Event) :=
  match t with
  | .STRING s => .ok (⟨stack, .after⟩, [.stringValue s])
  | .NUMBER d => .ok (⟨stack, .after⟩, [.numberValue d])
  | .TRUE => .ok (⟨stack, .after⟩, [.booleanValue true])
  | .FALSE => .ok (⟨stack, .after⟩, [.booleanValue false])
  | .NULL => .ok (⟨stack, .after⟩, [.nullValue])
  | .LBRACE => .ok (⟨.obj :: stack, .firstMember⟩, [.startObject])
  | .LBRACKET => .ok (⟨.arr :: stack, .firstElement⟩, [.startArray])
  | .COLON => .error .DuplicateColon
  | _ => .error .UnexpectedToken

/-- Modelled from the spec: the driver takes one token and returns its new
state and the events the token gives rise to. -/
def Driver.step (d : Driver) (t : Token) : Except ErrorKind (Driver × List Event) :=
  match d.expect with
  | .value => Driver.startValue d.stack t
  | .firstElement =>
    if t = .RBRACKET then .ok (⟨d.stack.tail, .after⟩, [.endArray])
    else Driver.startValue d.stack t
  | .firstMember =>
    match t with
    | .RBRACE => .ok (⟨d.stack.tail, .after⟩, [.endObject])
    | .STRING k => .ok (⟨d.stack, .colon⟩, [.key k])
    | _ => .error .UnexpectedToken
  | .key =>
    match t with
    | .STRING k => .ok (⟨d.stack, .colon⟩, [.key k])
    | _ => .error .UnexpectedToken
  | .colon =>
    if t = .COLON then .ok (⟨d.stack, .value⟩, []) else .error .MissingColon
  | .after =>
    match d.stack with
    | [] => .error .TrailingGarbage
    | .obj :: rest =>
      match t with
      | .COMMA => .ok (⟨.obj :: rest, .key⟩, [])
      | .RBRACE => .ok (⟨rest, .after⟩, [.endObject])
      | .STRING _ => .error .MissingComma
      | _ => .error .UnexpectedToken
    | .arr :: rest =>
      match t with
      | .COMMA => .ok (⟨.arr :: rest, .value⟩, [])
      | .RBRACKET => .ok (⟨rest, .after⟩, [.endArray])
      | .COLON => .error .UnexpectedToken
      | .RBRACE => .error .UnexpectedToken
      | _ => .error .MissingComma

/-- The driver after a run of tokens: its state, the events emitted up to the
first grammar error, and that error. -/
structure DriveResult where
  driver : Driver
  events : List Event
  error : Option ErrorKind
deriving DecidableEq, Repr

/-- The driver run from a state over a run of tokens. -/
def drive (d : Driver) : List Token → DriveResult
  | [] => ⟨d, [], none⟩
  | t :: ts =>
    match d.step t with
    | .error k => ⟨d, [], some k⟩
    | .ok (d', evs) => ⟨(drive d' ts).driver, evs ++ (drive d' ts).events, (drive d' ts).error⟩

/-! ## The reader: tokenizer and driver, byte by byte -/

/-- Modelled from the spec: the state of a reader between two bytes: the
tokenizer, the driver, the events emitted so far, the error that stopped it,
the position of the next byte and the position at which the token being read
began (1-based line and column). -/
structure Reader where
  mode : LexMode
  driver : Driver
  events : List Event
  error : Option JsonException
  line : Nat
  column : Nat
  startLine : Nat
  startColumn : Nat
deriving DecidableEq, Repr

/-- A reader before the first byte. -/
def Reader.init : Reader := ⟨.start, Driver.init, [], none, 1, 1, 1, 1⟩

/-- The reader takes one byte. A reader that has failed stays as it is. An
error is reported at the start of the token it belongs to. -/
def Reader.feed (r : Reader) (c : Char) : Reader :=
  if r.error.isSome then r
  else
    let nextLine := if c = '\n' then r.line + 1 else r.line
    let nextColumn := if c = '\n' then 1 else r.column + 1
    match r.mode.step c with
    | .error k =>
      { r with error := some (if r.mode = .start then ⟨k, r.line, r.column⟩
                              else ⟨k, r.startLine, r.startColumn⟩) }
    | .ok (m, toks) =>
      let res := drive r.driver toks
      let old := r.mode ≠ .start ∧ (drive r.driver (toks.take 1)).error.isSome
      { mode := m
        driver := res.driver
        events := r.events ++ res.events
        error := res.error.map (fun k =>
          if old then ⟨k, r.startLine, r.startColumn⟩ else ⟨k, r.line, r.column⟩)
        line := nextLine
        column := nextColumn
        startLine := if m ≠ .start ∧ (r.mode = .start ∨ toks ≠ []) then r.line else r.startLine
        startColumn :=
          if m ≠ .start ∧ (r.mode = .start ∨ toks ≠ []) then r.column else r.startColumn }

/-- The reader at the end of the input: the tokenizer is closed, its last
token driven, and the driver must have read one complete value. -/
def Reader.finish (r : Reader) : Reader :=
  if r.error.isSome then r
  else
    match r.mode.finish with
    | .error k => { r with error := some ⟨k, r.startLine, r.startColumn⟩ }
    | .ok toks =>
      let res := drive r.driver toks
      { r with
        driver := res.driver
        events := r.events ++ res.events
        error :=
          match res.error with
          | some k => some ⟨k, r.startLine, r.startColumn⟩
          | none =>
            if res.driver.accepting then none else some ⟨.UnexpectedEof, r.line, r.column⟩ }

/-- The reader fed a run of bytes. -/
def Reader.feedAll (r : Reader) (bytes : List Char) : Reader := bytes.foldl Reader.feed r

/-- The reader run over a whole text. -/
def Reader.run (text : List Char) : Reader := (Reader.init.feedAll text).finish

/-! ## `Parser` -/

/-- A callback object: what it does with an event, and its state. -/
structure Callback (σ : Type) where
  handle : Event → σ → σ
  state : σ

/-- The callback after a run of events, each delivered in turn. -/
def Callback.deliver {σ : Type} (cb : Callback σ) (evs : List Event) : Callback σ :=
  { cb with state := evs.foldl (fun s e => cb.handle e s) cb.state }

/-- How a call of `Parser::parse` ends, and the callback it leaves behind. -/
structure ParseResult (σ : Type) where
  returned : Except JsonException Bool
  callback : Option (Callback σ)

/-- What `parse` returns for a reader that has reached the end of the input:
with a callback an error is raised, without one it is the result false. -/
def Parser.conclude {σ : Type} (r : Reader) (callback : Option (Callback σ)) : ParseResult σ :=
  match callback with
  | none => ⟨.ok r.error.isNone, none⟩
  | some cb =>
    ⟨(match r.error with
      | none => .ok true
      | some e => .error e), some (cb.deliver r.events)⟩

/-- Modelled from the spec: `Parser(json, callback).parse()` over a text in
memory. -/
def Parser.parse {σ : Type} (json : List Char) (callback : Option (Callback σ)) :
    ParseResult σ :=
  Parser.conclude (Reader.run json) callback

/-- The class `JsonCallback` of the test: every event is written to a string
stream, a line each, a key without a line end. -/
def JsonCallback.handle (e : Event) (ss : ostream) : ostream :=
  match e with
  | .startObject => ss ++ "\x7b\n".toList
  | .key key => ss ++ ['"'] ++ key ++ "\" : ".toList
  | .endObject => ss ++ "\x7d\n".toList
  | .startArray => ss ++ "[\n".toList
  | .endArray => ss ++ "]\n".toList
  | .numberValue val => ss ++ putGeneral6 val ++ ['\n']
  | .stringValue val => ss ++ ['"'] ++ val ++ "\"\n".toList
  | .booleanValue val => ss ++ (if val then "true".toList else "false".toList) ++ ['\n']
  | .nullValue => ss ++ "null\n".toList

/-- A `JsonCallback` over a string stream. -/
def JsonCallback.new (ss : ostream) : Callback ostream := ⟨JsonCallback.handle, ss⟩

/-! ## The object builder -/

/-- Modelled from the spec: a node of the DOM, class `JsonObject`: null, a
boolean, a number, a string, an array, or an object, whose members are kept in
insertion order under keys that are unique. -/
inductive JsonObject where
  | null
  | bool (b : Bool)
  | number (d : Double)
  | string (s : List Char)
  | array (elems : List JsonObject)
  | object (members : List (List Char × JsonObject))

/-- A member written under a key: under a key that is there the value is
replaced in place, a new key goes to the end. -/
def insertMember (k : List Char) (v : JsonObject) :
    List (List Char × JsonObject) → List (List Char × JsonObject)
  | [] => [(k, v)]
  | (k', v') :: rest =>
    if k' = k then (k, v) :: rest else (k', v') :: insertMember k v rest

/-- The members an object holds after the pairs are written in order. -/
def fromPairs (ps : List (List Char × JsonObject)) : List (List Char × JsonObject) :=
  ps.foldl (fun ms p => insertMember p.1 p.2 ms) []

/-- A typed access that fails. -/
inductive AccessError where
  | wrongVariant
  | noSuchKey
  | outOfRange
deriving DecidableEq, Repr

/-- The member of an object under a key, `operator[]`. -/
def JsonObject.get (o : JsonObject) (k : List Char) : Except AccessError JsonObject :=
  match o with
  | .object ms =>
    match ms.find? (fun p => p.1 = k) with
    | some p => .ok p.2
    | none => .error .noSuchKey
  | _ => .error .wrongVariant

/-- The elements of an array, `getArray`. -/
def JsonObject.getArray (o : JsonObject) : Except AccessError (List JsonObject) :=
  match o with
  | .array es => .ok es
  | _ => .error .wrongVariant

/-- The element of an array at an index, `getArray()[i]`. -/
def JsonObject.at (o : JsonObject) (i : Nat) : Except AccessError JsonObject :=
  match o with
  | .array es =>
    match es.get? i with
    | some v => .ok v
    | none => .error .outOfRange
  | _ => .error .wrongVariant

/-- The `double` of a number node, `getAsDouble`. -/
def JsonObject.getAsDouble (o : JsonObject) : Except AccessError Double :=
  match o with
  | .number d => .ok d
  | _ => .error .wrongVariant

/-- A finite `double` cut to an integer, toward zero; an infinity or a NaN,
for which the conversion is not defined, is given 0. -/
def Double.truncate (d : Double) : Int :=
  if d.expo = 2047 then 0
  else
    let m := if d.expo = 0 then d.frac else d.frac + 2 ^ 52
    let e := if d.expo = 0 then 1 else d.expo
    let n : Nat := m * 2 ^ (e - 1075) / 2 ^ (1075 - e)
    if d.sign = 1 then -(n : Int) else (n : Int)

/-- The integer of a number node, `getAsLong`. -/
def JsonObject.getAsLong (o : JsonObject) : Except AccessError Int :=
  match o with
  | .number d => .ok (Double.truncate d)
  | _ => .error .wrongVariant

/-- The text of a string node, `getAsString`. -/
def JsonObject.getAsString (o : JsonObject) : Except AccessError (List Char) :=
  match o with
  | .string s => .ok s
  | _ => .error .wrongVariant

/-- The truth value of a boolean node, `getAsBool`. -/
def JsonObject.getAsBool (o : JsonObject) : Except AccessError Bool :=
  match o with
  | .bool b => .ok b
  | _ => .error .wrongVariant

/-- A container the builder has open: an object with the members so far and
the key whose value is awaited, or an array with the elements so far. -/
inductive Container where
  | object (members : List (List Char × JsonObject)) (pending : Option (List Char))
  | array (elems : List JsonObject)

/-- Modelled from the spec: the state of the object builder, class
`JsonObjectCallback`: the open containers, innermost first, and the root once
it is complete. -/
structure JsonObjectCallback where
  stack : List Container
  root : Option JsonObject

/-- A builder before the first event. -/
def JsonObjectCallback.init : JsonObjectCallback := ⟨[], none⟩

/-- A complete value is attached to the innermost open container: under the
pending key of an object, at the end of an array, and as the root when nothing
is open. -/
def JsonObjectCallback.attach (b : JsonObjectCallback) (v : JsonObject) : JsonObjectCallback :=
  match b.stack with
  | [] => { b with root := some v }
  | .object ms (some k) :: rest => { b with stack := .object (insertMember k v ms) none :: rest }
  | .object ms none :: rest => { b with stack := .object ms none :: rest }
  | .array es :: rest => { b with stack := .array (es ++ [v]) :: rest }

/-- The builder takes one event. -/
def JsonObjectCallback.handle (e : Event) (b : JsonObjectCallback) : JsonObjectCallback :=
  match e with
  | .startObject => { b with stack := .object [] none :: b.stack }
  | .startArray => { b with stack := .array [] :: b.stack }
  | .key k =>
    match b.stack with
    | .object ms _ :: rest => { b with stack := .object ms (some k) :: rest }
    | _ => b
  | .endObject =>
    match b.stack with
    | .object ms _ :: rest => JsonObjectCallback.attach { b with stack := rest } (.object ms)
    | _ => b
  | .endArray =>
    match b.stack with
    | .array es :: rest => JsonObjectCallback.attach { b with stack := rest } (.array es)
    | _ => b
  | .numberValue d => b.attach (.number d)
  | .stringValue s => b.attach (.string s)
  | .booleanValue v => b.attach (.bool v)
  | .nullValue => b.attach .null

/-- A fresh `JsonObjectCallback` as a callback object. -/
def JsonObjectCallback.new : Callback JsonObjectCallback :=
  ⟨JsonObjectCallback.handle, JsonObjectCallback.init⟩

/-- The root the builder holds, `getObject`. -/
def JsonObjectCallback.getObject (b : JsonObjectCallback) : Option JsonObject := b.root

/-! ## The grammar -/

/-- What a stretch of a document stands for: a value, the members between the
braces of an object, or the elements between the brackets of an array. -/
inductive Part where
  | value (v : JsonObject)
  | members (ps : List (List Char × JsonObject))
  | elems (es : List JsonObject)

/-- Modelled from the spec: the grammar
`value := object | array | STRING | NUMBER | TRUE | FALSE | NULL`,
`object := LBRACE (pair (COMMA pair)*)? RBRACE`, `pair := STRING COLON value`,
`array := LBRACKET (value (COMMA value)*)? RBRACKET`,
each rule with the events it stands for, in order, and the node, pairs or
elements it denotes. -/
inductive Derives : Part → List Token → List Event → Prop where
  | string (s : List Char) : Derives (.value (.string s)) [.STRING s] [.stringValue s]
  | number (d : Double) : Derives (.value (.number d)) [.NUMBER d] [.numberValue d]
  | true_ : Derives (.value (.bool true)) [.TRUE] [.booleanValue true]
  | false_ : Derives (.value (.bool false)) [.FALSE] [.booleanValue false]
  | null : Derives (.value .null) [.NULL] [.nullValue]
  | object {ps ts evs} : Derives (.members ps) ts evs →
      Derives (.value (.object (fromPairs ps))) (.LBRACE :: ts ++ [.RBRACE])
        (.startObject :: evs ++ [.endObject])
  | array {es ts evs} : Derives (.elems es) ts evs →
      Derives (.value (.array es)) (.LBRACKET :: ts ++ [.RBRACKET])
        (.startArray :: evs ++ [.endArray])
  | noMembers : Derives (.members []) [] []
  | firstMember {v vt ve} (k : List Char) : Derives (.value v) vt ve →
      Derives (.members [(k, v)]) (.STRING k :: .COLON :: vt) (.key k :: ve)
  | nextMember {ps ts evs v vt ve} (k : List Char) : Derives (.members ps) ts evs → ps ≠ [] →
      Derives (.value v) vt ve →
      Derives (.members (ps ++ [(k, v)])) (ts ++ .COMMA :: .STRING k :: .COLON :: vt)
        (evs ++ .key k :: ve)
  | noElems : Derives (.elems []) [] []
  | firstElem {v vt ve} : Derives (.value v) vt ve → Derives (.elems [v]) vt ve
  | nextElem {es ts evs v vt ve} : Derives (.elems es) ts evs → es ≠ [] →
      Derives (.value v) vt ve →
      Derives (.elems (es ++ [v])) (ts ++ .COMMA :: vt) (evs ++ ve)

/-! ## Balance of an event stream -/

/-- A container an event stream has open: an object, with whether a key
awaits its value, or an array. -/
inductive Open where
  | obj (pending : Bool)
  | arr
deriving DecidableEq, Repr

/-- The state of the balance check: the open containers, innermost first, and
whether the one value of the document is complete. -/
structure Nesting where
  stack : List Open
  done : Bool
deriving DecidableEq, Repr

/-- A value may begin here: at the top before the one value, in an object
behind a key, in an array anywhere. -/
def Nesting.takesValue (n : Nesting) : Bool :=
  match n.stack with
  | [] => !n.done
  | .obj pending :: _ => pending
  | .arr :: _ => true

/-- The state behind a complete value. -/
def Nesting.afterValue (n : Nesting) : Nesting :=
  match n.stack with
  | [] => { n with done := true }
  | .obj _ :: rest => { n with stack := .obj false :: rest }
  | .arr :: _ => n

/-- The balance check takes one event, or fails. -/
def Nesting.step (n : Nesting) (e : Event) : Option Nesting :=
  match e with
  | .startObject => if n.takesValue then some { n with stack := .obj false :: n.stack } else none
  | .startArray => if n.takesValue then some { n with stack := .arr :: n.stack } else none
  | .key _ =>
    match n.stack with
    | .obj false :: rest => some { n with stack := .obj true :: rest }
    | _ => none
  | .endObject =>
    match n.stack with
    | .obj false :: rest => some (Nesting.afterValue { n with stack := rest })
    | _ => none
  | .endArray =>
    match n.stack with
    | .arr :: rest => some (Nesting.afterValue { n with stack := rest })
    | _ => none
  | _ => if n.takesValue then some n.afterValue else none

/-- The balance check run over a stream of events. -/
def Nesting.run (n : Nesting) : List Event → Option Nesting
  | [] => some n
  | e :: es =>
    match n.step e with
    | some n' => Nesting.run n' es
    | none => none

/-- An event stream is well balanced: every start has its end, properly
nested, every key is followed by exactly one value, a value inside an object
follows a key, and the stream is one value. -/
def wellBalanced (evs : List Event) : Bool :=
  match Nesting.run ⟨[], false⟩ evs with
  | some n => n.stack.isEmpty && n.done
  | none => false

/-- The token an event comes from. -/
def Event.token : Event → Token
  | .startObject => .LBRACE
  | .key k => .STRING k
  | .endObject => .RBRACE
  | .startArray => .LBRACKET
  | .endArray => .RBRACKET
  | .numberValue d => .NUMBER d
  | .stringValue s => .STRING s
  | .booleanValue b => if b then .TRUE else .FALSE
  | .nullValue => .NULL

/-- A token that separates and stands for no event. -/
def Token.isSeparator (t : Token) : Bool := t == .COLON || t == .COMMA

/-! ## Definitions the statements about the parser use -/

/-- A state in which the driver takes the first token of a value. -/
def Expect.startsValue (e : Expect) : Prop := e = .value ∨ e = .firstElement

/-- The comma before a pair or an element that is not the first. -/
def sep {α : Type} (xs : List α) : List Token := if xs.isEmpty then [] else [.COMMA]

/-- What the driver has read when it is in a given state: the invariant of
`Driver.step`. -/
inductive Inv : Driver → List Token → List Event → Prop where
  | top : Inv ⟨[], .value⟩ [] []
  | finished {v ts evs} : Derives (.value v) ts evs → Inv ⟨[], .after⟩ ts evs
  | firstMember {σ e p pe} : Inv ⟨σ, e⟩ p pe → e.startsValue →
      Inv ⟨.obj :: σ, .firstMember⟩ (p ++ [.LBRACE]) (pe ++ [.startObject])
  | key {σ e p pe ps ts evs} : Inv ⟨σ, e⟩ p pe → e.startsValue →
      Derives (.members ps) ts evs → ps ≠ [] →
      Inv ⟨.obj :: σ, .key⟩ (p ++ .LBRACE :: ts ++ [.COMMA]) (pe ++ .startObject :: evs)
  | colon {σ e p pe ps ts evs} (k : List Char) : Inv ⟨σ, e⟩ p pe → e.startsValue →
      Derives (.members ps) ts evs →
      Inv ⟨.obj :: σ, .colon⟩ (p ++ .LBRACE :: ts ++ sep ps ++ [.STRING k])
        (pe ++ .startObject :: evs ++ [.key k])
  | memberValue {σ e p pe ps ts evs} (k : List Char) : Inv ⟨σ, e⟩ p pe → e.startsValue →
      Derives (.members ps) ts evs →
      Inv ⟨.obj :: σ, .value⟩ (p ++ .LBRACE :: ts ++ sep ps ++ [.STRING k, .COLON])
        (pe ++ .startObject :: evs ++ [.key k])
  | afterMember {σ e p pe ps ts evs} : Inv ⟨σ, e⟩ p pe → e.startsValue →
      Derives (.members ps) ts evs → ps ≠ [] →
      Inv ⟨.obj :: σ, .after⟩ (p ++ .LBRACE :: ts) (pe ++ .startObject :: evs)
  | firstElement {σ e p pe} : Inv ⟨σ, e⟩ p pe → e.startsValue →
      Inv ⟨.arr :: σ, .firstElement⟩ (p ++ [.LBRACKET]) (pe ++ [.startArray])
  | elementValue {σ e p pe es ts evs} : Inv ⟨σ, e⟩ p pe → e.startsValue →
      Derives (.elems es) ts evs → es ≠ [] →
      Inv ⟨.arr :: σ, .value⟩ (p ++ .LBRACKET :: ts ++ [.COMMA]) (pe ++ .startArray :: evs)
  | afterElement {σ e p pe es ts evs} : Inv ⟨σ, e⟩ p pe → e.startsValue →
      Derives (.elems es) ts evs → es ≠ [] →
      Inv ⟨.arr :: σ, .after⟩ (p ++ .LBRACKET :: ts) (pe ++ .startArray :: evs)

/-- The error a reading ends with: a grammar error in the tokens read before
any lex error comes first, then the lex error, then the end of the input
where the document is not complete. -/
def firstError (dr : DriveResult) (lexError : Option ErrorKind) : Option ErrorKind :=
  match dr.error with
  | some k => some k
  | none =>
    match lexError with
    | some k => some k
    | none => if dr.driver.accepting then none else some .UnexpectedEof

/-- The tokenizer run from a state over a run of bytes that is not the end of
the input: the state it reaches and the tokens completed on the way. -/
def LexMode.run (m : LexMode) : List Char → Except ErrorKind (LexMode × List Token)
  | [] => .ok (m, [])
  | c :: cs =>
    match m.step c with
    | .error k => .error k
    | .ok (m', ts) =>
      match LexMode.run m' cs with
      | .error k => .error k
      | .ok (m'', ts') => .ok (m'', ts ++ ts')

/-- One decimal digit or more. -/
def IsDigits (ds : List Char) : Prop := ds ≠ [] ∧ ∀ c ∈ ds, c.isDigit = true

/-- An integer part: the single digit 0, or a digit from 1 to 9 followed by
digits. -/
def IsIntPart (ip : List Char) : Prop :=
  ip = ['0'] ∨ ∃ d ds, ip = d :: ds ∧ d.isDigit = true ∧ d ≠ '0' ∧ ∀ c ∈ ds, c.isDigit = true

/-- A fraction part: a dot followed by one digit or more. -/
def IsFraction (fp : List Char) : Prop := ∃ ds, fp = '.' :: ds ∧ IsDigits ds

/-- An exponent part: `e` or `E`, an optional sign, one digit or more. -/
def IsExponent (ep : List Char) : Prop :=
  ∃ e sign ds, ep = e :: sign ++ ds ∧ (e = 'e' ∨ e = 'E') ∧
    (sign = [] ∨ sign = ['+'] ∨ sign = ['-']) ∧ IsDigits ds

/-- The shape of a number in the words of the specification: an optional
minus sign, an integer part, an optional fraction part, an optional exponent
part. -/
def IsNumber (w : List Char) : Prop :=
  ∃ sign ip fp ep, w = sign ++ ip ++ fp ++ ep ∧ (sign = [] ∨ sign = ['-']) ∧ IsIntPart ip ∧
    (fp = [] ∨ IsFraction fp) ∧ (ep = [] ∨ IsExponent ep)

/-- What may follow inside a number once the tokenizer is at a given place in it. -/
def NumState.rest (st : NumState) (cs : List Char) : Prop :=
  match st with
  | .minus => ∃ ip fp ep, cs = ip ++ fp ++ ep ∧ IsIntPart ip ∧ (fp = [] ∨ IsFraction fp) ∧
      (ep = [] ∨ IsExponent ep)
  | .zero => ∃ fp ep, cs = fp ++ ep ∧ (fp = [] ∨ IsFraction fp) ∧ (ep = [] ∨ IsExponent ep)
  | .int => ∃ ds fp ep, cs = ds ++ fp ++ ep ∧ (∀ c ∈ ds, c.isDigit = true) ∧
      (fp = [] ∨ IsFraction fp) ∧ (ep = [] ∨ IsExponent ep)
  | .dot => ∃ ds ep, cs = ds ++ ep ∧ IsDigits ds ∧ (ep = [] ∨ IsExponent ep)
  | .frac => ∃ ds ep, cs = ds ++ ep ∧ (∀ c ∈ ds, c.isDigit = true) ∧ (ep = [] ∨ IsExponent ep)
  | .e => ∃ sign ds, cs = sign ++ ds ∧ (sign = [] ∨ sign = ['+'] ∨ sign = ['-']) ∧ IsDigits ds
  | .esign => IsDigits cs
  | .exp => ∀ c ∈ cs, c.isDigit = true

/-- The number automaton run over a run of bytes. -/
def NumState.run (st : NumState) : List Char → Option NumState
  | [] => some st
  | c :: cs =>
    match st.step c with
    | some st' => NumState.run st' cs
    | none => none

/-- The number of bytes of the number the tokenizer is inside. -/
def LexMode.lexemeLength : LexMode → Nat
  | .num _ lexeme => lexeme.length
  | _ => 0

/-- The keys in the order of their first writing. -/
def firstOccurrences : List (List Char) → List (List Char) → List (List Char)
  | seen, [] => seen
  | seen, k :: ks => firstOccurrences (if k ∈ seen then seen else seen ++ [k]) ks

/-- A text is a document of the grammar: its bytes are tokens, read without a
lex error, and the tokens are one value. -/
def IsDocument (text : List Char) : Prop :=
  (tokenize text).error = none ∧ ∃ v evs, Derives (.value v) (tokenize text).tokens evs

/-- The text a `JsonCallback` over an empty string stream holds after
`parse()`, the `ss.str()` of the test. -/
def transcript (text : List Char) : Option (List Char) :=
  (Parser.parse text (some (JsonCallback.new []))).callback.map (fun cb => cb.state)

/-- The root a `JsonObjectCallback` holds after `parse()`, the `getObject()`
of the test. -/
def parseObject (text : List Char) : Option JsonObject :=
  (Parser.parse text (some JsonObjectCallback.new)).callback.bind
    (fun cb => cb.state.getObject)

end json

/-! ## Lemmas -/

theorem null_of_kind_isNull (E : Env) (K : eType) : (null_of_kind E K).isNull = true := by
  cases K <;> rfl

theorem null_of_kind_getType (E : Env) (K : eType) : (null_of_kind E K).getType = K := by
  cases K <;> rfl

/-- With a null on either side, every class's `operator==` leaves through the guard. -/
theorem operator_eq_of_null (E : Env) (a b : Value)
    (h : a.isNull = true ∨ b.isNull = true) : Value.operator_eq E a b = .ok false := by
  have hg : (a.isNull || b.isNull) = true := by
    rcases h with h | h <;> simp [h]
  cases a <;>
    simp only [Value.operator_eq, ValInt.operator_eq, ValDouble.operator_eq,
      ValBool.operator_eq, ValDate.operator_eq, ValTime.operator_eq,
      ValTimestamp.operator_eq, ValString.operator_eq] <;>
    exact if_pos hg

/-- With a null on either side, every class's `operator<` leaves through the guard. -/
theorem operator_lt_of_null (E : Env) (a b : Value)
    (h : a.isNull = true ∨ b.isNull = true) : Value.operator_lt E a b = .ok false := by
  have hg : (a.isNull || b.isNull) = true := by
    rcases h with h | h <;> simp [h]
  cases a <;>
    simp only [Value.operator_lt, ValInt.operator_lt, ValDouble.operator_lt,
      ValBool.operator_lt, ValDate.operator_lt, ValTime.operator_lt,
      ValTimestamp.operator_lt, ValString.operator_lt] <;>
    exact if_pos hg

/-! ### The "C" locale is a collation -/

theorem strcmp_neg_iff (a b : List Char) : strcmp a b < 0 ↔ 0 < strcmp b a := by
  induction a generalizing b with
  | nil => cases b <;> simp [strcmp]
  | cons x xs ih =>
    cases b with
    | nil => simp [strcmp]
    | cons y ys =>
      simp only [strcmp]
      rcases lt_trichotomy x y with h | h | h
      · have h2 : ¬ y < x := lt_asymm h
        simp [h, h2]
      · subst h
        simp [ih]
      · have h2 : ¬ x < y := lt_asymm h
        simp [h, h2]

theorem strcmp_le_trans (a b c : List Char) :
    strcmp a b ≤ 0 → strcmp b c ≤ 0 → strcmp a c ≤ 0 := by
  induction a generalizing b c with
  | nil => cases c <;> simp [strcmp]
  | cons x xs ih =>
    cases b with
    | nil => simp [strcmp]
    | cons y ys =>
      cases c with
      | nil => simp [strcmp]
      | cons z zs =>
        simp only [strcmp]
        rcases lt_trichotomy x y with h | h | h
        · rcases lt_trichotomy y z with k | k | k
          · have hxz : x < z := lt_trans h k
            simp [h, k, hxz]
          · subst k
            simp [h]
          · have k2 : ¬ y < z := lt_asymm k
            simp [h, k, k2]
        · subst h
          rcases lt_trichotomy x z with k | k | k
          · simp [k]
          · subst k
            simpa using ih ys zs
          · have k2 : ¬ x < z := lt_asymm k
            simp [k, k2]
        · have h2 : ¬ x < y := lt_asymm h
          simp [h, h2]

theorem strcmp_isCollation : IsCollation strcmp :=
  ⟨strcmp_neg_iff, strcmp_le_trans⟩

/-! ### Consequences of the collation contract -/

theorem coll_self {coll : List Char → List Char → Int} (h : IsCollation coll) (a : List Char) :
    coll a a = 0 := by
  have := h.1 a a
  omega

theorem coll_zero_symm {coll : List Char → List Char → Int} (h : IsCollation coll)
    (a b : List Char) : coll a b = 0 ↔ coll b a = 0 := by
  have h1 := h.1 a b
  have h2 := h.1 b a
  omega

theorem coll_lt_trans {coll : List Char → List Char → Int} (h : IsCollation coll)
    (a b c : List Char) (hab : coll a b < 0) (hbc : coll b c < 0) : coll a c < 0 := by
  have hac : coll a c ≤ 0 := h.2 a b c (le_of_lt hab) (le_of_lt hbc)
  rcases lt_or_eq_of_le hac with h0 | h0
  · exact h0
  · exfalso
    have hca : coll c a = 0 := (coll_zero_symm h a c).1 h0
    have hcb : coll c b ≤ 0 := h.2 c a b (le_of_eq hca) (le_of_lt hab)
    have := (h.1 b c).1 hbc
    omega

theorem coll_incomparable_trans {coll : List Char → List Char → Int} (h : IsCollation coll)
    (a b c : List Char) (hab : ¬ coll a b < 0) (hba : ¬ coll b a < 0)
    (hbc : ¬ coll b c < 0) (hcb : ¬ coll c b < 0) : ¬ coll a c < 0 ∧ ¬ coll c a < 0 := by
  have e1 := h.1 a b
  have e2 := h.1 b a
  have e3 := h.1 b c
  have e4 := h.1 c b
  have hac : coll a c ≤ 0 := h.2 a b c (by omega) (by omega)
  have hca : coll c a ≤ 0 := h.2 c b a (by omega) (by omega)
  have e5 := h.1 a c
  have e6 := h.1 c a
  omega

/-! ### The operators in closed form -/

theorem Date_eq_iff (a b : Date) : a = b ↔ a.asJulianDay = b.asJulianDay := by
  cases a; cases b; simp

theorem Time_eq_iff (a b : Time) : a = b ↔ a.asInteger = b.asInteger := by
  cases a; cases b; simp

theorem Timestamp_eq_iff (a b : Timestamp) : a = b ↔ a.asInteger = b.asInteger := by
  cases a; cases b; simp

/-- What `operator==` does on every pair: false through the guard, the payload
comparison within one class, and the failed cast across two classes. -/
theorem operator_eq_closed_form (E : Env) (a b : Value) :
    Value.operator_eq E a b =
      if a.isNull || b.isNull then .ok false
      else if a.getType = b.getType then .ok (payload_equal E a b)
      else .error .bad_cast := by
  by_cases hg : (a.isNull || b.isNull) = true
  · rw [if_pos hg]
    exact operator_eq_of_null E a b (by simpa using hg)
  · rw [if_neg hg]
    cases a <;> cases b <;>
      simp only [Value.operator_eq, ValInt.operator_eq, ValDouble.operator_eq,
        ValBool.operator_eq, ValDate.operator_eq, ValTime.operator_eq,
        ValTimestamp.operator_eq, ValString.operator_eq] <;>
      refine Eq.trans (if_neg hg) ?_ <;>
      simp [dynamic_cast_ValInt, dynamic_cast_ValDouble, dynamic_cast_ValBool,
        dynamic_cast_ValDate, dynamic_cast_ValTime, dynamic_cast_ValTimestamp,
        dynamic_cast_ValString, Except.map, Value.getType, payload_equal,
        Date_eq_iff, Time_eq_iff, Timestamp_eq_iff]

/-- What `operator<` does on every pair: false through the guard, the payload
comparison within one class, and the failed cast across two classes. -/
theorem operator_lt_closed_form (E : Env) (a b : Value) :
    Value.operator_lt E a b =
      if a.isNull || b.isNull then .ok false
      else if a.getType = b.getType then .ok (payload_less E a b)
      else .error .bad_cast := by
  by_cases hg : (a.isNull || b.isNull) = true
  · rw [if_pos hg]
    exact operator_lt_of_null E a b (by simpa using hg)
  · rw [if_neg hg]
    cases a <;> cases b <;>
      simp only [Value.operator_lt, ValInt.operator_lt, ValDouble.operator_lt,
        ValBool.operator_lt, ValDate.operator_lt, ValTime.operator_lt,
        ValTimestamp.operator_lt, ValString.operator_lt] <;>
      refine Eq.trans (if_neg hg) ?_ <;>
      simp [dynamic_cast_ValInt, dynamic_cast_ValDouble, dynamic_cast_ValBool,
        dynamic_cast_ValDate, dynamic_cast_ValTime, dynamic_cast_ValTimestamp,
        dynamic_cast_ValString, Except.map, Value.getType, payload_less]

/-! ### The payload order -/

theorem Bool_lt_trans (p q r : Bool) : p < q → q < r → p < r := by
  cases p <;> cases q <;> cases r <;> decide

theorem Bool_incomparable_trans (p q r : Bool) :
    ¬ p < q → ¬ q < p → ¬ q < r → ¬ r < q → ¬ p < r ∧ ¬ r < p := by
  cases p <;> cases q <;> cases r <;> decide

theorem payload_less_irrefl (E : Env) (hE : IsCollation E.strcoll) (a : Value) :
    payload_less E a a = false := by
  cases a <;> simp [payload_less, Double.lt, coll_self hE]

theorem payload_less_trans (E : Env) (hE : IsCollation E.strcoll) (a b c : Value)
    (hab : payload_less E a b = true) (hbc : payload_less E b c = true) :
    payload_less E a c = true := by
  cases a <;> cases b <;> simp [payload_less] at hab <;>
    cases c <;> simp [payload_less] at hbc <;> simp only [payload_less]
  · simp; omega
  · simp only [Double.lt, Bool.and_eq_true, Bool.not_eq_true', decide_eq_true_eq] at *
    exact ⟨⟨hab.1.1, hbc.1.2⟩, by omega⟩
  · exact decide_eq_true (Bool_lt_trans _ _ _ hab hbc)
  · simp; omega
  · simp; omega
  · simp; omega
  · simpa using coll_lt_trans hE _ _ _ hab hbc

theorem payload_less_incomparable_trans (E : Env) (hE : IsCollation E.strcoll) (a b c : Value)
    (hab : a.getType = b.getType) (hbc : b.getType = c.getType) (hn : b.isNaN = false)
    (h1 : payload_less E a b = false) (h2 : payload_less E b a = false)
    (h3 : payload_less E b c = false) (h4 : payload_less E c b = false) :
    payload_less E a c = false ∧ payload_less E c a = false := by
  cases a <;> cases b <;> simp [Value.getType] at hab <;>
    cases c <;> simp [Value.getType] at hbc <;>
    simp only [payload_less, decide_eq_false_iff_not] at h1 h2 h3 h4 ⊢
  · omega
  · rename_i x y z
    simp only [Value.isNaN] at hn
    cases ha : x._val.isNaN <;> cases hc : z._val.isNaN <;>
      (simp [Double.lt, hn, ha, hc] at h1 h2 h3 h4 ⊢; try omega)
  · exact Bool_incomparable_trans _ _ _ h1 h2 h3 h4
  · omega
  · omega
  · omega
  · exact coll_incomparable_trans hE _ _ _ h1 h2 h3 h4

theorem payload_less_asymm (E : Env) (hE : IsCollation E.strcoll) (a b : Value)
    (hab : payload_less E a b = true) : payload_less E b a = false := by
  cases hba : payload_less E b a
  · rfl
  · have := payload_less_trans E hE a b a hab hba
    rw [payload_less_irrefl E hE a] at this
    exact absurd this (by decide)

theorem isNaN_of_not_real (b : Value) (h : b.getType ≠ .REAL) : b.isNaN = false := by
  cases b <;> simp [Value.isNaN, Value.getType] at *

theorem payload_equal_self (E : Env) (hE : IsCollation E.strcoll) (a : Value)
    (hr : a.getType ≠ .REAL) : payload_equal E a a = true := by
  cases a <;> simp [payload_equal, Value.getType, coll_self hE] at *

theorem payload_equal_comm (E : Env) (hE : IsCollation E.strcoll) (a b : Value)
    (hr : a.getType ≠ .REAL) : payload_equal E a b = payload_equal E b a := by
  cases a <;> cases b <;> simp [payload_equal, Value.getType] at * <;>
    first
    | exact eq_comm
    | exact coll_zero_symm hE _ _

/-! ### C strings -/

theorem takeWhile_append_nul (s : List Char) :
    (s ++ ['\x00']).takeWhile (fun c => c != '\x00') = s.takeWhile (fun c => c != '\x00') := by
  induction s with
  | nil => rfl
  | cons x xs ih =>
    by_cases hx : x = '\x00'
    · subst hx; rfl
    · simp [List.takeWhile_cons, hx, ih]

theorem takeWhile_of_no_nul (s : List Char) (h : '\x00' ∉ s) :
    s.takeWhile (fun c => c != '\x00') = s := by
  induction s with
  | nil => rfl
  | cons x xs ih =>
    have hx : x ≠ '\x00' := fun e => h (e ▸ List.mem_cons_self _ _)
    have hxs : '\x00' ∉ xs := fun m => h (List.mem_cons_of_mem _ m)
    simp [List.takeWhile_cons, hx, ih hxs]

/-- The C string in the buffer `createValue` fills: the bytes of the argument
before its first NUL byte. -/
theorem createValue_cstr (c : Nat) (s : List Char) :
    (ValueCreator_string_createValue c s).asString.cstr =
      s.takeWhile (fun c => c != '\x00') := by
  simp only [ValueCreator_string_createValue, ValString.new, ValString.asString, CharPtr.cstr,
    Buffer.cstr]
  exact takeWhile_append_nul s

theorem createValue_length (c : Nat) (s : List Char) :
    (ValueCreator_string_createValue c s).length =
      (s.takeWhile (fun c => c != '\x00')).length := by
  simp only [ValueCreator_string_createValue, ValString.new, ValString.length, strlen,
    Buffer.cstr]
  rw [takeWhile_append_nul s]

/-! ### Where the hash follows equality and where it does not -/

/-- For the five classes with exact payload equality, `getHash` is taken of
the payload that `operator==` compares: equal values hash equal. -/
theorem hash_law_exact_kinds (E : Env) (a b : Value) (hr : a.getType ≠ .REAL)
    (hs : a.getType ≠ .STRING) (h : Value.operator_eq E a b = .ok true) :
    a.getHash E = b.getHash E := by
  rw [operator_eq_closed_form] at h
  cases ha : a.isNull <;> cases hb : b.isNull <;> simp [ha, hb] at h
  by_cases hk : a.getType = b.getType
  swap
  · simp [hk] at h
  have hp : payload_equal E a b = true := by simpa [hk] using h
  cases a <;> cases b <;> simp [Value.getType] at hk hr hs <;>
    simp only [payload_equal, decide_eq_true_eq] at hp <;>
    simp [Value.getHash, ValInt.getHash, ValBool.getHash, ValDate.getHash, ValTime.getHash,
      ValTimestamp.getHash, hp]

/-- Two Strings made by `createValue` from the same bytes are equal whatever
their buffers, and the hash of each is the hash of its buffer address. -/
theorem createValue_equal_hash_of_address (E : Env) (hE : IsCollation E.strcoll)
    (p q : Nat) (s : List Char) :
    Value.operator_eq E (.ofString (ValueCreator_string_createValue p s))
        (.ofString (ValueCreator_string_createValue q s)) = .ok true ∧
      Value.getHash E (.ofString (ValueCreator_string_createValue p s)) = E.hash_ptr p ∧
      Value.getHash E (.ofString (ValueCreator_string_createValue q s)) = E.hash_ptr q := by
  refine ⟨?_, rfl, rfl⟩
  rw [operator_eq_closed_form]
  have h1 : (Value.ofString (ValueCreator_string_createValue p s)).isNull = false := rfl
  have h2 : (Value.ofString (ValueCreator_string_createValue q s)).isNull = false := rfl
  have hc : (ValueCreator_string_createValue p s)._val.cstr =
      (ValueCreator_string_createValue q s)._val.cstr := by
    have e1 := createValue_cstr p s
    have e2 := createValue_cstr q s
    simp only [ValString.asString] at e1 e2
    rw [e1, e2]
  simp [h1, h2, Value.getType, payload_equal, hc, coll_self hE]

/-- Two non-null Reals are equal when the tolerance comparator says so, and
the hash of each is the hash of its exact payload. -/
theorem ValDouble_equal_hash_of_payload (E : Env) (x y : Double) :
    Value.operator_eq E (.ofDouble (ValDouble.new x)) (.ofDouble (ValDouble.new y)) =
        .ok (E.compare x y) ∧
      Value.getHash E (.ofDouble (ValDouble.new x)) = E.hash_double x ∧
      Value.getHash E (.ofDouble (ValDouble.new y)) = E.hash_double y :=
  ⟨rfl, rfl, rfl⟩

/-! ## Theorems -/

/-- C1 (the code breaks the law): two String values made by
`ValueCreator<std::string>::createValue` from the same bytes `abc`, in buffers
at two addresses, compare equal under `operator==` and have different
`getHash` results, the hash being taken of the pointer. -/
theorem C1_equal_strings_hash_apart :
    Value.operator_eq sampleEnv
        (.ofString (ValueCreator_string_createValue 4096 "abc".toList))
        (.ofString (ValueCreator_string_createValue 8192 "abc".toList)) = .ok true ∧
      Value.getHash sampleEnv (.ofString (ValueCreator_string_createValue 4096 "abc".toList)) ≠
        Value.getHash sampleEnv (.ofString (ValueCreator_string_createValue 8192 "abc".toList)) := by
  decide

/-- C2: a null value is equal to nothing. For every value `n` that is null
and every value `a`, null or not and of any class, `n == a` and `a == n` both
return false, and neither raises. -/
theorem C2_null_never_equal (E : Env) (n a : Value) (h : n.isNull = true) :
    Value.operator_eq E n a = .ok false ∧ Value.operator_eq E a n = .ok false :=
  ⟨operator_eq_of_null E n a (Or.inl h), operator_eq_of_null E a n (Or.inr h)⟩

/-- C2 at the null String: it is null, not equal to itself, and not equal to
the non-null Int 7 in either direction. -/
theorem C2_null_never_equal_witness :
    (null_of_kind sampleEnv .STRING).isNull = true ∧
      (Value.operator_eq sampleEnv (null_of_kind sampleEnv .STRING)
          (null_of_kind sampleEnv .STRING) = .ok false ∧
        Value.operator_eq sampleEnv (null_of_kind sampleEnv .STRING)
          (null_of_kind sampleEnv .STRING) = .ok false) ∧
      (Value.operator_eq sampleEnv (null_of_kind sampleEnv .STRING)
          (.ofInt (ValInt.new 7)) = .ok false ∧
        Value.operator_eq sampleEnv (.ofInt (ValInt.new 7))
          (null_of_kind sampleEnv .STRING) = .ok false) :=
  ⟨rfl,
    C2_null_never_equal sampleEnv (null_of_kind sampleEnv .STRING)
      (null_of_kind sampleEnv .STRING) rfl,
    C2_null_never_equal sampleEnv (null_of_kind sampleEnv .STRING)
      (.ofInt (ValInt.new 7)) rfl⟩

/-- C3: a null value is incomparable under the order. For every pair of values
of which at least one is null, whatever their classes, `a < b` and `b < a`
both return false, and neither raises. -/
theorem C3_null_incomparable (E : Env) (a b : Value)
    (h : a.isNull = true ∨ b.isNull = true) :
    Value.operator_lt E a b = .ok false ∧ Value.operator_lt E b a = .ok false :=
  ⟨operator_lt_of_null E a b h, operator_lt_of_null E b a h.symm⟩

/-- C3 at the Int 1 and the null Int: neither is below the other. -/
theorem C3_null_incomparable_witness :
    ((Value.ofInt (ValInt.new 1)).isNull = true ∨ (Value.ofInt ValInt.null).isNull = true) ∧
      (Value.operator_lt sampleEnv (.ofInt (ValInt.new 1)) (.ofInt ValInt.null) = .ok false ∧
        Value.operator_lt sampleEnv (.ofInt ValInt.null) (.ofInt (ValInt.new 1)) = .ok false) :=
  ⟨Or.inr rfl,
    C3_null_incomparable sampleEnv (.ofInt (ValInt.new 1)) (.ofInt ValInt.null) (Or.inr rfl)⟩

/-- C4: on two non-null values of one class other than Real, `operator==`
returns the payload equality (exact equality for Int, Bool, Date, Time and
Timestamp, collation result zero for String, the collation obeying its
contract); hence `a == a` is true, and `a == b` is true exactly when `b == a`
is. -/
theorem C4_equality_is_payload_equality (E : Env) (hE : IsCollation E.strcoll)
    (a b : Value) (ha : a.isNull = false) (hb : b.isNull = false)
    (hk : a.getType = b.getType) (hr : a.getType ≠ .REAL) :
    Value.operator_eq E a b = .ok (payload_equal E a b) ∧
      Value.operator_eq E a a = .ok true ∧
      (Value.operator_eq E a b = .ok true ↔ Value.operator_eq E b a = .ok true) := by
  have hab : Value.operator_eq E a b = .ok (payload_equal E a b) := by
    rw [operator_eq_closed_form]; simp [ha, hb, hk]
  have hba : Value.operator_eq E b a = .ok (payload_equal E b a) := by
    rw [operator_eq_closed_form]; simp [ha, hb, hk]
  have haa : Value.operator_eq E a a = .ok true := by
    rw [operator_eq_closed_form]; simp [ha, payload_equal_self E hE a hr]
  refine ⟨hab, haa, ?_⟩
  rw [hab, hba, payload_equal_comm E hE a b hr]

/-- C4 at the Strings `abc` and `abd` in the "C" locale: they are not equal in
either direction, and `abc` is equal to itself. -/
theorem C4_equality_is_payload_equality_witness :
    IsCollation sampleEnv.strcoll ∧
      (Value.operator_eq sampleEnv
          (.ofString (ValueCreator_string_createValue 4096 "abc".toList))
          (.ofString (ValueCreator_string_createValue 8192 "abd".toList)) =
          .ok (payload_equal sampleEnv
            (.ofString (ValueCreator_string_createValue 4096 "abc".toList))
            (.ofString (ValueCreator_string_createValue 8192 "abd".toList))) ∧
        Value.operator_eq sampleEnv
          (.ofString (ValueCreator_string_createValue 4096 "abc".toList))
          (.ofString (ValueCreator_string_createValue 4096 "abc".toList)) = .ok true ∧
        (Value.operator_eq sampleEnv
            (.ofString (ValueCreator_string_createValue 4096 "abc".toList))
            (.ofString (ValueCreator_string_createValue 8192 "abd".toList)) = .ok true ↔
          Value.operator_eq sampleEnv
            (.ofString (ValueCreator_string_createValue 8192 "abd".toList))
            (.ofString (ValueCreator_string_createValue 4096 "abc".toList)) = .ok true)) :=
  ⟨strcmp_isCollation,
    C4_equality_is_payload_equality sampleEnv strcmp_isCollation
      (.ofString (ValueCreator_string_createValue 4096 "abc".toList))
      (.ofString (ValueCreator_string_createValue 8192 "abd".toList))
      rfl rfl rfl (by decide)⟩

/-- C5 fails on the code: `ValInt(1) == ValDouble(1.0)`, two non-null values of
different classes, does not return false; the downcast of the right operand
raises `bad_cast`. -/
theorem C5_mixed_kinds_raise :
    Value.operator_eq sampleEnv (.ofInt (ValInt.new 1))
        (.ofDouble (ValDouble.new ⟨0x3FF0000000000000⟩)) = .error .bad_cast ∧
      Value.operator_eq sampleEnv (.ofInt (ValInt.new 1))
        (.ofDouble (ValDouble.new ⟨0x3FF0000000000000⟩)) ≠ .ok false := by
  decide

/-- C5 as amended: on every pair of values `operator==` returns false when
either is null, returns the payload equality when both are non-null and of one
class, and raises `bad_cast` when both are non-null and of two classes; so it
returns true exactly when both are non-null, of one class and payload-equal. -/
theorem C5_equality_outcomes (E : Env) (a b : Value) :
    Value.operator_eq E a b =
        (if a.isNull || b.isNull then .ok false
         else if a.getType = b.getType then .ok (payload_equal E a b)
         else .error .bad_cast) ∧
      (Value.operator_eq E a b = .ok true ↔
        a.isNull = false ∧ b.isNull = false ∧ a.getType = b.getType ∧
          payload_equal E a b = true) := by
  refine ⟨operator_eq_closed_form E a b, ?_⟩
  rw [operator_eq_closed_form]
  cases ha : a.isNull <;> cases hb : b.isNull <;>
    by_cases hk : a.getType = b.getType <;> simp [hk]

/-- C6: on non-null values of one class other than Real (Int, Bool, Date,
Time, Timestamp, String, the collation obeying its contract) `operator<`
returns a boolean and is a strict weak order: never `a < a`; `a < b` excludes
`b < a`; `a < b` and `b < c` give `a < c`; and when `a`, `b` are incomparable
and `b`, `c` are incomparable, so are `a`, `c`. -/
theorem C6_strict_weak_order (E : Env) (hE : IsCollation E.strcoll) (a b c : Value)
    (ha : a.isNull = false) (hb : b.isNull = false) (hc : c.isNull = false)
    (hab : a.getType = b.getType) (hbc : b.getType = c.getType)
    (hr : a.getType ≠ .REAL) :
    (∃ r, Value.operator_lt E a b = .ok r) ∧
      Value.operator_lt E a a = .ok false ∧
      (Value.operator_lt E a b = .ok true → Value.operator_lt E b a = .ok false) ∧
      (Value.operator_lt E a b = .ok true → Value.operator_lt E b c = .ok true →
        Value.operator_lt E a c = .ok true) ∧
      (Value.operator_lt E a b = .ok false → Value.operator_lt E b a = .ok false →
        Value.operator_lt E b c = .ok false → Value.operator_lt E c b = .ok false →
        Value.operator_lt E a c = .ok false ∧ Value.operator_lt E c a = .ok false) := by
  have hac : a.getType = c.getType := hab.trans hbc
  have hnb : b.isNaN = false := isNaN_of_not_real b (hab ▸ hr)
  have e_ab : Value.operator_lt E a b = .ok (payload_less E a b) := by
    rw [operator_lt_closed_form]; simp [ha, hb, hab]
  have e_ba : Value.operator_lt E b a = .ok (payload_less E b a) := by
    rw [operator_lt_closed_form]; simp [ha, hb, hab]
  have e_bc : Value.operator_lt E b c = .ok (payload_less E b c) := by
    rw [operator_lt_closed_form]; simp [hb, hc, hbc]
  have e_cb : Value.operator_lt E c b = .ok (payload_less E c b) := by
    rw [operator_lt_closed_form]; simp [hb, hc, hbc]
  have e_ac : Value.operator_lt E a c = .ok (payload_less E a c) := by
    rw [operator_lt_closed_form]; simp [ha, hc, hac]
  have e_ca : Value.operator_lt E c a = .ok (payload_less E c a) := by
    rw [operator_lt_closed_form]; simp [ha, hc, hac]
  have e_aa : Value.operator_lt E a a = .ok (payload_less E a a) := by
    rw [operator_lt_closed_form]; simp [ha]
  rw [e_ab, e_ba, e_bc, e_cb, e_ac, e_ca, e_aa]
  simp only [Except.ok.injEq]
  refine ⟨⟨_, rfl⟩, payload_less_irrefl E hE a, payload_less_asymm E hE a b,
    payload_less_trans E hE a b c, ?_⟩
  exact payload_less_incomparable_trans E hE a b c hab hbc hnb

/-- C6 at the Strings `ab`, `abc`, `b` in the "C" locale, where `ab < abc < b`. -/
theorem C6_strict_weak_order_witness :
    IsCollation sampleEnv.strcoll ∧
      Value.operator_lt sampleEnv
        (.ofString (ValueCreator_string_createValue 4096 "ab".toList))
        (.ofString (ValueCreator_string_createValue 8192 "b".toList)) = .ok true :=
  ⟨strcmp_isCollation,
    (C6_strict_weak_order sampleEnv strcmp_isCollation
      (.ofString (ValueCreator_string_createValue 4096 "ab".toList))
      (.ofString (ValueCreator_string_createValue 6144 "abc".toList))
      (.ofString (ValueCreator_string_createValue 8192 "b".toList))
      rfl rfl rfl rfl rfl (by decide)).2.2.2.1 (by decide) (by decide)⟩

/-- C7 fails on the code: incomparability is not transitive once a null is
among the values. Of the three Int values 1, null, 2 the null is incomparable
with both others, yet `1 < 2`. The same happens with a non-null Real holding
a NaN between 1.0 and 2.0. -/
theorem C7_incomparability_not_transitive :
    (Value.operator_lt sampleEnv (.ofInt (ValInt.new 1)) (.ofInt ValInt.null) = .ok false ∧
      Value.operator_lt sampleEnv (.ofInt ValInt.null) (.ofInt (ValInt.new 1)) = .ok false ∧
      Value.operator_lt sampleEnv (.ofInt ValInt.null) (.ofInt (ValInt.new 2)) = .ok false ∧
      Value.operator_lt sampleEnv (.ofInt (ValInt.new 2)) (.ofInt ValInt.null) = .ok false ∧
      Value.operator_lt sampleEnv (.ofInt (ValInt.new 1)) (.ofInt (ValInt.new 2)) = .ok true) ∧
    (Value.operator_lt sampleEnv (.ofDouble (ValDouble.new ⟨0x3FF0000000000000⟩))
        (.ofDouble (ValDouble.new ⟨0x7FF8000000000000⟩)) = .ok false ∧
      Value.operator_lt sampleEnv (.ofDouble (ValDouble.new ⟨0x7FF8000000000000⟩))
        (.ofDouble (ValDouble.new ⟨0x3FF0000000000000⟩)) = .ok false ∧
      Value.operator_lt sampleEnv (.ofDouble (ValDouble.new ⟨0x7FF8000000000000⟩))
        (.ofDouble (ValDouble.new ⟨0x4000000000000000⟩)) = .ok false ∧
      Value.operator_lt sampleEnv (.ofDouble (ValDouble.new ⟨0x4000000000000000⟩))
        (.ofDouble (ValDouble.new ⟨0x7FF8000000000000⟩)) = .ok false ∧
      Value.operator_lt sampleEnv (.ofDouble (ValDouble.new ⟨0x3FF0000000000000⟩))
        (.ofDouble (ValDouble.new ⟨0x4000000000000000⟩)) = .ok true) := by
  decide

/-- C7 as amended: over all values of one class, the null included (the
collation obeying its contract), `operator<` is irreflexive and transitive,
and incomparability is transitive through a middle value that is neither null
nor a NaN: if `b` is such a value, neither `a < b` nor `b < a`, and neither
`b < c` nor `c < b`, then neither `a < c` nor `c < a`. -/
theorem C7_order_with_nulls (E : Env) (hE : IsCollation E.strcoll) (a b c : Value)
    (hab : a.getType = b.getType) (hbc : b.getType = c.getType) :
    Value.operator_lt E a a = .ok false ∧
      (Value.operator_lt E a b = .ok true → Value.operator_lt E b c = .ok true →
        Value.operator_lt E a c = .ok true) ∧
      (b.isNull = false → b.isNaN = false →
        Value.operator_lt E a b = .ok false → Value.operator_lt E b a = .ok false →
        Value.operator_lt E b c = .ok false → Value.operator_lt E c b = .ok false →
        Value.operator_lt E a c = .ok false ∧ Value.operator_lt E c a = .ok false) := by
  have hac : a.getType = c.getType := hab.trans hbc
  simp only [operator_lt_closed_form]
  refine ⟨?_, ?_, ?_⟩
  · cases ha : a.isNull <;> simp [payload_less_irrefl E hE a]
  · cases ha : a.isNull <;> cases hb : b.isNull <;> cases hc : c.isNull <;>
      simp [hab, hbc, hac]
    exact payload_less_trans E hE a b c
  · intro hb hn
    cases ha : a.isNull <;> cases hc : c.isNull <;> simp [hb, hab, hbc, hac]
    exact payload_less_incomparable_trans E hE a b c hab hbc hn

/-- C7 as amended, at the Int values 1, 2, 3: `1 < 2` and `2 < 3` give `1 < 3`. -/
theorem C7_order_with_nulls_witness :
    IsCollation sampleEnv.strcoll ∧
      Value.operator_lt sampleEnv (.ofInt (ValInt.new 1)) (.ofInt (ValInt.new 3)) = .ok true :=
  ⟨strcmp_isCollation,
    (C7_order_with_nulls sampleEnv strcmp_isCollation (.ofInt (ValInt.new 1))
      (.ofInt (ValInt.new 2)) (.ofInt (ValInt.new 3)) rfl rfl).2.1 (by decide) (by decide)⟩

/-- C8: size accounting. The `size` of a String is `baseSize` of its class
plus `length` plus one, added as `size_t` values: it is the sum itself
whenever the sum is at most `SIZE_MAX`, and the sum modulo `SIZE_MAX + 1` for
every String, also one whose recorded length, given to the two-argument
constructor, is within `baseSize` + 1 of `SIZE_MAX`. The `size` of a value of
any other class is `baseSize` of its class, so that two values of one such
class have the same `size` whatever their payloads and null flags; and a null
String of length 0, which is what the default constructor makes, has size
`baseSize` plus one. -/
theorem C8_size_accounting (E : Env) :
    (∀ v : ValString,
        (Value.ofString v).size E =
          (baseSize E (Value.ofString v).getType + v.length + 1) % (SIZE_MAX + 1)) ∧
      (∀ v : ValString, baseSize E (Value.ofString v).getType + v.length + 1 ≤ SIZE_MAX →
        (Value.ofString v).size E = baseSize E (Value.ofString v).getType + v.length + 1) ∧
      (∀ x : Value, x.getType ≠ .STRING → x.size E = baseSize E x.getType) ∧
      (∀ x y : Value, x.getType = y.getType → x.getType ≠ .STRING → x.size E = y.size E) ∧
      (∀ v : ValString, v.isNull = true → v.length = 0 → ValString.baseSize E + 1 ≤ SIZE_MAX →
        (Value.ofString v).size E = ValString.baseSize E + 1) ∧
      (ValString.null.isNull = true ∧ ValString.null.length = 0 ∧
        (Value.ofString ValString.null).size E = (ValString.baseSize E + 1) % (SIZE_MAX + 1) ∧
        (ValString.baseSize E + 1 ≤ SIZE_MAX →
          (Value.ofString ValString.null).size E = ValString.baseSize E + 1)) := by
  have h1 : ∀ v : ValString, (Value.ofString v).size E =
      (baseSize E (Value.ofString v).getType + v.length + 1) % (SIZE_MAX + 1) := fun v => rfl
  have h2 : ∀ x : Value, x.getType ≠ .STRING → x.size E = baseSize E x.getType := by
    intro x hx
    cases x <;> first | rfl | exact absurd rfl hx
  have h3 : ∀ v : ValString, v.length = 0 → ValString.baseSize E + 1 ≤ SIZE_MAX →
      (Value.ofString v).size E = ValString.baseSize E + 1 := by
    intro v hl hfit
    rw [h1 v, hl]
    exact Nat.mod_eq_of_lt (Nat.lt_succ_of_le hfit)
  refine ⟨h1, ?_, h2, ?_, fun v _ hl hfit => h3 v hl hfit, rfl, rfl, rfl,
    fun hfit => h3 ValString.null rfl hfit⟩
  · intro v hfit
    rw [h1 v]
    exact Nat.mod_eq_of_lt (Nat.lt_succ_of_le hfit)
  · intro x y hxy hx
    rw [h2 x hx, h2 y (hxy ▸ hx), hxy]

/-- C8 at the Int values 1 and null, which have one size; at the String
`abc`, whose size under the sample layout is 24 + 3 + 1; and at a String given
the length `SIZE_MAX` by the two-argument constructor, where the sum wraps to
24 under the sample layout. -/
theorem C8_size_accounting_witness :
    (Value.ofInt (ValInt.new 1)).size sampleEnv = (Value.ofInt ValInt.null).size sampleEnv ∧
      (Value.ofString (ValueCreator_string_createValue 4096 "abc".toList)).size sampleEnv =
        24 + 3 + 1 ∧
      (Value.ofString (ValString.newLen (some ⟨4096, ['a', '\x00']⟩) SIZE_MAX)).size sampleEnv =
        24 :=
  ⟨(C8_size_accounting sampleEnv).2.2.2.1 (.ofInt (ValInt.new 1)) (.ofInt ValInt.null) rfl
      (by decide),
    (C8_size_accounting sampleEnv).2.1 (ValueCreator_string_createValue 4096 "abc".toList)
      (by decide),
    by decide⟩

/-- C9 fails on the code: for the three-byte string `a`, NUL, `b` the value
`createValue` returns has length 1, not 3, its size is not `baseSize` + 3 + 1,
and its C string is `a`, not the whole argument. -/
theorem C9_nul_byte_truncates :
    (ValueCreator_string_createValue 4096 ['a', '\x00', 'b']).length = 1 ∧
      (ValueCreator_string_createValue 4096 ['a', '\x00', 'b']).length ≠
        ['a', '\x00', 'b'].length ∧
      (Value.ofString (ValueCreator_string_createValue 4096 ['a', '\x00', 'b'])).size sampleEnv ≠
        ValString.baseSize sampleEnv + ['a', '\x00', 'b'].length + 1 ∧
      (ValueCreator_string_createValue 4096 ['a', '\x00', 'b']).asString.cstr ≠
        ['a', '\x00', 'b'] := by
  decide

/-- C9 as amended: for every `std::string` `s`, `createValue(s)` is a non-null
String whose `length` is the number of bytes of `s` before its first NUL byte,
whose `size` is `baseSize` plus that length plus one, and whose C string is
that prefix of `s`; when `s` holds no NUL byte (the empty string included)
these are `s.length()`, `baseSize` + `s.length()` + 1 and `s` itself. The sums
are sums of `size_t` values: they are the plain sums whenever these are at
most `SIZE_MAX`, as they are for every string that fits in memory with the
object. -/
theorem C9_createValue_string (E : Env) (c : Nat) (s : List Char) :
    (Value.ofString (ValueCreator_string_createValue c s)).isNull = false ∧
      (Value.ofString (ValueCreator_string_createValue c s)).getType = .STRING ∧
      (ValueCreator_string_createValue c s).length =
        (s.takeWhile (fun c => c != '\x00')).length ∧
      (Value.ofString (ValueCreator_string_createValue c s)).size E =
        (ValString.baseSize E + (s.takeWhile (fun c => c != '\x00')).length + 1) %
          (SIZE_MAX + 1) ∧
      (ValString.baseSize E + (s.takeWhile (fun c => c != '\x00')).length + 1 ≤ SIZE_MAX →
        (Value.ofString (ValueCreator_string_createValue c s)).size E =
          ValString.baseSize E + (s.takeWhile (fun c => c != '\x00')).length + 1) ∧
      (ValueCreator_string_createValue c s).asString.cstr =
        s.takeWhile (fun c => c != '\x00') ∧
      ('\x00' ∉ s →
        (ValueCreator_string_createValue c s).length = s.length ∧
        (Value.ofString (ValueCreator_string_createValue c s)).size E =
          (ValString.baseSize E + s.length + 1) % (SIZE_MAX + 1) ∧
        (ValString.baseSize E + s.length + 1 ≤ SIZE_MAX →
          (Value.ofString (ValueCreator_string_createValue c s)).size E =
            ValString.baseSize E + s.length + 1) ∧
        (ValueCreator_string_createValue c s).asString.cstr = s) := by
  have hl := createValue_length c s
  have hc := createValue_cstr c s
  have hs : (Value.ofString (ValueCreator_string_createValue c s)).size E =
      (ValString.baseSize E + (ValueCreator_string_createValue c s).length + 1) %
        (SIZE_MAX + 1) := rfl
  rw [hl] at hs
  refine ⟨rfl, rfl, hl, hs, ?_, hc, ?_⟩
  · intro hfit
    rw [hs]
    exact Nat.mod_eq_of_lt (Nat.lt_succ_of_le hfit)
  · intro h
    have ht := takeWhile_of_no_nul s h
    rw [ht] at hs hl hc
    refine ⟨hl, hs, ?_, hc⟩
    intro hfit
    rw [hs]
    exact Nat.mod_eq_of_lt (Nat.lt_succ_of_le hfit)

/-- C9 as amended, at the string `abc` and at the empty string. -/
theorem C9_createValue_string_witness :
    ('\x00' ∉ "abc".toList ∧
      (ValueCreator_string_createValue 4096 "abc".toList).length = 3 ∧
      (Value.ofString (ValueCreator_string_createValue 4096 "abc".toList)).size sampleEnv =
        ValString.baseSize sampleEnv + 3 + 1 ∧
      (ValueCreator_string_createValue 4096 "abc".toList).asString.cstr = "abc".toList) ∧
    (ValueCreator_string_createValue 4096 []).length = 0 :=
  ⟨⟨by decide, ((C9_createValue_string sampleEnv 4096 "abc".toList).2.2.2.2.2.2 (by decide)).1,
      ((C9_createValue_string sampleEnv 4096 "abc".toList).2.2.2.2.2.2 (by decide)).2.2.1
        (by decide),
      ((C9_createValue_string sampleEnv 4096 "abc".toList).2.2.2.2.2.2 (by decide)).2.2.2⟩,
    ((C9_createValue_string sampleEnv 4096 []).2.2.2.2.2.2 (by decide)).1⟩

/-- C10: written to a stream, a null value of any class appends the four
characters `NULL` and nothing else; a non-null String appends the bytes of its
C string as they are, which for a value made by `createValue` from a string
without a NUL byte are the bytes of that string. -/
theorem C10_rendering (E : Env) (stream : ostream) :
    (∀ x : Value, x.isNull = true → x.toStream E stream = stream ++ ['N', 'U', 'L', 'L']) ∧
      (∀ v : ValString, v.isNull = false →
        (Value.ofString v).toStream E stream = stream ++ v.asString.cstr) ∧
      (∀ (c : Nat) (s : List Char), '\x00' ∉ s →
        (Value.ofString (ValueCreator_string_createValue c s)).toStream E stream =
          stream ++ s) := by
  have h2 : ∀ v : ValString, v.isNull = false →
      (Value.ofString v).toStream E stream = stream ++ v.asString.cstr := by
    intro v hv
    rcases v with ⟨len, p⟩
    cases p with
    | none => simp [ValString.isNull] at hv
    | some b => rfl
  refine ⟨?_, h2, ?_⟩
  · intro x hx
    cases x with
    | ofString v =>
      rcases v with ⟨len, p⟩
      cases p with
      | none => rfl
      | some b => simp [Value.isNull, ValString.isNull] at hx
    | ofInt v =>
      simp only [Value.isNull, ValInt.isNull] at hx
      simp [Value.toStream, ValInt.toStream, hx]
    | ofDouble v =>
      simp only [Value.isNull, ValDouble.isNull] at hx
      simp [Value.toStream, ValDouble.toStream, hx]
    | ofBool v =>
      simp only [Value.isNull, ValBool.isNull] at hx
      simp [Value.toStream, ValBool.toStream, hx]
    | ofDate v =>
      simp only [Value.isNull, ValDate.isNull] at hx
      simp [Value.toStream, ValDate.toStream, hx]
    | ofTime v =>
      simp only [Value.isNull, ValTime.isNull] at hx
      simp [Value.toStream, ValTime.toStream, hx]
    | ofTimestamp v =>
      simp only [Value.isNull, ValTimestamp.isNull] at hx
      simp [Value.toStream, ValTimestamp.toStream, hx]
  · intro c s hs
    rw [h2 (ValueCreator_string_createValue c s) rfl, createValue_cstr,
      takeWhile_of_no_nul s hs]

/-- C10 at the null Date, the null String and the String `a"b`, written
behind the text `x=`. -/
theorem C10_rendering_witness :
    (Value.ofDate (ValDate.null sampleEnv)).toStream sampleEnv "x=".toList = "x=NULL".toList ∧
      (Value.ofString ValString.null).toStream sampleEnv "x=".toList = "x=NULL".toList ∧
      (Value.ofString (ValueCreator_string_createValue 4096 ['a', '"', 'b'])).toStream
        sampleEnv "x=".toList = ['x', '=', 'a', '"', 'b'] :=
  ⟨(C10_rendering sampleEnv "x=".toList).1 (.ofDate (ValDate.null sampleEnv)) rfl,
    (C10_rendering sampleEnv "x=".toList).1 (.ofString ValString.null) rfl,
    (C10_rendering sampleEnv "x=".toList).2.2 4096 ['a', '"', 'b'] (by decide)⟩

/-! ## Rendering, accessors and construction -/

/-- On a value that is not null, `toString` returns the text `toStream` writes
to an empty stream. -/
theorem toString_eq_toStream_of_not_null (E : Env) (x : Value) (h : x.isNull = false) :
    x.toString E = some (x.toStream E []) := by
  cases x with
  | ofString v =>
    rcases v with ⟨len, p⟩
    cases p with
    | none => simp [Value.isNull, ValString.isNull] at h
    | some b => simp [Value.toString, ValString.toString, Value.toStream, ValString.toStream]
  | ofInt v =>
    simp only [Value.isNull, ValInt.isNull] at h
    simp [Value.toString, ValInt.toString, Value.toStream, ValInt.toStream, h]
  | ofDouble v =>
    simp only [Value.isNull, ValDouble.isNull] at h
    simp [Value.toString, ValDouble.toString, Value.toStream, ValDouble.toStream, h]
  | ofBool v =>
    simp only [Value.isNull, ValBool.isNull] at h
    simp [Value.toString, ValBool.toString, Value.toStream, ValBool.toStream, h]
  | ofDate v =>
    simp only [Value.isNull, ValDate.isNull] at h
    simp [Value.toString, ValDate.toString, Value.toStream, ValDate.toStream, h]
  | ofTime v =>
    simp only [Value.isNull, ValTime.isNull] at h
    simp [Value.toString, ValTime.toString, Value.toStream, ValTime.toStream, h]
  | ofTimestamp v =>
    simp only [Value.isNull, ValTimestamp.isNull] at h
    simp [Value.toString, ValTimestamp.toString, Value.toStream, ValTimestamp.toStream, h]

theorem digitChar_isDigit (k : Nat) (h : k < 10) :
    (Nat.digitChar k).isDigit = true ∧ (Nat.digitChar k).toNat - 48 = k := by
  interval_cases k <;> decide

theorem parseNatDigits_toDigitsCore (fuel : Nat) :
    ∀ (n : Nat) (ds : List Char), n < fuel →
      parseNatDigits (Nat.toDigitsCore 10 fuel n ds) 0 = parseNatDigits ds n := by
  induction fuel with
  | zero => intro n ds h; omega
  | succ f ih =>
    intro n ds h
    have hd := digitChar_isDigit (n % 10) (Nat.mod_lt _ (by decide))
    simp only [Nat.toDigitsCore]
    by_cases h0 : n / 10 = 0
    · simp only [h0, if_true, parseNatDigits, hd.1, hd.2]
      congr 1
      omega
    · simp only [h0, if_false]
      rw [ih (n / 10) _ (by omega)]
      simp only [parseNatDigits, hd.1, hd.2, if_true]
      congr 1
      omega

/-- Reading the decimal digits of a natural number gives the number back. -/
theorem parseNatDigits_repr (n : Nat) : parseNatDigits (Nat.repr n).toList 0 = some n := by
  have := parseNatDigits_toDigitsCore (n + 1) n [] (by omega)
  simpa [Nat.repr, Nat.toDigits, parseNatDigits] using this

theorem repr_ne_nil (n : Nat) : (Nat.repr n).toList ≠ [] := by
  intro h
  have := parseNatDigits_repr n
  rw [h] at this
  cases n with
  | zero => exact absurd h (by decide)
  | succ m => simp [parseNatDigits] at this

/-- Reading the decimal text of an integer gives the integer back. -/
theorem parseDecimal_toString (v : Int) :
    parseDecimal (ToString.toString v).toList = some v := by
  cases v with
  | ofNat n =>
    show parseDecimal (Nat.repr n).toList = some (Int.ofNat n)
    have h := parseNatDigits_repr n
    cases hr : (Nat.repr n).toList with
    | nil => exact absurd hr (repr_ne_nil n)
    | cons c ds =>
      rw [hr] at h
      simp only [parseDecimal]
      by_cases hc : c = '-'
      · subst hc
        simp [parseNatDigits] at h
      · simp [hc, h]
  | negSucc n =>
    show parseDecimal ("-" ++ Nat.repr (n + 1)).toList = some (Int.negSucc n)
    have h := parseNatDigits_repr (n + 1)
    have hne := repr_ne_nil (n + 1)
    have : ("-" ++ Nat.repr (n + 1)).toList = '-' :: (Nat.repr (n + 1)).toList := by
      simp [String.toList]
    rw [this]
    simp only [parseDecimal, if_true, hne, if_false, h, Option.map]
    rfl

/-- C11 (the code breaks the claim): the null Int has `toString`
`9223372036854775807`, the digits of its stored payload, while `toStream`
writes `NULL` for it; and `toString` of the null String converts a null
pointer to a `std::string`, which has no defined result. -/
theorem C11_null_toString_differs :
    Value.toString sampleEnv (.ofInt ValInt.null) = some "9223372036854775807".toList ∧
      Value.toStream sampleEnv (.ofInt ValInt.null) [] = "NULL".toList ∧
      Value.toString sampleEnv (.ofInt ValInt.null) ≠
        some (Value.toStream sampleEnv (.ofInt ValInt.null) []) ∧
      Value.toString sampleEnv (.ofString ValString.null) = none := by
  decide

/-- C12: rendering round trip for Int and Bool. For every non-null Int the
text `toStream` writes, which is also its `toString`, reads back as a decimal
integer to the payload, and the Int made of the number read is `==` to the
original; for every non-null Bool the text is `1` for true and `0` for false,
it reads back to 1 or 0, and the Bool made of "the number read is not zero" is
`==` to the original; two non-null Ints, or Bools, with one text have one
payload. -/
theorem C12_render_round_trip (E : Env) (v w : Int) (b c : Bool) :
    (parseDecimal (ValInt.toStream (ValInt.new v) []) = some (ValInt.new v).asInt ∧
      (ValInt.new v).toString = ValInt.toStream (ValInt.new v) [] ∧
      Value.operator_eq E (ValueCreator_int64_createValue v) (.ofInt (ValInt.new v)) =
        .ok true) ∧
    (ValBool.toStream (ValBool.new b) [] = (if b then ['1'] else ['0']) ∧
      (ValBool.new b).toString = ValBool.toStream (ValBool.new b) [] ∧
      parseDecimal (ValBool.toStream (ValBool.new b) []) = some (if b then 1 else 0) ∧
      Value.operator_eq E (ValueCreator_bool_createValue (decide ((if b then 1 else 0) ≠ 0)))
        (.ofBool (ValBool.new b)) = .ok true) ∧
    (ValInt.toStream (ValInt.new v) [] = ValInt.toStream (ValInt.new w) [] → v = w) ∧
    (ValBool.toStream (ValBool.new b) [] = ValBool.toStream (ValBool.new c) [] → b = c) := by
  have hv : ValInt.toStream (ValInt.new v) [] = (ToString.toString v).toList := by
    simp [ValInt.toStream, ValInt.new]
  have hw : ValInt.toStream (ValInt.new w) [] = (ToString.toString w).toList := by
    simp [ValInt.toStream, ValInt.new]
  refine ⟨⟨?_, ?_, ?_⟩, ⟨?_, ?_, ?_, ?_⟩, ?_, ?_⟩
  · rw [hv]; exact parseDecimal_toString v
  · rw [hv]; rfl
  · rw [operator_eq_closed_form]
    simp [ValueCreator_int64_createValue, Value.isNull, ValInt.isNull, ValInt.new,
      Value.getType, payload_equal]
  · cases b <;> rfl
  · cases b <;> rfl
  · cases b <;> decide
  · cases b <;> rfl
  · intro h
    have h1 := parseDecimal_toString v
    have h2 := parseDecimal_toString w
    rw [← hv, h, hw, h2] at h1
    exact (Option.some.inj h1).symm
  · cases b <;> cases c <;> decide

/-- C12 at the Int -38793 and the Bool true. -/
theorem C12_render_round_trip_witness :
    ValInt.toStream (ValInt.new (-38793)) [] = "-38793".toList ∧
      ValBool.toStream (ValBool.new true) [] = "1".toList ∧
      parseDecimal "-38793".toList = some (-38793) :=
  ⟨by decide, (C12_render_round_trip sampleEnv (-38793) 0 true false).2.1.1, by decide⟩

/-- C13 fails on the code: `asInt` on the null Int does not raise, it returns
the stored payload, the largest `int64_t`; `asBool` on the null Bool returns
false, and `asString` on the null String returns the null pointer. -/
theorem C13_accessor_on_null_returns :
    ValInt.null.isNull = true ∧ ValInt.null.asInt = 9223372036854775807 ∧
      ValBool.null.isNull = true ∧ ValBool.null.asBool = false ∧
      ValString.null.isNull = true ∧ ValString.null.asString = none := by
  decide

/-- C13 as amended: a typed accessor applied to a null value returns the
stored payload; none of the seven reads the null flag. On the
default-constructed nulls that is the largest `int64_t`, the largest `double`,
false, the default-constructed date, time and instant, and the null pointer;
and on every value the accessor returns the payload field whatever the null
flag is. -/
theorem C13_accessors_ignore_null (E : Env) :
    (ValInt.null.asInt = INT64_MAX ∧ ValDouble.null.asDouble = DBL_MAX ∧
      ValBool.null.asBool = false ∧ (ValDate.null E).asDate = E.Date_default ∧
      (ValTime.null E).asTime = E.Time_default ∧
      (ValTimestamp.null E).asTimestamp = E.Timestamp_default ∧
      ValString.null.asString = none) ∧
    (∀ (p : Int) (n : Bool), (ValInt.mk p n).asInt = p) ∧
    (∀ (p : Double) (n : Bool), (ValDouble.mk p n).asDouble = p) ∧
    (∀ (p : Bool) (n : Bool), (ValBool.mk p n).asBool = p) ∧
    (∀ (p : Date) (n : Bool), (ValDate.mk p n).asDate = p) ∧
    (∀ (p : Time) (n : Bool), (ValTime.mk p n).asTime = p) ∧
    (∀ (p : Timestamp) (n : Bool), (ValTimestamp.mk p n).asTimestamp = p) ∧
    (∀ (len : Nat) (p : CharPtr), (ValString.mk len p).asString = p) :=
  ⟨⟨rfl, rfl, rfl, rfl, rfl, rfl, rfl⟩, fun _ _ => rfl, fun _ _ => rfl, fun _ _ => rfl,
    fun _ _ => rfl, fun _ _ => rfl, fun _ _ => rfl, fun _ _ => rfl⟩

/-- C14 fails on the code: `ValString(nullptr, 5)` is constructed from a
payload, the null pointer with the length 5, and `isNull()` returns true for
it; its accessor returns the null pointer and `length()` returns 5. -/
theorem C14_string_from_null_pointer_is_null :
    (Value.ofString (ValString.newLen none 5)).isNull = true ∧
      (Value.ofString (ValString.newLen none 5)).isNull ≠ false ∧
      (Value.ofString (ValString.newLen none 5)).getType = .STRING ∧
      (ValString.newLen none 5).asString = none ∧
      (ValString.newLen none 5).length = 5 := by
  decide

/-- C14 as amended: kind and null flag are fixed by construction. The
default-constructed value of each class is null and has the tag of its class;
a value of a class other than String constructed from a payload, by the
constructor or by `ValueCreator`, is not null, has the tag of its class, and
its accessor returns the payload. A String has no null flag, it is null
exactly when its pointer is the null pointer: constructed from a pointer and a
length it has the tag STRING, its accessor returns the pointer and `length`
the length given, and it is null when the pointer is null and not null
otherwise; constructed from a pointer to a buffer alone, by the constructor or
by `ValueCreator`, it is not null and its accessor returns the pointer (for a
String made by `ValueCreator<std::string>` the pointer returned points to the
copy of the bytes, closed by a NUL byte). Copy construction returns an equal
object, so it keeps tag, null flag and payload; and `getType` is one tag per
class. -/
theorem C14_kind_and_null_by_construction (E : Env) :
    (∀ K : eType, (null_of_kind E K).isNull = true ∧ (null_of_kind E K).getType = K) ∧
    (∀ p : Int, (ValueCreator_int64_createValue p).isNull = false ∧
      (ValueCreator_int64_createValue p).getType = .INT ∧ (ValInt.new p).asInt = p ∧
      ValueCreator_int64_createValue p = .ofInt (ValInt.new p)) ∧
    (∀ p : Double, (ValueCreator_double_createValue p).isNull = false ∧
      (ValueCreator_double_createValue p).getType = .REAL ∧ (ValDouble.new p).asDouble = p ∧
      ValueCreator_double_createValue p = .ofDouble (ValDouble.new p)) ∧
    (∀ p : Bool, (ValueCreator_bool_createValue p).isNull = false ∧
      (ValueCreator_bool_createValue p).getType = .BOOLEAN ∧ (ValBool.new p).asBool = p ∧
      ValueCreator_bool_createValue p = .ofBool (ValBool.new p)) ∧
    (∀ p : Date, (ValueCreator_Date_createValue p).isNull = false ∧
      (ValueCreator_Date_createValue p).getType = .DATE ∧ (ValDate.new p).asDate = p ∧
      ValueCreator_Date_createValue p = .ofDate (ValDate.new p)) ∧
    (∀ p : Time, (ValueCreator_Time_createValue p).isNull = false ∧
      (ValueCreator_Time_createValue p).getType = .TIME ∧ (ValTime.new p).asTime = p ∧
      ValueCreator_Time_createValue p = .ofTime (ValTime.new p)) ∧
    (∀ p : Timestamp, (ValueCreator_Timestamp_createValue p).isNull = false ∧
      (ValueCreator_Timestamp_createValue p).getType = .TIMESTAMP ∧
      (ValTimestamp.new p).asTimestamp = p ∧
      ValueCreator_Timestamp_createValue p = .ofTimestamp (ValTimestamp.new p)) ∧
    (∀ p : Buffer, (ValueCreator_StringType_createValue p).isNull = false ∧
      (ValueCreator_StringType_createValue p).getType = .STRING ∧
      (ValString.new p).asString = some p ∧
      ValueCreator_StringType_createValue p = .ofString (ValString.new p)) ∧
    (∀ (c : Nat) (s : List Char),
      (Value.ofString (ValueCreator_string_createValue c s)).isNull = false ∧
      (Value.ofString (ValueCreator_string_createValue c s)).getType = .STRING ∧
      (ValueCreator_string_createValue c s).asString = some ⟨c, s ++ ['\x00']⟩) ∧
    (∀ (p : CharPtr) (len : Nat),
      (Value.ofString (ValString.newLen p len)).isNull = p.isNone ∧
      (Value.ofString (ValString.newLen p len)).getType = .STRING ∧
      (ValString.newLen p len).asString = p ∧ (ValString.newLen p len).length = len) ∧
    (∀ (b : Buffer) (len : Nat),
      (Value.ofString (ValString.newLen (some b) len)).isNull = false) ∧
    (∀ len : Nat, (Value.ofString (ValString.newLen none len)).isNull = true) ∧
    (∀ x : Value, x.copy = x ∧ x.copy.getType = x.getType ∧ x.copy.isNull = x.isNull) ∧
    (∀ (v w : ValInt), (Value.ofInt v).getType = (Value.ofInt w).getType) ∧
    (∀ (v w : ValDouble), (Value.ofDouble v).getType = (Value.ofDouble w).getType) ∧
    (∀ (v w : ValBool), (Value.ofBool v).getType = (Value.ofBool w).getType) ∧
    (∀ (v w : ValDate), (Value.ofDate v).getType = (Value.ofDate w).getType) ∧
    (∀ (v w : ValTime), (Value.ofTime v).getType = (Value.ofTime w).getType) ∧
    (∀ (v w : ValTimestamp), (Value.ofTimestamp v).getType = (Value.ofTimestamp w).getType) ∧
    (∀ (v w : ValString), (Value.ofString v).getType = (Value.ofString w).getType) := by
  have hcopy : ∀ x : Value, x.copy = x := by
    intro x
    cases x <;> rfl
  refine ⟨fun K => ⟨null_of_kind_isNull E K, null_of_kind_getType E K⟩,
    fun _ => ⟨rfl, rfl, rfl, rfl⟩, fun _ => ⟨rfl, rfl, rfl, rfl⟩, fun _ => ⟨rfl, rfl, rfl, rfl⟩,
    fun _ => ⟨rfl, rfl, rfl, rfl⟩, fun _ => ⟨rfl, rfl, rfl, rfl⟩, fun _ => ⟨rfl, rfl, rfl, rfl⟩,
    fun _ => ⟨rfl, rfl, rfl, rfl⟩, fun _ _ => ⟨rfl, rfl, rfl⟩,
    fun _ _ => ⟨rfl, rfl, rfl, rfl⟩, fun _ _ => rfl, fun _ => rfl, ?_,
    fun _ _ => rfl, fun _ _ => rfl, fun _ _ => rfl, fun _ _ => rfl, fun _ _ => rfl,
    fun _ _ => rfl, fun _ _ => rfl⟩
  intro x
  rw [hcopy x]
  exact ⟨rfl, rfl, rfl⟩

/-! ## The JSON parser: lemmas -/

namespace json

theorem isEmpty_of_ne_nil {α : Type} {xs : List α} (h : xs ≠ []) : xs.isEmpty = false := by
  cases xs with
  | nil => exact absurd rfl h
  | cons _ _ => rfl

theorem drive_nil (d : Driver) : drive d [] = ⟨d, [], none⟩ := rfl

theorem drive_cons_ok {d d' : Driver} {t : Token} {evs : List Event} (ts : List Token)
    (h : d.step t = .ok (d', evs)) :
    drive d (t :: ts) =
      ⟨(drive d' ts).driver, evs ++ (drive d' ts).events, (drive d' ts).error⟩ := by
  simp [drive, h]

theorem drive_cons_error {d : Driver} {t : Token} {k : ErrorKind} (ts : List Token)
    (h : d.step t = .error k) : drive d (t :: ts) = ⟨d, [], some k⟩ := by
  simp [drive, h]

/-- Two runs of the driver without an error, one behind the other. -/
theorem drive_append_ok {d d1 d2 : Driver} {a b : List Token} {e1 e2 : List Event}
    {err : Option ErrorKind}
    (h1 : drive d a = ⟨d1, e1, none⟩) (h2 : drive d1 b = ⟨d2, e2, err⟩) :
    drive d (a ++ b) = ⟨d2, e1 ++ e2, err⟩ := by
  induction a generalizing d e1 with
  | nil =>
    simp only [drive_nil, DriveResult.mk.injEq] at h1
    obtain ⟨rfl, rfl, -⟩ := h1
    simpa using h2
  | cons t ts ih =>
    cases hs : d.step t with
    | error k =>
      rw [drive_cons_error ts hs] at h1
      simp at h1
    | ok p =>
      obtain ⟨d', evs⟩ := p
      rw [drive_cons_ok ts hs] at h1
      simp only [DriveResult.mk.injEq] at h1
      obtain ⟨hd, he, herr⟩ := h1
      have h1' : drive d' ts = ⟨d1, (drive d' ts).events, none⟩ := by
        rw [← hd, ← herr]
      have := ih h1'
      rw [List.cons_append, drive_cons_ok (ts ++ b) hs, this]
      simp [← he]

/-- A run of the driver that meets an error stops there. -/
theorem drive_append_error {d d1 : Driver} {a : List Token} {e1 : List Event} {k : ErrorKind}
    (b : List Token) (h1 : drive d a = ⟨d1, e1, some k⟩) :
    drive d (a ++ b) = ⟨d1, e1, some k⟩ := by
  induction a generalizing d e1 with
  | nil => simp [drive_nil] at h1
  | cons t ts ih =>
    cases hs : d.step t with
    | error k' =>
      rw [drive_cons_error ts hs] at h1
      rw [List.cons_append, drive_cons_error (ts ++ b) hs]
      exact h1
    | ok p =>
      obtain ⟨d', evs⟩ := p
      rw [drive_cons_ok ts hs] at h1
      simp only [DriveResult.mk.injEq] at h1
      obtain ⟨hd, he, herr⟩ := h1
      have h1' : drive d' ts = ⟨d1, (drive d' ts).events, some k⟩ := by
        rw [← hd, ← herr]
      have := ih h1'
      rw [List.cons_append, drive_cons_ok (ts ++ b) hs, this]
      simp [← he]

theorem step_startValue_of_startsValue (σ : List Frame) (e : Expect) (t : Token)
    (he : e.startsValue) (ht : t ≠ .RBRACKET) :
    Driver.step ⟨σ, e⟩ t = Driver.startValue σ t := by
  rcases he with rfl | rfl
  · rfl
  · simp [Driver.step, ht]

/-- The driver reads what the grammar derives. -/
theorem drive_of_derives {p : Part} {ts : List Token} {evs : List Event}
    (h : Derives p ts evs) :
    match p with
    | .value _ => ∀ (σ : List Frame) (e : Expect), e.startsValue →
        drive ⟨σ, e⟩ ts = ⟨⟨σ, .after⟩, evs, none⟩
    | .members ps => ∀ σ : List Frame,
        drive ⟨.obj :: σ, .firstMember⟩ ts =
          ⟨⟨.obj :: σ, if ps.isEmpty then .firstMember else .after⟩, evs, none⟩
    | .elems es => ∀ σ : List Frame,
        drive ⟨.arr :: σ, .firstElement⟩ ts =
          ⟨⟨.arr :: σ, if es.isEmpty then .firstElement else .after⟩, evs, none⟩ := by
  induction h with
  | string s =>
    intro σ e he
    rw [@drive_cons_ok _ ⟨σ, .after⟩ _ [.stringValue s] []
      (by rw [step_startValue_of_startsValue σ e _ he (by simp)]; rfl)]
    simp [drive_nil]
  | number d =>
    intro σ e he
    rw [@drive_cons_ok _ ⟨σ, .after⟩ _ [.numberValue d] []
      (by rw [step_startValue_of_startsValue σ e _ he (by simp)]; rfl)]
    simp [drive_nil]
  | true_ =>
    intro σ e he
    rw [@drive_cons_ok _ ⟨σ, .after⟩ _ [.booleanValue true] []
      (by rw [step_startValue_of_startsValue σ e _ he (by simp)]; rfl)]
    simp [drive_nil]
  | false_ =>
    intro σ e he
    rw [@drive_cons_ok _ ⟨σ, .after⟩ _ [.booleanValue false] []
      (by rw [step_startValue_of_startsValue σ e _ he (by simp)]; rfl)]
    simp [drive_nil]
  | null =>
    intro σ e he
    rw [@drive_cons_ok _ ⟨σ, .after⟩ _ [.nullValue] []
      (by rw [step_startValue_of_startsValue σ e _ he (by simp)]; rfl)]
    simp [drive_nil]
  | @object ps ts evs _ ih =>
    intro σ e he
    have h1 : Driver.step ⟨σ, e⟩ .LBRACE = .ok (⟨.obj :: σ, .firstMember⟩, [.startObject]) := by
      rw [step_startValue_of_startsValue σ e _ he (by simp)]; rfl
    have h2 := ih σ
    have h3 : drive ⟨.obj :: σ, if ps.isEmpty then .firstMember else .after⟩ [.RBRACE] =
        ⟨⟨σ, .after⟩, [.endObject], none⟩ := by
      cases ps <;> simp [drive, Driver.step]
    have h4 := drive_append_ok h2 h3
    rw [List.cons_append, drive_cons_ok _ h1, h4]
    simp
  | @array es ts evs _ ih =>
    intro σ e he
    have h1 : Driver.step ⟨σ, e⟩ .LBRACKET = .ok (⟨.arr :: σ, .firstElement⟩, [.startArray]) := by
      rw [step_startValue_of_startsValue σ e _ he (by simp)]; rfl
    have h2 := ih σ
    have h3 : drive ⟨.arr :: σ, if es.isEmpty then .firstElement else .after⟩ [.RBRACKET] =
        ⟨⟨σ, .after⟩, [.endArray], none⟩ := by
      cases es <;> simp [drive, Driver.step]
    have h4 := drive_append_ok h2 h3
    rw [List.cons_append, drive_cons_ok _ h1, h4]
    simp
  | noMembers => intro σ; simp [drive_nil]
  | @firstMember v vt ve k _ ih =>
    intro σ
    have h1 : Driver.step ⟨.obj :: σ, .firstMember⟩ (.STRING k) =
        .ok (⟨.obj :: σ, .colon⟩, [.key k]) := rfl
    have h2 : Driver.step ⟨.obj :: σ, .colon⟩ .COLON = .ok (⟨.obj :: σ, .value⟩, []) := by
      simp [Driver.step]
    rw [drive_cons_ok _ h1, drive_cons_ok _ h2, ih (.obj :: σ) .value (Or.inl rfl)]
    simp
  | @nextMember ps ts evs v vt ve k _ hne _ ihm ihv =>
    intro σ
    have h0 := ihm σ
    rw [isEmpty_of_ne_nil hne] at h0
    simp only [Bool.false_eq_true, if_false] at h0
    have h1 : Driver.step ⟨.obj :: σ, .after⟩ .COMMA = .ok (⟨.obj :: σ, .key⟩, []) := rfl
    have h2 : Driver.step ⟨.obj :: σ, .key⟩ (.STRING k) =
        .ok (⟨.obj :: σ, .colon⟩, [.key k]) := rfl
    have h3 : Driver.step ⟨.obj :: σ, .colon⟩ .COLON = .ok (⟨.obj :: σ, .value⟩, []) := by
      simp [Driver.step]
    have h4 : drive ⟨.obj :: σ, .after⟩ (.COMMA :: .STRING k :: .COLON :: vt) =
        ⟨⟨.obj :: σ, .after⟩, .key k :: ve, none⟩ := by
      rw [drive_cons_ok _ h1, drive_cons_ok _ h2, drive_cons_ok _ h3,
        ihv (.obj :: σ) .value (Or.inl rfl)]
      simp
    rw [drive_append_ok h0 h4]
    simp
  | noElems => intro σ; simp [drive_nil]
  | @firstElem v vt ve _ ih =>
    intro σ
    rw [ih (.arr :: σ) .firstElement (Or.inr rfl)]
    simp
  | @nextElem es ts evs v vt ve _ hne _ ihm ihv =>
    intro σ
    have h0 := ihm σ
    rw [isEmpty_of_ne_nil hne] at h0
    simp only [Bool.false_eq_true, if_false] at h0
    have h1 : Driver.step ⟨.arr :: σ, .after⟩ .COMMA = .ok (⟨.arr :: σ, .value⟩, []) := rfl
    have h4 : drive ⟨.arr :: σ, .after⟩ (.COMMA :: vt) =
        ⟨⟨.arr :: σ, .after⟩, ve, none⟩ := by
      rw [drive_cons_ok _ h1, ihv (.arr :: σ) .value (Or.inl rfl)]
      simp
    rw [drive_append_ok h0 h4]
    simp

theorem derives_members_nil {p : Part} {ts : List Token} {evs : List Event}
    (h : Derives p ts evs) (hp : p = .members []) : ts = [] ∧ evs = [] := by
  cases h with
  | noMembers => exact ⟨rfl, rfl⟩
  | firstMember k _ => simp at hp
  | nextMember k _ _ _ => simp at hp
  | _ => simp at hp

theorem derives_elems_nil {p : Part} {ts : List Token} {evs : List Event}
    (h : Derives p ts evs) (hp : p = .elems []) : ts = [] ∧ evs = [] := by
  cases h with
  | noElems => exact ⟨rfl, rfl⟩
  | firstElem _ => simp at hp
  | nextElem _ _ _ => simp at hp
  | _ => simp at hp

/-- A pair added behind the members read so far. -/
theorem derives_addMember {ps : List (List Char × JsonObject)} {ts : List Token}
    {evs : List Event} {v : JsonObject} {vt : List Token} {ve : List Event} (k : List Char)
    (hm : Derives (.members ps) ts evs) (hv : Derives (.value v) vt ve) :
    Derives (.members (ps ++ [(k, v)])) (ts ++ sep ps ++ .STRING k :: .COLON :: vt)
      (evs ++ .key k :: ve) := by
  cases ps with
  | nil =>
    obtain ⟨rfl, rfl⟩ := derives_members_nil hm rfl
    simpa [sep] using Derives.firstMember k hv
  | cons x xs =>
    have := Derives.nextMember k hm (by simp) hv
    simpa [sep] using this

/-- An element added behind the elements read so far. -/
theorem derives_addElem {es : List JsonObject} {ts : List Token}
    {evs : List Event} {v : JsonObject} {vt : List Token} {ve : List Event}
    (hm : Derives (.elems es) ts evs) (hv : Derives (.value v) vt ve) :
    Derives (.elems (es ++ [v])) (ts ++ sep es ++ vt) (evs ++ ve) := by
  cases es with
  | nil =>
    obtain ⟨rfl, rfl⟩ := derives_elems_nil hm rfl
    simpa [sep] using Derives.firstElem hv
  | cons x xs =>
    have := Derives.nextElem hm (by simp) hv
    simpa [sep] using this

/-- A complete value read where one was expected. -/
theorem Inv.complete {σ : List Frame} {e : Expect} {p : List Token} {pe : List Event}
    {v : JsonObject} {vt : List Token} {ve : List Event}
    (h : Inv ⟨σ, e⟩ p pe) (he : e.startsValue) (hv : Derives (.value v) vt ve) :
    Inv ⟨σ, .after⟩ (p ++ vt) (pe ++ ve) := by
  cases h with
  | top => simpa using Inv.finished hv
  | finished _ => rcases he with h | h <;> cases h
  | firstMember _ _ => rcases he with h | h <;> cases h
  | key _ _ _ _ => rcases he with h | h <;> cases h
  | colon k _ _ _ => rcases he with h | h <;> cases h
  | afterMember _ _ _ _ => rcases he with h | h <;> cases h
  | afterElement _ _ _ _ => rcases he with h | h <;> cases h
  | memberValue k ho heo hm =>
    have := Inv.afterMember ho heo (derives_addMember k hm hv) (by simp)
    simpa using this
  | firstElement ho heo =>
    have := Inv.afterElement ho heo (Derives.firstElem hv) (by simp)
    simpa using this
  | elementValue ho heo hm hne =>
    have := Inv.afterElement ho heo (Derives.nextElem hm hne hv) (by simp)
    simpa using this

/-- A token that starts a value, taken where a value is expected. -/
theorem Inv.startValue {σ : List Frame} {e : Expect} {p : List Token} {pe : List Event}
    {t : Token} {d' : Driver} {es : List Event}
    (h : Inv ⟨σ, e⟩ p pe) (he : e.startsValue)
    (hs : Driver.startValue σ t = .ok (d', es)) : Inv d' (p ++ [t]) (pe ++ es) := by
  cases t <;> simp only [Driver.startValue, Except.ok.injEq, Prod.mk.injEq, reduceCtorEq] at hs
  · obtain ⟨rfl, rfl⟩ := hs; exact Inv.firstMember h he
  · obtain ⟨rfl, rfl⟩ := hs; exact Inv.firstElement h he
  · obtain ⟨rfl, rfl⟩ := hs; exact h.complete he (Derives.string _)
  · obtain ⟨rfl, rfl⟩ := hs; exact h.complete he (Derives.number _)
  · obtain ⟨rfl, rfl⟩ := hs; exact h.complete he Derives.true_
  · obtain ⟨rfl, rfl⟩ := hs; exact h.complete he Derives.false_
  · obtain ⟨rfl, rfl⟩ := hs; exact h.complete he Derives.null

/-- One step of the driver keeps the invariant. -/
theorem Inv.step {d d' : Driver} {ts : List Token} {evs es : List Event} {t : Token}
    (h : Inv d ts evs) (hs : d.step t = .ok (d', es)) : Inv d' (ts ++ [t]) (evs ++ es) := by
  cases h with
  | top => exact Inv.top.startValue (Or.inl rfl) hs
  | finished _ => simp [Driver.step] at hs
  | firstMember ho heo =>
    cases t <;> simp only [Driver.step, Except.ok.injEq, Prod.mk.injEq, reduceCtorEq] at hs
    · obtain ⟨rfl, rfl⟩ := hs
      have := ho.complete heo (Derives.object Derives.noMembers)
      simpa using this
    · obtain ⟨rfl, rfl⟩ := hs
      rename_i k
      have := Inv.colon k ho heo Derives.noMembers
      simpa [sep] using this
  | key ho heo hm hne =>
    cases t <;> simp only [Driver.step, Except.ok.injEq, Prod.mk.injEq, reduceCtorEq] at hs
    obtain ⟨rfl, rfl⟩ := hs
    rename_i k
    have := Inv.colon k ho heo hm
    simpa [sep, isEmpty_of_ne_nil hne] using this
  | colon k ho heo hm =>
    by_cases ht : t = .COLON
    · subst ht
      simp only [Driver.step, if_true, Except.ok.injEq, Prod.mk.injEq] at hs
      obtain ⟨rfl, rfl⟩ := hs
      have := Inv.memberValue k ho heo hm
      simpa using this
    · simp [Driver.step, ht] at hs
  | memberValue k ho heo hm =>
    exact (Inv.memberValue k ho heo hm).startValue (Or.inl rfl) hs
  | afterMember ho heo hm hne =>
    cases t <;> simp only [Driver.step, Except.ok.injEq, Prod.mk.injEq, reduceCtorEq] at hs
    · obtain ⟨rfl, rfl⟩ := hs
      have := ho.complete heo (Derives.object hm)
      simpa using this
    · obtain ⟨rfl, rfl⟩ := hs
      have := Inv.key ho heo hm hne
      simpa using this
  | firstElement ho heo =>
    by_cases ht : t = .RBRACKET
    · subst ht
      simp only [Driver.step, if_true, Except.ok.injEq, Prod.mk.injEq] at hs
      obtain ⟨rfl, rfl⟩ := hs
      have := ho.complete heo (Derives.array Derives.noElems)
      simpa using this
    · simp only [Driver.step, ht, if_false] at hs
      exact (Inv.firstElement ho heo).startValue (Or.inr rfl) hs
  | elementValue ho heo hm hne =>
    exact (Inv.elementValue ho heo hm hne).startValue (Or.inl rfl) hs
  | afterElement ho heo hm hne =>
    cases t <;> simp only [Driver.step, Except.ok.injEq, Prod.mk.injEq, reduceCtorEq] at hs
    · obtain ⟨rfl, rfl⟩ := hs
      have := ho.complete heo (Derives.array hm)
      simpa using this
    · obtain ⟨rfl, rfl⟩ := hs
      have := Inv.elementValue ho heo hm hne
      simpa using this

/-- A run of the driver without an error keeps the invariant. -/
theorem Inv.drive {d d' : Driver} {ts toks : List Token} {evs es : List Event}
    (h : Inv d ts evs) (hd : drive d toks = ⟨d', es, none⟩) :
    Inv d' (ts ++ toks) (evs ++ es) := by
  induction toks generalizing d ts evs es with
  | nil =>
    simp only [drive_nil, DriveResult.mk.injEq] at hd
    obtain ⟨rfl, rfl, -⟩ := hd
    simpa using h
  | cons t rest ih =>
    cases hs : d.step t with
    | error k =>
      rw [drive_cons_error rest hs] at hd
      simp at hd
    | ok q =>
      obtain ⟨d1, e1⟩ := q
      rw [drive_cons_ok rest hs] at hd
      simp only [DriveResult.mk.injEq] at hd
      obtain ⟨hd1, he1, herr⟩ := hd
      have h1 : csvsqldb.json.drive d1 rest = ⟨d', (csvsqldb.json.drive d1 rest).events, none⟩ := by
        rw [← hd1, ← herr]
      have := ih (h.step hs) h1
      rw [← he1]
      simpa using this

/-- What the driver accepts, the grammar derives. -/
theorem derives_of_drive {toks : List Token} {d : Driver} {es : List Event}
    (hd : drive Driver.init toks = ⟨d, es, none⟩) (ha : d.accepting = true) :
    ∃ v, Derives (.value v) toks es := by
  have h := Inv.top.drive hd
  simp only [List.nil_append] at h
  rcases d with ⟨σ, e⟩
  cases σ with
  | cons f r => simp [Driver.accepting] at ha
  | nil =>
    cases e <;> simp [Driver.accepting] at ha
    cases h with
    | finished hv => exact ⟨_, hv⟩

theorem Reader.feed_of_error (r : Reader) (c : Char) (h : r.error.isSome = true) :
    r.feed c = r := by
  simp [Reader.feed, h]

theorem Reader.feedAll_nil (r : Reader) : r.feedAll [] = r := rfl

theorem Reader.feedAll_cons (r : Reader) (c : Char) (cs : List Char) :
    r.feedAll (c :: cs) = (r.feed c).feedAll cs := rfl

theorem Reader.feedAll_append (r : Reader) (a b : List Char) :
    r.feedAll (a ++ b) = (r.feedAll a).feedAll b := by
  simp [Reader.feedAll, List.foldl_append]

theorem Reader.feedAll_of_error (r : Reader) (cs : List Char) (h : r.error.isSome = true) :
    r.feedAll cs = r := by
  induction cs with
  | nil => rfl
  | cons c cs ih => rw [Reader.feedAll_cons, Reader.feed_of_error r c h, ih]

theorem Reader.finish_of_error (r : Reader) (h : r.error.isSome = true) : r.finish = r := by
  simp [Reader.finish, h]

theorem lexFrom_nil (m : LexMode) :
    lexFrom m [] = (match m.finish with
      | .ok ts => ⟨ts, none⟩
      | .error k => ⟨[], some k⟩) := rfl

theorem lexFrom_cons_error {m : LexMode} {c : Char} {k : ErrorKind} (cs : List Char)
    (h : m.step c = .error k) : lexFrom m (c :: cs) = ⟨[], some k⟩ := by
  simp [lexFrom, h]

theorem lexFrom_cons_ok {m m' : LexMode} {c : Char} {ts : List Token} (cs : List Char)
    (h : m.step c = .ok (m', ts)) :
    lexFrom m (c :: cs) = ⟨ts ++ (lexFrom m' cs).tokens, (lexFrom m' cs).error⟩ := by
  simp [lexFrom, h]

/-- The reader, byte by byte, ends where the tokenizer and the driver, run one
after the other over the whole input, end. -/
theorem Reader.feedAll_finish (cs : List Char) :
    ∀ r : Reader, r.error = none →
      ((r.feedAll cs).finish).events =
          r.events ++ (drive r.driver (lexFrom r.mode cs).tokens).events ∧
        ((r.feedAll cs).finish).error.map JsonException.kind =
          firstError (drive r.driver (lexFrom r.mode cs).tokens) (lexFrom r.mode cs).error := by
  induction cs with
  | nil =>
    intro r hr
    rw [Reader.feedAll_nil, lexFrom_nil]
    cases hf : r.mode.finish with
    | error k => simp [Reader.finish, hr, hf, drive_nil, firstError]
    | ok toks =>
      cases he : (drive r.driver toks).error with
      | none =>
        by_cases ha : (drive r.driver toks).driver.accepting = true <;>
          simp [Reader.finish, hr, hf, firstError, he, ha]
      | some k => simp [Reader.finish, hr, hf, firstError, he]
  | cons c cs ih =>
    intro r hr
    rw [Reader.feedAll_cons]
    cases hs : r.mode.step c with
    | error k =>
      have hfeed : (r.feed c).error.isSome = true := by
        simp [Reader.feed, hr, hs]
      have hev : (r.feed c).events = r.events := by
        simp [Reader.feed, hr, hs]
      have hk : (r.feed c).error.map JsonException.kind = some k := by
        simp only [Reader.feed, hr, hs]
        by_cases hm : r.mode = .start <;> simp [hm]
      rw [Reader.feedAll_of_error _ _ hfeed, Reader.finish_of_error _ hfeed,
        lexFrom_cons_error cs hs, hev, hk]
      simp [drive_nil, firstError]
    | ok q =>
      obtain ⟨m, toks⟩ := q
      rw [lexFrom_cons_ok cs hs]
      have hmode : (r.feed c).mode = m := by simp [Reader.feed, hr, hs]
      have hdrv : (r.feed c).driver = (drive r.driver toks).driver := by
        simp [Reader.feed, hr, hs]
      have hev : (r.feed c).events = r.events ++ (drive r.driver toks).events := by
        simp [Reader.feed, hr, hs]
      have herr : (r.feed c).error.map JsonException.kind = (drive r.driver toks).error := by
        simp only [Reader.feed, hr, hs]
        cases (drive r.driver toks).error <;> simp
        split_ifs <;> rfl
      cases he : (drive r.driver toks).error with
      | some k =>
        have hfeed : (r.feed c).error.isSome = true := by
          rw [he] at herr
          cases hx : (r.feed c).error with
          | none => rw [hx] at herr; simp at herr
          | some _ => rfl
        have hd : drive r.driver toks =
            ⟨(drive r.driver toks).driver, (drive r.driver toks).events, some k⟩ := by
          rw [← he]
        rw [Reader.feedAll_of_error _ _ hfeed, Reader.finish_of_error _ hfeed, hev, herr, he,
          drive_append_error _ hd]
        simp [firstError]
      | none =>
        have hnone : (r.feed c).error = none := by
          rw [he] at herr
          cases hx : (r.feed c).error with
          | none => rfl
          | some _ => rw [hx] at herr; simp at herr
        have hd : drive r.driver toks =
            ⟨(drive r.driver toks).driver, (drive r.driver toks).events, none⟩ := by
          rw [← he]
        have hd2 : drive (drive r.driver toks).driver (lexFrom m cs).tokens =
            ⟨(drive (drive r.driver toks).driver (lexFrom m cs).tokens).driver,
              (drive (drive r.driver toks).driver (lexFrom m cs).tokens).events,
              (drive (drive r.driver toks).driver (lexFrom m cs).tokens).error⟩ := rfl
        have := ih (r.feed c) hnone
        rw [hmode, hdrv, hev] at this
        rw [this.1, this.2, drive_append_ok hd hd2]
        simp [firstError]

/-- The events of a reading are those the driver emits over the tokens of the
text. -/
theorem Reader.run_events (text : List Char) :
    (Reader.run text).events = (drive Driver.init (tokenize text).tokens).events := by
  have := (Reader.feedAll_finish text Reader.init rfl).1
  simpa [Reader.run, Reader.init, tokenize] using this

/-- The kind of error of a reading. -/
theorem Reader.run_error (text : List Char) :
    (Reader.run text).error.map JsonException.kind =
      firstError (drive Driver.init (tokenize text).tokens) (tokenize text).error := by
  have := (Reader.feedAll_finish text Reader.init rfl).2
  simpa [Reader.run, Reader.init, tokenize] using this

/-- A reading succeeds exactly when the text has tokens without a lex error
and the grammar derives a value from them; the events are then those of the
derivation. -/
theorem Reader.run_ok_iff (text : List Char) :
    (Reader.run text).error = none ↔
      (tokenize text).error = none ∧
        ∃ v, Derives (.value v) (tokenize text).tokens (Reader.run text).events := by
  have herr := Reader.run_error text
  have hev := Reader.run_events text
  constructor
  · intro h
    rw [h] at herr
    simp only [Option.map_none', firstError] at herr
    cases hd : (drive Driver.init (tokenize text).tokens).error with
    | some k => rw [hd] at herr; simp at herr
    | none =>
      rw [hd] at herr
      cases hl : (tokenize text).error with
      | some k => rw [hl] at herr; simp at herr
      | none =>
        rw [hl] at herr
        by_cases ha : (drive Driver.init (tokenize text).tokens).driver.accepting = true
        · refine ⟨rfl, ?_⟩
          rw [hev]
          exact derives_of_drive (d := (drive Driver.init (tokenize text).tokens).driver)
            (by rw [← hd]) ha
        · simp [ha] at herr
  · rintro ⟨hl, v, hv⟩
    have hd := drive_of_derives hv [] .value (Or.inl rfl)
    have hd' : drive Driver.init (tokenize text).tokens = ⟨⟨[], .after⟩, _, none⟩ := hd
    rw [hd', hl] at herr
    simp [firstError, Driver.accepting] at herr
    exact herr

theorem isDigit_ne {c : Char} (h : c.isDigit = true) :
    c ≠ '.' ∧ c ≠ 'e' ∧ c ≠ 'E' ∧ c ≠ '+' ∧ c ≠ '-' := by
  refine ⟨?_, ?_, ?_, ?_, ?_⟩ <;> rintro rfl <;> revert h <;> decide

theorem NumState.rest_nil (st : NumState) (h : st.accepting = true) : st.rest [] := by
  cases st <;> simp [NumState.accepting] at h
  · exact ⟨[], [], rfl, Or.inl rfl, Or.inl rfl⟩
  · exact ⟨[], [], [], rfl, by simp, Or.inl rfl, Or.inl rfl⟩
  · exact ⟨[], [], rfl, by simp, Or.inl rfl⟩
  · show ∀ c ∈ ([] : List Char), c.isDigit = true
    simp

theorem NumState.rest_cons {st st' : NumState} {c : Char} {cs : List Char}
    (hs : st.step c = some st') (h : st'.rest cs) : st.rest (c :: cs) := by
  cases st <;> simp only [NumState.step] at hs
  · -- minus
    split_ifs at hs with h0 hd
    · cases hs; subst h0
      obtain ⟨fp, ep, rfl, hf, he⟩ := h
      exact ⟨['0'], fp, ep, rfl, Or.inl rfl, hf, he⟩
    · cases hs
      obtain ⟨ds, fp, ep, rfl, hds, hf, he⟩ := h
      exact ⟨c :: ds, fp, ep, rfl, Or.inr ⟨c, ds, rfl, hd, h0, hds⟩, hf, he⟩
  · -- zero
    split_ifs at hs with h0 he
    · cases hs; subst h0
      obtain ⟨ds, ep, rfl, hds, hep⟩ := h
      exact ⟨'.' :: ds, ep, rfl, Or.inr ⟨ds, rfl, hds⟩, hep⟩
    · cases hs
      obtain ⟨sign, ds, rfl, hsg, hds⟩ := h
      exact ⟨[], c :: sign ++ ds, rfl, Or.inl rfl, Or.inr ⟨c, sign, ds, rfl, he, hsg, hds⟩⟩
  · -- int
    split_ifs at hs with hd h0 he
    · cases hs
      obtain ⟨ds, fp, ep, rfl, hds, hf, hep⟩ := h
      exact ⟨c :: ds, fp, ep, rfl, by simpa [hd] using hds, hf, hep⟩
    · cases hs; subst h0
      obtain ⟨ds, ep, rfl, hds, hep⟩ := h
      exact ⟨[], '.' :: ds, ep, rfl, by simp, Or.inr ⟨ds, rfl, hds⟩, hep⟩
    · cases hs
      obtain ⟨sign, ds, rfl, hsg, hds⟩ := h
      exact ⟨[], [], c :: sign ++ ds, rfl, by simp, Or.inl rfl,
        Or.inr ⟨c, sign, ds, rfl, he, hsg, hds⟩⟩
  · -- dot
    split_ifs at hs with hd
    cases hs
    obtain ⟨ds, ep, rfl, hds, hep⟩ := h
    exact ⟨c :: ds, ep, rfl, ⟨by simp, by simpa [hd] using hds⟩, hep⟩
  · -- frac
    split_ifs at hs with hd he
    · cases hs
      obtain ⟨ds, ep, rfl, hds, hep⟩ := h
      exact ⟨c :: ds, ep, rfl, by simpa [hd] using hds, hep⟩
    · cases hs
      obtain ⟨sign, ds, rfl, hsg, hds⟩ := h
      exact ⟨[], c :: sign ++ ds, rfl, by simp, Or.inr ⟨c, sign, ds, rfl, he, hsg, hds⟩⟩
  · -- e
    split_ifs at hs with hsg hd
    · cases hs
      have hds : IsDigits cs := h
      refine ⟨[c], cs, rfl, ?_, hds⟩
      rcases hsg with rfl | rfl <;> simp
    · cases hs
      have hds : ∀ x ∈ cs, x.isDigit = true := h
      exact ⟨[], c :: cs, rfl, Or.inl rfl, ⟨by simp, by simpa [hd] using hds⟩⟩
  · -- esign
    split_ifs at hs with hd
    cases hs
    have hds : ∀ x ∈ cs, x.isDigit = true := h
    exact ⟨by simp, by simpa [hd] using hds⟩
  · -- exp
    split_ifs at hs with hd
    cases hs
    have hds : ∀ x ∈ cs, x.isDigit = true := h
    show ∀ x ∈ c :: cs, x.isDigit = true
    simpa [hd] using hds

/-- What the number automaton accepts has the shape that is left. -/
theorem NumState.rest_of_run {st st' : NumState} {cs : List Char}
    (h : st.run cs = some st') (ha : st'.accepting = true) : st.rest cs := by
  induction cs generalizing st with
  | nil =>
    simp only [NumState.run, Option.some.injEq] at h
    subst h
    exact NumState.rest_nil _ ha
  | cons c cs ih =>
    simp only [NumState.run] at h
    cases hs : st.step c with
    | none => rw [hs] at h; simp at h
    | some s1 =>
      rw [hs] at h
      exact NumState.rest_cons hs (ih h)

theorem NumState.run_append (st : NumState) (a b : List Char) :
    st.run (a ++ b) = (st.run a).bind (fun s => s.run b) := by
  induction a generalizing st with
  | nil => rfl
  | cons c cs ih =>
    simp only [List.cons_append, NumState.run]
    cases st.step c with
    | none => rfl
    | some s1 => exact ih s1

/-- A run of digits keeps the automaton inside a part made of digits. -/
theorem NumState.run_digits {st : NumState} (hst : st = .int ∨ st = .frac ∨ st = .exp)
    {ds : List Char} (hds : ∀ c ∈ ds, c.isDigit = true) : st.run ds = some st := by
  induction ds with
  | nil => rfl
  | cons c cs ih =>
    have hc : c.isDigit = true := hds c (List.mem_cons_self _ _)
    have hcs : ∀ x ∈ cs, x.isDigit = true := fun x hx => hds x (List.mem_cons_of_mem _ hx)
    have hstep : st.step c = some st := by
      rcases hst with rfl | rfl | rfl <;> simp [NumState.step, hc]
    simp only [NumState.run, hstep]
    exact ih hcs

theorem NumState.run_isDigits {st st' : NumState}
    (hst : st' = .int ∨ st' = .frac ∨ st' = .exp) {ds : List Char} (hds : IsDigits ds)
    (hstep : ∀ c, c.isDigit = true → st.step c = some st') : st.run ds = some st' := by
  obtain ⟨hne, hall⟩ := hds
  cases ds with
  | nil => exact absurd rfl hne
  | cons c cs =>
    simp only [NumState.run, hstep c (hall c (List.mem_cons_self _ _))]
    exact NumState.run_digits hst (fun x hx => hall x (List.mem_cons_of_mem _ hx))

theorem NumState.run_exponent {st : NumState} (hst : st = .zero ∨ st = .int ∨ st = .frac)
    {ep : List Char} (h : ep = [] ∨ IsExponent ep) :
    ∃ s, st.run ep = some s ∧ s.accepting = true := by
  rcases h with rfl | ⟨e, sign, ds, rfl, he, hsg, hds⟩
  · refine ⟨st, rfl, ?_⟩
    rcases hst with rfl | rfl | rfl <;> rfl
  · refine ⟨.exp, ?_, rfl⟩
    have h1 : st.step e = some .e := by
      rcases hst with rfl | rfl | rfl <;> rcases he with rfl | rfl <;>
        simp [NumState.step]
    simp only [NumState.run, h1]
    rcases hsg with rfl | rfl | rfl
    · exact NumState.run_isDigits (Or.inr (Or.inr rfl)) hds (fun c hc => by
        have := isDigit_ne hc
        simp [NumState.step, hc, this.2.2.2.1, this.2.2.2.2])
    · simp only [List.singleton_append, NumState.run, NumState.step]
      simp only [true_or, if_true]
      exact NumState.run_isDigits (Or.inr (Or.inr rfl)) hds (fun c hc => by
        simp [NumState.step, hc])
    · simp only [List.singleton_append, NumState.run, NumState.step]
      simp only [or_true, if_true]
      exact NumState.run_isDigits (Or.inr (Or.inr rfl)) hds (fun c hc => by
        simp [NumState.step, hc])

theorem NumState.run_fraction {st : NumState} (hst : st = .zero ∨ st = .int)
    {fp ep : List Char} (hf : fp = [] ∨ IsFraction fp) (he : ep = [] ∨ IsExponent ep) :
    ∃ s, st.run (fp ++ ep) = some s ∧ s.accepting = true := by
  rcases hf with rfl | ⟨ds, rfl, hds⟩
  · exact NumState.run_exponent (by rcases hst with rfl | rfl <;> simp) he
  · have h1 : st.step '.' = some .dot := by
      rcases hst with rfl | rfl <;> simp [NumState.step]
    rw [List.cons_append]
    simp only [NumState.run, h1]
    rw [NumState.run_append, NumState.run_isDigits (Or.inr (Or.inl rfl)) hds (fun c hc => by
        simp [NumState.step, hc])]
    exact NumState.run_exponent (Or.inr (Or.inr rfl)) he

theorem NumState.run_intPart {ip fp ep : List Char} (hi : IsIntPart ip)
    (hf : fp = [] ∨ IsFraction fp) (he : ep = [] ∨ IsExponent ep) :
    (∃ s, NumState.minus.run (ip ++ fp ++ ep) = some s ∧ s.accepting = true) ∧
      ∃ c cs s, ip ++ fp ++ ep = c :: cs ∧ c ≠ '-' ∧ isWhitespace c = false ∧
        startStep c = .ok (.num (if c = '0' then .zero else .int) [c], []) ∧
        (if c = '0' then NumState.zero else NumState.int).run cs = some s ∧
        s.accepting = true := by
  rcases hi with rfl | ⟨d, ds, rfl, hd, hd0, hds⟩
  · obtain ⟨s, hs, ha⟩ := @NumState.run_fraction .zero (Or.inl rfl) _ _ hf he
    refine ⟨⟨s, ?_, ha⟩, '0', fp ++ ep, s, by simp, by decide, by decide, by decide, ?_, ha⟩
    · simpa [NumState.run, NumState.step] using hs
    · simpa using hs
  · obtain ⟨s, hs, ha⟩ := @NumState.run_fraction .int (Or.inr rfl) _ _ hf he
    have hrun : NumState.int.run (ds ++ (fp ++ ep)) = some s := by
      rw [NumState.run_append, NumState.run_digits (Or.inl rfl) hds]
      exact hs
    have hne := isDigit_ne hd
    have hws : isWhitespace d = false := by
      revert hd; simp only [isWhitespace]; intro hd
      have : d ≠ ' ' ∧ d ≠ '\t' ∧ d ≠ '\r' ∧ d ≠ '\n' := by
        refine ⟨?_, ?_, ?_, ?_⟩ <;> rintro rfl <;> revert hd <;> decide
      simp [this]
    have hbr : d ≠ '\x7b' ∧ d ≠ '\x7d' ∧ d ≠ '[' ∧ d ≠ ']' ∧ d ≠ ':' ∧ d ≠ ',' ∧ d ≠ '"' := by
      refine ⟨?_, ?_, ?_, ?_, ?_, ?_, ?_⟩ <;> rintro rfl <;> revert hd <;> decide
    refine ⟨⟨s, ?_, ha⟩, d, ds ++ (fp ++ ep), s, by simp, hne.2.2.2.2, hws, ?_, ?_, ha⟩
    · rw [List.cons_append, List.cons_append, List.append_assoc]
      simp only [NumState.run, NumState.step, hd0, if_false, hd, if_true]
      exact hrun
    · simp [startStep, hws, hbr, hne.2.2.2.2, hd0, hd]
    · simpa [hd0] using hrun

/-- The outcomes of the first byte of a token. -/
theorem startStep_cases (c : Char) :
    (c = '-' ∧ startStep c = .ok (.num .minus [c], [])) ∨
    (c = '0' ∧ startStep c = .ok (.num .zero [c], [])) ∨
    (c.isDigit = true ∧ c ≠ '0' ∧ startStep c = .ok (.num .int [c], [])) ∨
    (∀ m ts, startStep c = .ok (m, ts) → m.lexemeLength = 0) := by
  unfold startStep
  by_cases h0 : isWhitespace c = true
  · rw [if_pos h0]; exact Or.inr (Or.inr (Or.inr (fun m ts h => by cases h; rfl)))
  rw [if_neg h0]
  by_cases h1 : c = '\x7b'
  · rw [if_pos h1]; exact Or.inr (Or.inr (Or.inr (fun m ts h => by cases h; rfl)))
  rw [if_neg h1]
  by_cases h2 : c = '\x7d'
  · rw [if_pos h2]; exact Or.inr (Or.inr (Or.inr (fun m ts h => by cases h; rfl)))
  rw [if_neg h2]
  by_cases h3 : c = '['
  · rw [if_pos h3]; exact Or.inr (Or.inr (Or.inr (fun m ts h => by cases h; rfl)))
  rw [if_neg h3]
  by_cases h4 : c = ']'
  · rw [if_pos h4]; exact Or.inr (Or.inr (Or.inr (fun m ts h => by cases h; rfl)))
  rw [if_neg h4]
  by_cases h5 : c = ':'
  · rw [if_pos h5]; exact Or.inr (Or.inr (Or.inr (fun m ts h => by cases h; rfl)))
  rw [if_neg h5]
  by_cases h6 : c = ','
  · rw [if_pos h6]; exact Or.inr (Or.inr (Or.inr (fun m ts h => by cases h; rfl)))
  rw [if_neg h6]
  by_cases h7 : c = '"'
  · rw [if_pos h7]; exact Or.inr (Or.inr (Or.inr (fun m ts h => by cases h; rfl)))
  rw [if_neg h7]
  by_cases h8 : c = '-'
  · rw [if_pos h8]; exact Or.inl ⟨h8, rfl⟩
  rw [if_neg h8]
  by_cases h9 : c = '0'
  · rw [if_pos h9]; exact Or.inr (Or.inl ⟨h9, rfl⟩)
  rw [if_neg h9]
  by_cases h10 : c.isDigit = true
  · rw [if_pos h10]; exact Or.inr (Or.inr (Or.inl ⟨h10, h9, rfl⟩))
  rw [if_neg h10]
  by_cases h11 : c = 't'
  · rw [if_pos h11]; exact Or.inr (Or.inr (Or.inr (fun m ts h => by cases h; rfl)))
  rw [if_neg h11]
  by_cases h12 : c = 'f'
  · rw [if_pos h12]; exact Or.inr (Or.inr (Or.inr (fun m ts h => by cases h; rfl)))
  rw [if_neg h12]
  by_cases h13 : c = 'n'
  · rw [if_pos h13]; exact Or.inr (Or.inr (Or.inr (fun m ts h => by cases h; rfl)))
  rw [if_neg h13]
  exact Or.inr (Or.inr (Or.inr (fun m ts h => by cases h)))

theorem startStep_lexemeLength {c : Char} {m : LexMode} {ts : List Token}
    (h : startStep c = .ok (m, ts)) : m.lexemeLength ≤ 1 := by
  rcases startStep_cases c with ⟨-, h1⟩ | ⟨-, h1⟩ | ⟨-, -, h1⟩ | h1
  · rw [h1] at h; cases h; exact Nat.le_refl _
  · rw [h1] at h; cases h; exact Nat.le_refl _
  · rw [h1] at h; cases h; exact Nat.le_refl _
  · rw [h1 m ts h]; exact Nat.zero_le _
theorem LexMode.step_lexemeLength {m m' : LexMode} {c : Char} {ts : List Token}
    (h : m.step c = .ok (m', ts)) : m'.lexemeLength ≤ m.lexemeLength + 1 := by
  cases m with
  | start => exact le_trans (startStep_lexemeLength h) (by simp)
  | str acc =>
    simp only [LexMode.step] at h
    split_ifs at h <;> cases h <;> simp [LexMode.lexemeLength]
  | esc acc =>
    simp only [LexMode.step] at h
    split_ifs at h
    · cases h; simp [LexMode.lexemeLength]
    · split at h <;> cases h
      simp [LexMode.lexemeLength]
  | uni acc hex =>
    simp only [LexMode.step] at h
    split_ifs at h <;> cases h <;> simp [LexMode.lexemeLength]
  | num st lexeme =>
    simp only [LexMode.step] at h
    split at h
    · cases h; simp [LexMode.lexemeLength]
    · split_ifs at h
      split at h
      · rename_i m1 ts1 hs
        cases h
        exact le_trans (startStep_lexemeLength hs) (by simp)
      · cases h
  | kw rest tok =>
    simp only [LexMode.step] at h
    split at h
    · cases h
    · split_ifs at h <;> cases h <;> simp [LexMode.lexemeLength]

theorem LexMode.run_nil (m : LexMode) : LexMode.run m [] = .ok (m, []) := rfl

theorem LexMode.run_cons_ok {m m1 m2 : LexMode} {c : Char} {ts ts' : List Token}
    {cs : List Char} (h : m.step c = .ok (m1, ts)) (hr : LexMode.run m1 cs = .ok (m2, ts')) :
    LexMode.run m (c :: cs) = .ok (m2, ts ++ ts') := by
  simp only [LexMode.run, h, hr]

theorem LexMode.run_cons_error {m : LexMode} {c : Char} {k : ErrorKind}
    (h : m.step c = .error k) (cs : List Char) : LexMode.run m (c :: cs) = .error k := by
  simp only [LexMode.run, h]

theorem LexMode.run_cons_inv {m m2 : LexMode} {c : Char} {cs : List Char} {ts2 : List Token}
    (h : LexMode.run m (c :: cs) = .ok (m2, ts2)) :
    ∃ m1 ts ts', m.step c = .ok (m1, ts) ∧ LexMode.run m1 cs = .ok (m2, ts') ∧
      ts2 = ts ++ ts' := by
  cases hs : m.step c with
  | error k => rw [LexMode.run_cons_error hs] at h; cases h
  | ok p =>
    obtain ⟨m1, ts⟩ := p
    cases hr : LexMode.run m1 cs with
    | error k =>
      have h' := h
      simp only [LexMode.run, hs, hr] at h'
      cases h'
    | ok q =>
      obtain ⟨m3, ts'⟩ := q
      rw [LexMode.run_cons_ok hs hr] at h
      cases h
      exact ⟨m1, ts, ts', rfl, hr, rfl⟩

theorem LexMode.run_lexemeLength {m m' : LexMode} {cs : List Char} {ts : List Token}
    (h : LexMode.run m cs = .ok (m', ts)) : m'.lexemeLength ≤ m.lexemeLength + cs.length := by
  induction cs generalizing m ts with
  | nil => cases h; simp
  | cons c cs ih =>
    obtain ⟨m1, ts1, ts', hs, hr, -⟩ := LexMode.run_cons_inv h
    have h1 := LexMode.step_lexemeLength hs
    have h2 := ih hr
    simp only [List.length_cons]
    omega

/-- Inside a number, the tokenizer stays inside it without completing a token
exactly as long as the number automaton moves. -/
theorem LexMode.run_num_iff (st st' : NumState) (lexeme lexeme' cs : List Char) :
    LexMode.run (.num st lexeme) cs = .ok (.num st' lexeme', []) ↔
      st.run cs = some st' ∧ lexeme' = lexeme ++ cs := by
  induction cs generalizing st lexeme with
  | nil =>
    simp only [LexMode.run, NumState.run, List.append_nil]
    constructor
    · intro h; cases h; exact ⟨rfl, rfl⟩
    · rintro ⟨h1, h2⟩; cases h1; subst h2; rfl
  | cons c cs ih =>
    cases hs : st.step c with
    | some s1 =>
      have hstep : (LexMode.num st lexeme).step c = .ok (.num s1 (lexeme ++ [c]), []) := by
        simp only [LexMode.step, hs]
      have hih := ih s1 (lexeme ++ [c])
      rw [List.append_assoc, List.singleton_append] at hih
      simp only [NumState.run, hs]
      rw [← hih]
      constructor
      · intro h
        obtain ⟨m1, ts1, ts', hs1, hr, hts⟩ := LexMode.run_cons_inv h
        rw [hstep] at hs1
        cases hs1
        cases ts' with
        | nil => exact hr
        | cons _ _ => simp at hts
      · intro h
        exact LexMode.run_cons_ok hstep h
    | none =>
      simp only [NumState.run, hs]
      constructor
      · intro h
        obtain ⟨m1, ts1, ts', hstep, -, hts⟩ := LexMode.run_cons_inv h
        simp only [LexMode.step, hs] at hstep
        split_ifs at hstep
        split at hstep
        · cases hstep; simp at hts
        · cases hstep
      · rintro ⟨h, -⟩
        cases h

theorem lexFrom_run {m m' : LexMode} {a : List Char} {toks : List Token}
    (h : LexMode.run m a = .ok (m', toks)) (b : List Char) :
    lexFrom m (a ++ b) = ⟨toks ++ (lexFrom m' b).tokens, (lexFrom m' b).error⟩ := by
  induction a generalizing m toks with
  | nil => cases h; rfl
  | cons c cs ih =>
    obtain ⟨m1, ts1, ts', hs, hr, rfl⟩ := LexMode.run_cons_inv h
    rw [List.cons_append, lexFrom_cons_ok _ hs, ih hr]
    simp

theorem LexMode.run_append_ok {m m' m'' : LexMode} {a b : List Char} {ta tb : List Token}
    (ha : LexMode.run m a = .ok (m', ta)) (hb : LexMode.run m' b = .ok (m'', tb)) :
    LexMode.run m (a ++ b) = .ok (m'', ta ++ tb) := by
  induction a generalizing m ta with
  | nil => cases ha; simpa using hb
  | cons c cs ih =>
    obtain ⟨m1, ts1, ts', hs, hr, rfl⟩ := LexMode.run_cons_inv ha
    rw [List.cons_append, LexMode.run_cons_ok hs (ih hr), List.append_assoc]

/-- The tokenizer, started between two tokens, is inside one number made of
all of `w` and may end it there, exactly when `w` has the shape of a number. -/
theorem number_iff (w : List Char) :
    (∃ st, LexMode.run .start w = .ok (.num st w, []) ∧ st.accepting = true) ↔ IsNumber w := by
  constructor
  · rintro ⟨st, hrun, hacc⟩
    cases w with
    | nil => cases hrun
    | cons c cs =>
      obtain ⟨m1, ts1, ts', hs, hr, hts⟩ := LexMode.run_cons_inv hrun
      have hlen := LexMode.run_lexemeLength hr
      have hlen' : cs.length + 1 ≤ m1.lexemeLength + cs.length := hlen
      have hts1 : ts1 = [] := by
        cases ts1 with
        | nil => rfl
        | cons _ _ => simp at hts
      have hts' : ts' = [] := by
        cases ts' with
        | nil => rfl
        | cons _ _ => simp at hts
      subst hts1 hts'
      have hs' : startStep c = .ok (m1, []) := hs
      rcases startStep_cases c with ⟨hc, h1⟩ | ⟨hc, h1⟩ | ⟨hd, hc, h1⟩ | h1
      · -- minus
        rw [h1] at hs'; cases hs'
        obtain ⟨hnr, -⟩ := (LexMode.run_num_iff _ _ _ _ _).1 hr
        obtain ⟨ip, fp, ep, rfl, hi, hf, he⟩ := NumState.rest_of_run hnr hacc
        exact ⟨[c], ip, fp, ep, by simp, Or.inr (by rw [hc]), hi, hf, he⟩
      · -- zero
        rw [h1] at hs'; cases hs'
        obtain ⟨hnr, -⟩ := (LexMode.run_num_iff _ _ _ _ _).1 hr
        obtain ⟨fp, ep, rfl, hf, he⟩ := NumState.rest_of_run hnr hacc
        exact ⟨[], [c], fp, ep, by simp, Or.inl rfl, Or.inl (by rw [hc]), hf, he⟩
      · -- int
        rw [h1] at hs'; cases hs'
        obtain ⟨hnr, -⟩ := (LexMode.run_num_iff _ _ _ _ _).1 hr
        obtain ⟨ds, fp, ep, rfl, hds, hf, he⟩ := NumState.rest_of_run hnr hacc
        exact ⟨[], c :: ds, fp, ep, by simp, Or.inl rfl, Or.inr ⟨c, ds, rfl, hd, hc, hds⟩,
          hf, he⟩
      · have h0 := h1 m1 [] hs'
        rw [h0] at hlen'
        omega
  · rintro ⟨sign, ip, fp, ep, rfl, hsg, hi, hf, he⟩
    obtain ⟨⟨s, hs, ha⟩, c, cs, s', hw, hc, hws, hstart, hrun, ha'⟩ :=
      NumState.run_intPart hi hf he
    rcases hsg with rfl | rfl
    · refine ⟨s', ?_, ha'⟩
      have hstep : LexMode.start.step c = .ok (.num (if c = '0' then .zero else .int) [c], []) :=
        hstart
      simp only [List.nil_append]
      rw [hw]
      exact LexMode.run_cons_ok hstep
        ((LexMode.run_num_iff _ s' [c] ([c] ++ cs) cs).2 ⟨hrun, rfl⟩)
    · refine ⟨s, ?_, ha⟩
      have hstep : LexMode.start.step '-' = .ok (.num .minus ['-'], []) := by decide
      rw [List.append_assoc, List.append_assoc, List.singleton_append]
      exact LexMode.run_cons_ok hstep
        ((LexMode.run_num_iff _ s ['-'] (['-'] ++ (ip ++ (fp ++ ep))) _).2
          ⟨by rw [← List.append_assoc]; exact hs, rfl⟩)

/-- A text with the shape of a number is one number token. -/
theorem tokenize_number {w : List Char} (h : IsNumber w) :
    tokenize w = ⟨[.NUMBER (numberOfLexeme w)], none⟩ := by
  obtain ⟨st, hrun, hacc⟩ := (number_iff w).2 h
  have := lexFrom_run hrun []
  rw [List.append_nil] at this
  rw [tokenize, this]
  simp [lexFrom, LexMode.finish, hacc]

/-- A lex error makes the reading fail. -/
theorem Reader.run_error_of_lex {text : List Char} {k : ErrorKind}
    (h : (tokenize text).error = some k) : (Reader.run text).error.isNone = false := by
  have := Reader.run_error text
  rw [h] at this
  cases he : (Reader.run text).error with
  | some e => rfl
  | none =>
    rw [he] at this
    simp only [Option.map_none', firstError] at this
    cases hd : (drive Driver.init (tokenize text).tokens).error with
    | some k' => rw [hd] at this; cases this
    | none => rw [hd] at this; cases this

/-- After an optional minus sign and an integer part the tokenizer is inside a
number, at the end of its integer part. -/
theorem LexMode.run_sign_intPart {sign ip : List Char} (hsg : sign = [] ∨ sign = ['-'])
    (hi : IsIntPart ip) :
    ∃ s, (s = NumState.zero ∨ s = NumState.int) ∧
      LexMode.run .start (sign ++ ip) = .ok (.num s (sign ++ ip), []) := by
  have hminus : ∃ s, (s = NumState.zero ∨ s = NumState.int) ∧ NumState.minus.run ip = some s := by
    rcases hi with rfl | ⟨d, ds, rfl, hd, hd0, hds⟩
    · exact ⟨.zero, Or.inl rfl, rfl⟩
    · refine ⟨.int, Or.inr rfl, ?_⟩
      simp only [NumState.run, NumState.step, hd0, if_false, hd, if_true]
      exact NumState.run_digits (Or.inl rfl) hds
  rcases hsg with rfl | rfl
  · rcases hi with rfl | ⟨d, ds, rfl, hd, hd0, hds⟩
    · exact ⟨.zero, Or.inl rfl, by decide⟩
    · refine ⟨.int, Or.inr rfl, ?_⟩
      have hstart : startStep d = .ok (.num .int [d], []) := by
        rcases startStep_cases d with ⟨hc, -⟩ | ⟨hc, -⟩ | ⟨-, -, h1⟩ | h1
        · exact absurd hc (isDigit_ne hd).2.2.2.2
        · exact absurd hc hd0
        · exact h1
        · exfalso
          obtain ⟨-, c, cs, s', hw, -, -, hst, -, -⟩ :=
            @NumState.run_intPart (d :: ds) [] []
              (Or.inr ⟨d, ds, rfl, hd, hd0, hds⟩) (Or.inl rfl) (Or.inl rfl)
          simp only [List.append_nil, List.cons.injEq] at hw
          obtain ⟨rfl, rfl⟩ := hw
          have := h1 _ _ hst
          simp [LexMode.lexemeLength] at this
      exact LexMode.run_cons_ok (m := .start) hstart
        ((LexMode.run_num_iff _ .int [d] ([d] ++ ds) ds).2
          ⟨NumState.run_digits (Or.inl rfl) hds, rfl⟩)
  · obtain ⟨s, hs, hrun⟩ := hminus
    refine ⟨s, hs, ?_⟩
    have hstep : LexMode.start.step '-' = .ok (.num .minus ['-'], []) := by decide
    exact LexMode.run_cons_ok hstep ((LexMode.run_num_iff _ s ['-'] (['-'] ++ ip) ip).2 ⟨hrun, rfl⟩)

/-- A multi-digit integer part with a leading zero is a lex error, wherever a
token may start. -/
theorem tokenize_leading_zero {pre sign rest : List Char} {toks : List Token} {d : Char}
    (hpre : LexMode.run .start pre = .ok (.start, toks)) (hsg : sign = [] ∨ sign = ['-'])
    (hd : d.isDigit = true) :
    (tokenize (pre ++ (sign ++ '0' :: d :: rest))).error = some .LexError := by
  obtain ⟨s, -, hrun⟩ := LexMode.run_sign_intPart hsg (Or.inl rfl)
  have hs : s = .zero := by
    rcases hsg with rfl | rfl
    · have : LexMode.run .start ([] ++ ['0']) = .ok (.num .zero ['0'], []) := by decide
      rw [this] at hrun; cases hrun; rfl
    · have : LexMode.run .start (['-'] ++ ['0']) = .ok (.num .zero ['-', '0'], []) := by decide
      rw [this] at hrun; cases hrun; rfl
  subst hs
  have hall := LexMode.run_append_ok hpre hrun
  have hne := isDigit_ne hd
  have hstep : (LexMode.num .zero (sign ++ ['0'])).step d = .error .LexError := by
    simp [LexMode.step, NumState.step, hne.1, hne.2.1, hne.2.2.1, hd]
  have h := lexFrom_run hall (d :: rest)
  rw [lexFrom_cons_error _ hstep] at h
  have e : pre ++ (sign ++ '0' :: d :: rest) = pre ++ (sign ++ ['0']) ++ d :: rest := by simp
  rw [tokenize, e, h]

/-- A dot that no digit follows is a lex error, wherever a token may start. -/
theorem tokenize_dangling_dot {pre sign ip rest : List Char} {toks : List Token}
    (hpre : LexMode.run .start pre = .ok (.start, toks)) (hsg : sign = [] ∨ sign = ['-'])
    (hi : IsIntPart ip) (hrest : rest = [] ∨ ∃ c r, rest = c :: r ∧ c.isDigit = false) :
    (tokenize (pre ++ (sign ++ ip ++ '.' :: rest))).error = some .LexError := by
  obtain ⟨s, hs, hrun⟩ := LexMode.run_sign_intPart hsg hi
  have hdot : (LexMode.num s (sign ++ ip)).step '.' = .ok (.num .dot (sign ++ ip ++ ['.']), []) := by
    rcases hs with rfl | rfl <;> simp [LexMode.step, NumState.step]
  have hrun2 : LexMode.run (.num s (sign ++ ip)) ['.'] = .ok (.num .dot (sign ++ ip ++ ['.']), []) :=
    LexMode.run_cons_ok hdot (LexMode.run_nil _)
  have hall := LexMode.run_append_ok (LexMode.run_append_ok hpre hrun) hrun2
  have h := lexFrom_run hall rest
  have e : pre ++ (sign ++ ip ++ '.' :: rest) = pre ++ (sign ++ ip) ++ ['.'] ++ rest := by simp
  rw [tokenize, e, h]
  rcases hrest with rfl | ⟨c, r, rfl, hc⟩
  · rfl
  · have hstep : (LexMode.num .dot (sign ++ ip ++ ['.'])).step c = .error .LexError := by
      simp [LexMode.step, NumState.step, hc, NumState.accepting]
    rw [lexFrom_cons_error _ hstep]

/-! ### Balance and order of the events -/

theorem Nesting.run_append_bind (n : Nesting) (a b : List Event) :
    Nesting.run n (a ++ b) = (Nesting.run n a).bind (fun n' => Nesting.run n' b) := by
  induction a generalizing n with
  | nil => rfl
  | cons e es ih =>
    simp only [List.cons_append, Nesting.run]
    cases n.step e with
    | none => rfl
    | some n' => exact ih n'

/-- The events of a value take the balance check over one value; those of the
members of an object, or of the elements of an array, leave it where it was
inside that container. -/
theorem Nesting.run_of_derives {p : Part} {ts : List Token} {evs : List Event}
    (h : Derives p ts evs) :
    match p with
    | .value _ => ∀ n : Nesting, n.takesValue = true → Nesting.run n evs = some n.afterValue
    | .members _ => ∀ (σ : List Open) (done : Bool),
        Nesting.run ⟨.obj false :: σ, done⟩ evs = some ⟨.obj false :: σ, done⟩
    | .elems _ => ∀ (σ : List Open) (done : Bool),
        Nesting.run ⟨.arr :: σ, done⟩ evs = some ⟨.arr :: σ, done⟩ := by
  induction h with
  | string s => intro n hn; simp [Nesting.run, Nesting.step, hn]
  | number d => intro n hn; simp [Nesting.run, Nesting.step, hn]
  | true_ => intro n hn; simp [Nesting.run, Nesting.step, hn]
  | false_ => intro n hn; simp [Nesting.run, Nesting.step, hn]
  | null => intro n hn; simp [Nesting.run, Nesting.step, hn]
  | object _ ih =>
    intro n hn
    rw [List.cons_append]
    simp only [Nesting.run, Nesting.step, hn, if_true]
    rw [Nesting.run_append_bind, ih n.stack n.done]
    simp [Nesting.run, Nesting.step]
  | array _ ih =>
    intro n hn
    rw [List.cons_append]
    simp only [Nesting.run, Nesting.step, hn, if_true]
    rw [Nesting.run_append_bind, ih n.stack n.done]
    simp [Nesting.run, Nesting.step]
  | noMembers => intro σ done; rfl
  | firstMember k _ ih =>
    intro σ done
    simp only [Nesting.run, Nesting.step]
    rw [ih ⟨.obj true :: σ, done⟩ rfl]
    rfl
  | nextMember k _ _ _ ihm ihv =>
    intro σ done
    rw [Nesting.run_append_bind, ihm σ done]
    simp only [Option.bind, Nesting.run, Nesting.step]
    rw [ihv ⟨.obj true :: σ, done⟩ rfl]
    rfl
  | noElems => intro σ done; rfl
  | firstElem _ ih =>
    intro σ done
    exact ih ⟨.arr :: σ, done⟩ rfl
  | nextElem _ _ _ ihe ihv =>
    intro σ done
    rw [Nesting.run_append_bind, ihe σ done]
    exact ihv ⟨.arr :: σ, done⟩ rfl

/-- The events of a document are well balanced. -/
theorem wellBalanced_of_derives {v : JsonObject} {ts : List Token} {evs : List Event}
    (h : Derives (.value v) ts evs) : wellBalanced evs = true := by
  have := Nesting.run_of_derives h ⟨[], false⟩ rfl
  simp [wellBalanced, this, Nesting.afterValue]

/-- The events come in the order of the tokens they come from. -/
theorem tokens_of_derives {p : Part} {ts : List Token} {evs : List Event}
    (h : Derives p ts evs) :
    evs.map Event.token = ts.filter (fun t => !t.isSeparator) := by
  induction h with
  | string s => rfl
  | number d => rfl
  | true_ => rfl
  | false_ => rfl
  | null => rfl
  | object _ ih => simp [Event.token, Token.isSeparator, List.filter_cons, ih]
  | array _ ih => simp [Event.token, Token.isSeparator, List.filter_cons, ih]
  | noMembers => rfl
  | firstMember k _ ih => simp [Event.token, Token.isSeparator, List.filter_cons, ih]
  | nextMember k _ _ _ ihm ihv =>
    simp [Event.token, Token.isSeparator, List.filter_cons, ihm, ihv]
  | noElems => rfl
  | firstElem _ ih => exact ih
  | nextElem _ _ _ ihe ihv => simp [Token.isSeparator, List.filter_cons, ihe, ihv]

/-! ### The object builder -/

/-- The events of a value make the builder attach the node of that value; the
events of members write the pairs, in order, into the open object; the events
of elements append the elements to the open array. -/
theorem build_of_derives {p : Part} {ts : List Token} {evs : List Event}
    (h : Derives p ts evs) :
    match p with
    | .value v => ∀ b : JsonObjectCallback,
        evs.foldl (fun s e => JsonObjectCallback.handle e s) b = b.attach v
    | .members ps => ∀ (ms : List (List Char × JsonObject)) (rest : List Container)
        (root : Option JsonObject),
        evs.foldl (fun s e => JsonObjectCallback.handle e s) ⟨.object ms none :: rest, root⟩ =
          ⟨.object (ps.foldl (fun ms p => insertMember p.1 p.2 ms) ms) none :: rest, root⟩
    | .elems es => ∀ (es0 : List JsonObject) (rest : List Container) (root : Option JsonObject),
        evs.foldl (fun s e => JsonObjectCallback.handle e s) ⟨.array es0 :: rest, root⟩ =
          ⟨.array (es0 ++ es) :: rest, root⟩ := by
  induction h with
  | string s => intro b; rfl
  | number d => intro b; rfl
  | true_ => intro b; rfl
  | false_ => intro b; rfl
  | null => intro b; rfl
  | object _ ih =>
    intro b
    rw [List.cons_append, List.foldl_cons, List.foldl_append]
    have h1 : JsonObjectCallback.handle .startObject b = ⟨.object [] none :: b.stack, b.root⟩ :=
      rfl
    rw [h1, ih [] b.stack b.root]
    rfl
  | array _ ih =>
    intro b
    rw [List.cons_append, List.foldl_cons, List.foldl_append]
    have h1 : JsonObjectCallback.handle .startArray b = ⟨.array [] :: b.stack, b.root⟩ := rfl
    rw [h1, ih [] b.stack b.root]
    rfl
  | noMembers => intro ms rest root; rfl
  | firstMember k _ ih =>
    intro ms rest root
    rw [List.foldl_cons]
    have h1 : JsonObjectCallback.handle (.key k) ⟨.object ms none :: rest, root⟩ =
        ⟨.object ms (some k) :: rest, root⟩ := rfl
    rw [h1, ih]
    rfl
  | nextMember k _ _ _ ihm ihv =>
    intro ms rest root
    rw [List.foldl_append, ihm ms rest root, List.foldl_cons]
    have h1 : ∀ ms', JsonObjectCallback.handle (.key k) ⟨.object ms' none :: rest, root⟩ =
        ⟨.object ms' (some k) :: rest, root⟩ := fun _ => rfl
    rw [h1, ihv, List.foldl_append]
    rfl
  | noElems => intro es0 rest root; simp
  | firstElem _ ih =>
    intro es0 rest root
    rw [ih]
    rfl
  | nextElem _ _ _ ihe ihv =>
    intro es0 rest root
    rw [List.foldl_append, ihe es0 rest root, ihv, ← List.append_assoc]
    rfl

/-- The builder run over the events of a document holds the node of the
document as its root. -/
theorem getObject_of_derives {v : JsonObject} {ts : List Token} {evs : List Event}
    (h : Derives (.value v) ts evs) :
    (JsonObjectCallback.new.deliver evs).state.getObject = some v := by
  have := build_of_derives h JsonObjectCallback.init
  simp only [Callback.deliver, JsonObjectCallback.new]
  rw [this]
  rfl

/-! ### Navigation -/

theorem find_insertMember (k k' : List Char) (v : JsonObject)
    (ms : List (List Char × JsonObject)) :
    (insertMember k v ms).find? (fun p => p.1 = k') =
      if k = k' then some (k, v) else ms.find? (fun p => p.1 = k') := by
  induction ms with
  | nil =>
    by_cases h : k = k'
    · rw [if_pos h, insertMember, List.find?_cons_of_pos _ (by simpa using h)]
    · rw [if_neg h, insertMember, List.find?_cons_of_neg _ (by simpa using h)]
  | cons q rest ih =>
    obtain ⟨kq, vq⟩ := q
    by_cases hq : kq = k
    · subst hq
      rw [insertMember, if_pos rfl]
      by_cases h : kq = k'
      · rw [if_pos h, List.find?_cons_of_pos _ (by simpa using h)]
      · rw [if_neg h, List.find?_cons_of_neg _ (by simpa using h),
          List.find?_cons_of_neg _ (by simpa using h)]
    · rw [insertMember, if_neg hq]
      by_cases h' : kq = k'
      · have hk : ¬ k = k' := fun e => hq (h'.trans e.symm)
        rw [if_neg hk, List.find?_cons_of_pos _ (by simpa using h'),
          List.find?_cons_of_pos _ (by simpa using h')]
      · rw [List.find?_cons_of_neg _ (by simpa using h'), ih,
          List.find?_cons_of_neg _ (by simpa using h')]

/-- Looking a key up in an object gives the value of the last pair written
under that key. -/
theorem find_foldl_insertMember (k : List Char) (ps ms : List (List Char × JsonObject)) :
    (ps.foldl (fun ms p => insertMember p.1 p.2 ms) ms).find? (fun p => p.1 = k) =
      match ps.reverse.find? (fun p => p.1 = k) with
      | some p => some p
      | none => ms.find? (fun p => p.1 = k) := by
  induction ps generalizing ms with
  | nil => rfl
  | cons q rest ih =>
    obtain ⟨kq, vq⟩ := q
    rw [List.foldl_cons, ih, List.reverse_cons, List.find?_append, find_insertMember]
    cases hr : rest.reverse.find? (fun p => p.1 = k) with
    | some p => rfl
    | none =>
      by_cases h : kq = k
      · subst h
        simp
      · simp [h]

theorem find_fromPairs (k : List Char) (ps : List (List Char × JsonObject)) :
    (fromPairs ps).find? (fun p => p.1 = k) = ps.reverse.find? (fun p => p.1 = k) := by
  rw [fromPairs, find_foldl_insertMember]
  cases ps.reverse.find? (fun p => p.1 = k) <;> rfl

theorem map_fst_insertMember (k : List Char) (v : JsonObject)
    (ms : List (List Char × JsonObject)) :
    (insertMember k v ms).map Prod.fst =
      if k ∈ ms.map Prod.fst then ms.map Prod.fst else ms.map Prod.fst ++ [k] := by
  induction ms with
  | nil => rfl
  | cons q rest ih =>
    obtain ⟨kq, vq⟩ := q
    by_cases hq : kq = k
    · subst hq
      rw [insertMember, if_pos rfl, List.map_cons, List.map_cons,
        if_pos (List.mem_cons_self _ _)]
    · have hq' : ¬ k = kq := fun h => hq h.symm
      rw [insertMember, if_neg hq, List.map_cons, List.map_cons, ih]
      by_cases hm : k ∈ rest.map Prod.fst
      · rw [if_pos hm, if_pos (List.mem_cons_of_mem _ hm)]
      · have hm' : ¬ k ∈ kq :: rest.map Prod.fst := by
          intro h
          rcases List.mem_cons.1 h with h | h
          · exact hq' h
          · exact hm h
        rw [if_neg hm, if_neg hm', List.cons_append]

theorem map_fst_foldl_insertMember (ps ms : List (List Char × JsonObject)) :
    (ps.foldl (fun ms p => insertMember p.1 p.2 ms) ms).map Prod.fst =
      firstOccurrences (ms.map Prod.fst) (ps.map Prod.fst) := by
  induction ps generalizing ms with
  | nil => rfl
  | cons q rest ih =>
    rw [List.foldl_cons, ih, map_fst_insertMember]
    rfl

theorem insertMember_of_not_mem (k : List Char) (v : JsonObject)
    (ms : List (List Char × JsonObject)) (h : k ∉ ms.map Prod.fst) :
    insertMember k v ms = ms ++ [(k, v)] := by
  induction ms with
  | nil => rfl
  | cons q rest ih =>
    obtain ⟨kq, vq⟩ := q
    have hq : ¬ kq = k := fun e => h (by rw [← e]; exact List.mem_cons_self _ _)
    have hr : k ∉ rest.map Prod.fst := fun m => h (List.mem_cons_of_mem _ m)
    rw [insertMember, if_neg hq, ih hr, List.cons_append]

/-- Pairs under keys that are all different are kept as they are written. -/
theorem foldl_insertMember_of_nodup (ps ms : List (List Char × JsonObject))
    (h : (ms.map Prod.fst ++ ps.map Prod.fst).Nodup) :
    ps.foldl (fun ms p => insertMember p.1 p.2 ms) ms = ms ++ ps := by
  induction ps generalizing ms with
  | nil => simp
  | cons q rest ih =>
    have hq : q.1 ∉ ms.map Prod.fst := by
      intro m
      have := List.nodup_append.1 h
      exact this.2.2 m (List.mem_cons_self _ _)
    rw [List.foldl_cons, insertMember_of_not_mem _ _ _ hq, ih, List.append_assoc,
      List.singleton_append]
    rw [List.map_append, List.map_cons, List.map_nil, List.append_assoc, List.singleton_append]
    exact h

theorem Reader.run_ok_iff_isDocument (text : List Char) :
    (Reader.run text).error = none ↔ IsDocument text := by
  rw [Reader.run_ok_iff]
  constructor
  · rintro ⟨h1, v, hv⟩
    exact ⟨h1, v, _, hv⟩
  · rintro ⟨h1, v, evs, hv⟩
    refine ⟨h1, v, ?_⟩
    have := drive_of_derives hv
    have h2 := this [] .value (Or.inl rfl)
    rw [Reader.run_events]
    have h3 : (drive Driver.init (tokenize text).tokens).events = evs := by
      rw [show Driver.init = ⟨[], .value⟩ from rfl, h2]
    rw [h3]
    exact hv

theorem parse_null_callback {σ : Type} (text : List Char) :
    (Parser.parse text (none : Option (Callback σ))).returned =
      .ok (Reader.run text).error.isNone := rfl

theorem parse_false_of_lex {text : List Char} {k : ErrorKind}
    (h : (tokenize text).error = some k) :
    (Parser.parse text (none : Option (Callback Unit))).returned = .ok false := by
  rw [parse_null_callback, Reader.run_error_of_lex h]

/-! ## The JSON parser: theorems -/

/-- C15: the parser accepts exactly the grammar. With a null callback,
`parse()` returns true exactly when the text is a document: its bytes are
tokens of the tokenizer, read without a lex error, and the tokens are one
value of the grammar `value := object | array | STRING | NUMBER | TRUE | FALSE
| NULL`; for every other text it returns false. -/
theorem C15_accepts_exactly_the_grammar (text : List Char) :
    ((Parser.parse text (none : Option (Callback Unit))).returned = .ok true ↔
        IsDocument text) ∧
      (¬ IsDocument text →
        (Parser.parse text (none : Option (Callback Unit))).returned = .ok false) := by
  rw [parse_null_callback, ← Reader.run_ok_iff_isDocument]
  cases (Reader.run text).error with
  | none => simp
  | some e => simp

/-- C15 at the documents of the tests: the four of `parseGood` are documents,
the ten of `parseErrors` are not. -/
theorem C15_accepts_exactly_the_grammar_witness :
    IsDocument goodJson1 ∧ IsDocument goodJson2 ∧ IsDocument goodJson3 ∧ IsDocument goodJson4 ∧
    ¬ IsDocument badJson1 ∧ ¬ IsDocument badJson2 ∧ ¬ IsDocument badJson3 ∧
    ¬ IsDocument badJson4 ∧ ¬ IsDocument badJson5 ∧ ¬ IsDocument badJson6 ∧
    ¬ IsDocument badJson7 ∧ ¬ IsDocument badJson8 ∧ ¬ IsDocument badJson9 ∧
    ¬ IsDocument badJson10 :=
  ⟨(C15_accepts_exactly_the_grammar goodJson1).1.1 (by decide!),
    (C15_accepts_exactly_the_grammar goodJson2).1.1 (by decide!),
    (C15_accepts_exactly_the_grammar goodJson3).1.1 (by decide!),
    (C15_accepts_exactly_the_grammar goodJson4).1.1 (by decide!),
    fun h => absurd ((C15_accepts_exactly_the_grammar badJson1).1.2 h) (by decide!),
    fun h => absurd ((C15_accepts_exactly_the_grammar badJson2).1.2 h) (by decide!),
    fun h => absurd ((C15_accepts_exactly_the_grammar badJson3).1.2 h) (by decide!),
    fun h => absurd ((C15_accepts_exactly_the_grammar badJson4).1.2 h) (by decide!),
    fun h => absurd ((C15_accepts_exactly_the_grammar badJson5).1.2 h) (by decide!),
    fun h => absurd ((C15_accepts_exactly_the_grammar badJson6).1.2 h) (by decide!),
    fun h => absurd ((C15_accepts_exactly_the_grammar badJson7).1.2 h) (by decide!),
    fun h => absurd ((C15_accepts_exactly_the_grammar badJson8).1.2 h) (by decide!),
    fun h => absurd ((C15_accepts_exactly_the_grammar badJson9).1.2 h) (by decide!),
    fun h => absurd ((C15_accepts_exactly_the_grammar badJson10).1.2 h) (by decide!)⟩

/-- C16: number lexing. The tokenizer, started where a token may start, is
inside one number made of all the bytes of `w`, in a state in which the number
may end, exactly when `w` is an optional `-`, an integer part that is the
digit 0 or starts with a digit from 1 to 9, an optional fraction part of a dot
and one digit or more, and an optional exponent part of `e` or `E`, an
optional sign and one digit or more; such a `w` alone is read as one number
token. A document in which a token starts with a zero that a digit follows, or
in which the dot behind an integer part is followed by no digit, is rejected.
The texts `0` and `123.12e-34` have the shape of a number, `0123` and `123.`
have not. -/
theorem C16_number_lexing :
    (∀ w : List Char,
      (∃ st, LexMode.run .start w = .ok (.num st w, []) ∧ st.accepting = true) ↔ IsNumber w) ∧
    (∀ w : List Char, IsNumber w → tokenize w = ⟨[.NUMBER (numberOfLexeme w)], none⟩) ∧
    (∀ (pre sign rest : List Char) (toks : List Token) (d : Char),
      LexMode.run .start pre = .ok (.start, toks) → (sign = [] ∨ sign = ['-']) →
      d.isDigit = true →
      (Parser.parse (pre ++ (sign ++ '0' :: d :: rest))
        (none : Option (Callback Unit))).returned = .ok false) ∧
    (∀ (pre sign ip rest : List Char) (toks : List Token),
      LexMode.run .start pre = .ok (.start, toks) → (sign = [] ∨ sign = ['-']) →
      IsIntPart ip → (rest = [] ∨ ∃ c r, rest = c :: r ∧ c.isDigit = false) →
      (Parser.parse (pre ++ (sign ++ ip ++ '.' :: rest))
        (none : Option (Callback Unit))).returned = .ok false) ∧
    IsNumber "0".toList ∧ IsNumber "123.12e-34".toList ∧
    ¬ IsNumber "0123".toList ∧ ¬ IsNumber "123.".toList := by
  refine ⟨number_iff, fun w h => tokenize_number h, ?_, ?_, ?_, ?_, ?_, ?_⟩
  · intro pre sign rest toks d hpre hsg hd
    exact parse_false_of_lex (tokenize_leading_zero hpre hsg hd)
  · intro pre sign ip rest toks hpre hsg hi hrest
    exact parse_false_of_lex (tokenize_dangling_dot hpre hsg hi hrest)
  · exact (number_iff _).1 ⟨.zero, by decide!, rfl⟩
  · exact (number_iff _).1 ⟨.exp, by decide!, rfl⟩
  · intro h
    obtain ⟨st, h1, -⟩ := (number_iff _).2 h
    have h2 : LexMode.run .start "0123".toList = .error .LexError := by decide!
    rw [h2] at h1
    cases h1
  · intro h
    obtain ⟨st, h1, h3⟩ := (number_iff _).2 h
    have h2 : LexMode.run .start "123.".toList = .ok (.num .dot "123.".toList, []) := by decide!
    rw [h2] at h1
    cases h1
    cases h3

/-- C16 at the documents of the tests: `badJson1` (0123) and `badJson8`
(123.) are rejected, `goodJson3` (123.12e-34) and `goodJson4` (0) are
accepted. -/
theorem C16_number_lexing_witness :
    (Parser.parse badJson1 (none : Option (Callback Unit))).returned = .ok false ∧
    (Parser.parse badJson8 (none : Option (Callback Unit))).returned = .ok false ∧
    (Parser.parse goodJson3 (none : Option (Callback Unit))).returned = .ok true ∧
    (Parser.parse goodJson4 (none : Option (Callback Unit))).returned = .ok true ∧
    tokenize "123.12e-34".toList = ⟨[.NUMBER (numberOfLexeme "123.12e-34".toList)], none⟩ :=
  ⟨C16_number_lexing.2.2.1 "\x7b \"Test\" : ".toList [] "23 \x7d".toList
      [.LBRACE, .STRING "Test".toList, .COLON] '1' (by decide!) (Or.inl rfl) (by decide),
    C16_number_lexing.2.2.2.1 "\x7b \"Test\" : ".toList [] "123".toList " \x7d".toList
      [.LBRACE, .STRING "Test".toList, .COLON] (by decide!) (Or.inl rfl)
      (Or.inr ⟨'1', "23".toList, rfl, by decide, by decide, by decide⟩)
      (Or.inr ⟨' ', "\x7d".toList, rfl, by decide⟩),
    by decide!, by decide!,
    C16_number_lexing.2.1 _ C16_number_lexing.2.2.2.2.2.1⟩

/-- C17: error discipline of `parse()`. For a document, `parse()` returns true
with a null callback and with a callback; for a text that is not a document it
returns false with a null callback, without raising, and raises a
`JsonException` with a callback; so the texts for which the one returns false
are those for which the other raises. -/
theorem C17_error_discipline {σ : Type} (d : List Char) (cb : Callback σ) :
    (IsDocument d →
      (Parser.parse d (none : Option (Callback σ))).returned = .ok true ∧
        (Parser.parse d (some cb)).returned = .ok true) ∧
    (¬ IsDocument d →
      (Parser.parse d (none : Option (Callback σ))).returned = .ok false ∧
        ∃ e, (Parser.parse d (some cb)).returned = .error e) ∧
    ((Parser.parse d (none : Option (Callback σ))).returned = .ok false ↔
      ∃ e, (Parser.parse d (some cb)).returned = .error e) := by
  rw [← Reader.run_ok_iff_isDocument]
  simp only [Parser.parse, Parser.conclude]
  cases (Reader.run d).error with
  | none => simp
  | some e => simp

/-- C17 at the documents `json` and `jsonBad` of the tests `parseOnly` and
`parseString`. -/
theorem C17_error_discipline_witness :
    (Parser.parse json (none : Option (Callback ostream))).returned = .ok true ∧
    (Parser.parse json (some (JsonCallback.new []))).returned = .ok true ∧
    (Parser.parse jsonBad (none : Option (Callback ostream))).returned = .ok false ∧
    ∃ e, (Parser.parse jsonBad (some (JsonCallback.new []))).returned = .error e :=
  ⟨by decide!, by decide!, by decide!,
    (C17_error_discipline jsonBad (JsonCallback.new [])).2.2.1 (by decide!)⟩

/-- C18: for a well-formed document, one that `parse()` accepts, the events
are well balanced; they are the events of the tokens that are not separators,
in the order of the tokens; they are the events the grammar gives the
document, in which every key is followed by the events of exactly one value;
and a callback is given exactly these events, in this order. -/
theorem C18_events_balanced_in_order (text : List Char)
    (h : (Parser.parse text (none : Option (Callback Unit))).returned = .ok true) :
    wellBalanced (Reader.run text).events = true ∧
    (Reader.run text).events.map Event.token =
      (tokenize text).tokens.filter (fun t => !t.isSeparator) ∧
    (∃ v, Derives (.value v) (tokenize text).tokens (Reader.run text).events) ∧
    ∀ (σ : Type) (cb : Callback σ),
      (Parser.parse text (some cb)).returned = .ok true ∧
        (Parser.parse text (some cb)).callback = some (cb.deliver (Reader.run text).events) := by
  rw [parse_null_callback] at h
  have hok : (Reader.run text).error = none := by
    cases he : (Reader.run text).error with
    | none => rfl
    | some e => rw [he] at h; cases h
  obtain ⟨-, v, hv⟩ := (Reader.run_ok_iff text).1 hok
  refine ⟨wellBalanced_of_derives hv, tokens_of_derives hv, ⟨v, hv⟩, ?_⟩
  intro σ cb
  simp only [Parser.parse, Parser.conclude, hok, and_self]

/-- C18 at the documents `json` and `json2`: a `JsonCallback` writes exactly
the transcripts `result` and `result2`. -/
theorem C18_events_balanced_in_order_witness :
    wellBalanced (Reader.run json).events = true ∧
    wellBalanced (Reader.run json2).events = true ∧
    transcript json = some result ∧ transcript json2 = some result2 :=
  ⟨(C18_events_balanced_in_order json (by decide!)).1,
    (C18_events_balanced_in_order json2 (by decide!)).1, by decide!, by decide!⟩

/-- C20: the object builder. After a successful parse with a
`JsonObjectCallback`, `getObject()` is the node the grammar gives the
document, in which an object node is made of the pairs read, in order, and an
array node holds the elements read, in order. In an object made of pairs,
`operator[]` with a key gives the value of the last pair with that key; for an
array, `getArray()` gives the elements and `getArray()[i]` the element at
index `i`; the keys of an object are kept in the order of their first
writing, and pairs under keys that are all different are kept as they are
written. -/
theorem C20_builder_faithful (text : List Char)
    (h : (Parser.parse text (some JsonObjectCallback.new)).returned = .ok true) :
    (∃ root, parseObject text = some root ∧
      Derives (.value root) (tokenize text).tokens (Reader.run text).events) ∧
    (∀ (ps : List (List Char × JsonObject)) (k : List Char),
      (JsonObject.object (fromPairs ps)).get k =
        match ps.reverse.find? (fun p => p.1 = k) with
        | some p => .ok p.2
        | none => .error .noSuchKey) ∧
    (∀ (es : List JsonObject) (i : Nat),
      (JsonObject.array es).getArray = .ok es ∧
      (JsonObject.array es).at i =
        match es.get? i with
        | some v => .ok v
        | none => .error .outOfRange) ∧
    (∀ ps : List (List Char × JsonObject),
      (fromPairs ps).map Prod.fst = firstOccurrences [] (ps.map Prod.fst)) ∧
    (∀ ps : List (List Char × JsonObject), (ps.map Prod.fst).Nodup → fromPairs ps = ps) := by
  have hok : (Reader.run text).error = none := by
    simp only [Parser.parse, Parser.conclude] at h
    cases he : (Reader.run text).error with
    | none => rfl
    | some e => rw [he] at h; cases h
  obtain ⟨-, v, hv⟩ := (Reader.run_ok_iff text).1 hok
  refine ⟨⟨v, ?_, hv⟩, ?_, fun es i => ⟨rfl, rfl⟩, fun ps => map_fst_foldl_insertMember ps [],
    fun ps hps => foldl_insertMember_of_nodup ps [] hps⟩
  · simp only [parseObject, Parser.parse, Parser.conclude, Option.some_bind]
    exact getObject_of_derives hv
  · intro ps k
    simp only [JsonObject.get, find_fromPairs]

/-- C20 at the document `json`, the lookups of the test `jsonObjectTest`:
`obj["Image"]["Width"].getAsLong()` is 800, the title is the text written,
`obj["Image"]["IDs"].getArray()[3].getAsLong()` is -38793 and the element at
index 5 is the boolean false. -/
theorem C20_builder_faithful_witness :
    (∃ root, parseObject json = some root ∧
      Derives (.value root) (tokenize json).tokens (Reader.run json).events) ∧
    (parseObject json).map (fun obj =>
        obj.get "Image".toList >>= (fun o => o.get "Width".toList) >>= JsonObject.getAsLong) =
      some (.ok 800) ∧
    (parseObject json).map (fun obj =>
        obj.get "Image".toList >>= (fun o => o.get "Title".toList) >>=
          JsonObject.getAsString) = some (.ok "View from \t15th Floor".toList) ∧
    (parseObject json).map (fun obj =>
        obj.get "Image".toList >>= (fun o => o.get "IDs".toList) >>= (fun o => o.at 3) >>=
          JsonObject.getAsLong) = some (.ok (-38793)) ∧
    (parseObject json).map (fun obj =>
        obj.get "Image".toList >>= (fun o => o.get "IDs".toList) >>= (fun o => o.at 5) >>=
          JsonObject.getAsBool) = some (.ok false) :=
  ⟨(C20_builder_faithful json (by decide!)).1, by decide!, by decide!, by decide!, by decide!⟩

end json

/-! ## Comparison across classes; hash and order of the exact kinds -/

/-- C22: comparing values of two classes. For `a` and `b` of different
classes, `a == b` and `a < b` return false, raising nothing, when at least one
of the two is null, the null test coming before the downcast; both raise
`bad_cast`, from the `dynamic_cast` to a reference, when both are non-null, and
only then; neither ever returns true. -/
theorem C22_comparison_across_classes (E : Env) (a b : Value)
    (hk : a.getType ≠ b.getType) :
    ((a.isNull = true ∨ b.isNull = true) →
      Value.operator_eq E a b = .ok false ∧ Value.operator_lt E a b = .ok false) ∧
    ((a.isNull = false ∧ b.isNull = false) →
      Value.operator_eq E a b = .error .bad_cast ∧
        Value.operator_lt E a b = .error .bad_cast) ∧
    (Value.operator_eq E a b = .error .bad_cast ↔ a.isNull = false ∧ b.isNull = false) ∧
    (Value.operator_lt E a b = .error .bad_cast ↔ a.isNull = false ∧ b.isNull = false) ∧
    Value.operator_eq E a b ≠ .ok true ∧ Value.operator_lt E a b ≠ .ok true := by
  rw [operator_eq_closed_form, operator_lt_closed_form]
  cases ha : a.isNull <;> cases hb : b.isNull <;> simp [hk]

/-- C22 at the Int 1 against the Real 1.0, which raises, and at the null Int
against the Real 1.0, which returns false. -/
theorem C22_comparison_across_classes_witness :
    (Value.operator_eq sampleEnv (.ofInt (ValInt.new 1))
        (.ofDouble (ValDouble.new ⟨0x3FF0000000000000⟩)) = .error .bad_cast ∧
      Value.operator_lt sampleEnv (.ofInt (ValInt.new 1))
        (.ofDouble (ValDouble.new ⟨0x3FF0000000000000⟩)) = .error .bad_cast) ∧
    (Value.operator_eq sampleEnv (.ofInt ValInt.null)
        (.ofDouble (ValDouble.new ⟨0x3FF0000000000000⟩)) = .ok false ∧
      Value.operator_lt sampleEnv (.ofInt ValInt.null)
        (.ofDouble (ValDouble.new ⟨0x3FF0000000000000⟩)) = .ok false) :=
  ⟨(C22_comparison_across_classes sampleEnv (.ofInt (ValInt.new 1))
      (.ofDouble (ValDouble.new ⟨0x3FF0000000000000⟩)) (by decide)).2.1 ⟨rfl, rfl⟩,
    (C22_comparison_across_classes sampleEnv (.ofInt ValInt.null)
      (.ofDouble (ValDouble.new ⟨0x3FF0000000000000⟩)) (by decide)).1 (Or.inl rfl)⟩

/-- C23: for the kinds with exact equality the hash is a function of the
payload alone. The `getHash` of an Int or a Bool is the same whatever the null
flag; that of a Date, a Time or a Timestamp is the same for two payloads with
one backing integer, whatever the null flag; so for these five kinds `a == b`
gives `a.getHash() == b.getHash()`; and the null Int hashes like
`ValInt(INT64_MAX)`, the null Bool like `ValBool(false)`. -/
theorem C23_hash_of_payload (E : Env) :
    (∀ (p : Int) (n m : Bool),
      (Value.ofInt ⟨p, n⟩).getHash E = (Value.ofInt ⟨p, m⟩).getHash E) ∧
    (∀ (p n m : Bool),
      (Value.ofBool ⟨p, n⟩).getHash E = (Value.ofBool ⟨p, m⟩).getHash E) ∧
    (∀ (p q : Date) (n m : Bool), p.asJulianDay = q.asJulianDay →
      (Value.ofDate ⟨p, n⟩).getHash E = (Value.ofDate ⟨q, m⟩).getHash E) ∧
    (∀ (p q : Time) (n m : Bool), p.asInteger = q.asInteger →
      (Value.ofTime ⟨p, n⟩).getHash E = (Value.ofTime ⟨q, m⟩).getHash E) ∧
    (∀ (p q : Timestamp) (n m : Bool), p.asInteger = q.asInteger →
      (Value.ofTimestamp ⟨p, n⟩).getHash E = (Value.ofTimestamp ⟨q, m⟩).getHash E) ∧
    (∀ a b : Value, a.getType ≠ .REAL → a.getType ≠ .STRING →
      Value.operator_eq E a b = .ok true → a.getHash E = b.getHash E) ∧
    (Value.ofInt ValInt.null).getHash E = (Value.ofInt (ValInt.new INT64_MAX)).getHash E ∧
    (Value.ofBool ValBool.null).getHash E = (Value.ofBool (ValBool.new false)).getHash E := by
  refine ⟨fun _ _ _ => rfl, fun _ _ _ => rfl, ?_, ?_, ?_,
    fun a b hr hs h => hash_law_exact_kinds E a b hr hs h, rfl, rfl⟩
  · intro p q n m h
    simp only [Value.getHash, ValDate.getHash, h]
  · intro p q n m h
    simp only [Value.getHash, ValTime.getHash, h]
  · intro p q n m h
    simp only [Value.getHash, ValTimestamp.getHash, h]

/-- C23 at the Ints 5 and 5, which are equal and hash equal, and at the null
Int, whose hash in the sample environment is that of the largest `int64_t`. -/
theorem C23_hash_of_payload_witness :
    Value.operator_eq sampleEnv (.ofInt (ValInt.new 5)) (.ofInt (ValInt.new 5)) = .ok true ∧
    Value.getHash sampleEnv (.ofInt (ValInt.new 5)) =
      Value.getHash sampleEnv (.ofInt (ValInt.new 5)) ∧
    Value.getHash sampleEnv (.ofInt ValInt.null) = 9223372036854775807 ∧
    Value.getHash sampleEnv (.ofInt ValInt.null) =
      Value.getHash sampleEnv (.ofInt (ValInt.new INT64_MAX)) :=
  ⟨by decide,
    (C23_hash_of_payload sampleEnv).2.2.2.2.2.1 (.ofInt (ValInt.new 5)) (.ofInt (ValInt.new 5))
      (by decide) (by decide) (by decide),
    by decide, (C23_hash_of_payload sampleEnv).2.2.2.2.2.2.1⟩

/-- C24: order and equality agree on Int and Bool. For two non-null Ints, and
for two non-null Bools, exactly one of `a < b`, `a == b`, `b < a` returns true
and the other two return false; when either is null all three return
false. -/
theorem C24_order_agrees_with_equality (E : Env) (a b : Value)
    (hk : a.getType = b.getType) (hi : a.getType = .INT ∨ a.getType = .BOOLEAN) :
    (a.isNull = false → b.isNull = false →
      (Value.operator_lt E a b = .ok true ∧ Value.operator_eq E a b = .ok false ∧
          Value.operator_lt E b a = .ok false) ∨
        (Value.operator_lt E a b = .ok false ∧ Value.operator_eq E a b = .ok true ∧
          Value.operator_lt E b a = .ok false) ∨
        (Value.operator_lt E a b = .ok false ∧ Value.operator_eq E a b = .ok false ∧
          Value.operator_lt E b a = .ok true)) ∧
    (a.isNull = true ∨ b.isNull = true →
      Value.operator_lt E a b = .ok false ∧ Value.operator_eq E a b = .ok false ∧
        Value.operator_lt E b a = .ok false) := by
  constructor
  · intro ha hb
    rw [operator_lt_closed_form, operator_eq_closed_form, operator_lt_closed_form]
    simp only [ha, hb, hk, Bool.or_self, Bool.false_eq_true, if_false, if_true]
    cases a <;> cases b <;> simp [Value.getType] at hk hi
    · rename_i x y
      simp only [payload_less, payload_equal]
      rcases lt_trichotomy x._val y._val with h | h | h
      · left; simp [h, ne_of_lt h, not_lt_of_gt h]
      · right; left; simp [h]
      · right; right; simp [h, ne_of_gt h, not_lt_of_gt h]
    · rename_i x y
      simp only [payload_less, payload_equal]
      cases x._val <;> cases y._val <;> decide
  · intro h
    exact ⟨operator_lt_of_null E a b h, operator_eq_of_null E a b h,
      operator_lt_of_null E b a h.symm⟩

/-- C24 at the Ints 1 and 2, of which only `1 < 2` holds, at the Bools true
and true, of which only `==` holds, and at the null Int against the Int 2, for
which none holds. -/
theorem C24_order_agrees_with_equality_witness :
    (Value.operator_lt sampleEnv (.ofInt (ValInt.new 1)) (.ofInt (ValInt.new 2)) = .ok true ∧
      Value.operator_eq sampleEnv (.ofInt (ValInt.new 1)) (.ofInt (ValInt.new 2)) = .ok false ∧
      Value.operator_lt sampleEnv (.ofInt (ValInt.new 2)) (.ofInt (ValInt.new 1)) = .ok false) ∧
    (Value.operator_lt sampleEnv (.ofBool (ValBool.new true)) (.ofBool (ValBool.new true)) =
        .ok false ∧
      Value.operator_eq sampleEnv (.ofBool (ValBool.new true)) (.ofBool (ValBool.new true)) =
        .ok true) ∧
    (Value.operator_lt sampleEnv (.ofInt ValInt.null) (.ofInt (ValInt.new 2)) = .ok false ∧
      Value.operator_eq sampleEnv (.ofInt ValInt.null) (.ofInt (ValInt.new 2)) = .ok false ∧
      Value.operator_lt sampleEnv (.ofInt (ValInt.new 2)) (.ofInt ValInt.null) = .ok false) :=
  ⟨by decide, by decide,
    (C24_order_agrees_with_equality sampleEnv (.ofInt ValInt.null) (.ofInt (ValInt.new 2))
      rfl (Or.inl rfl)).2 (Or.inl rfl)⟩

end csvsqldb
